import Mathlib

/-!
# persian-currency-bot: scheduling, gating and delivery core

A shallow embedding of `internal/scheduler/scheduler.go` and of the parts of
`internal/db`, `internal/render`, `internal/items` and `internal/sources`
it calls.

Conventions of the embedding

* A stored Go `float64` value (a quote, a used value, a threshold) is held as
  the rational number `ℚ` it stands for; stored values are finite. The
  arithmetic of `anyTriggerChanged` is the float64 arithmetic of Go
  (`Float64`): every subtraction, division and multiplication rounds to the
  nearest float64, ties to even, and overflows to an infinity.
* Go `map[string]float64` is an association list with distinct keys
  (`AList`); `m[id]` with the comma-ok form is `AList.lookup`.
* `time.Time` is an integer count of nanoseconds since the Unix epoch.
* Go `error` values are modelled by their text (`err.Error()`).
-/

namespace CurrencyBot

/-- Go `map[string]float64`. -/
abbrev GoMap := AList (fun _ : String => ℚ)

/-! ## internal/items -/

namespace items

/-- Go struct `items.Item` (items.go 18-37); `Category` is its string value. -/
structure Item where
  ID : String
  Category : String
  NameFa : String
  Emoji : String
  BonbastSellKey : String
  BonbastBuyKey : String
  BonbastUnit : String
  NavasanKey : String
  NavasanSellKey : String
  NavasanBuyKey : String
  NavasanUnit : String
  NavasanIsCrypto : Bool

/-- The catalog `items.All` (items.go 39-84). -/
def All : List Item := [
  { ID := "USD", Category := "currency", NameFa := "دلار آمریکا", Emoji := "💵", BonbastSellKey := "usd1", BonbastBuyKey := "usd2", BonbastUnit := "toman", NavasanKey := "usd", NavasanSellKey := "usd_sell", NavasanBuyKey := "usd_buy", NavasanUnit := "toman", NavasanIsCrypto := false },
  { ID := "EUR", Category := "currency", NameFa := "یورو", Emoji := "💶", BonbastSellKey := "eur1", BonbastBuyKey := "eur2", BonbastUnit := "toman", NavasanKey := "eur", NavasanSellKey := "eur_sell", NavasanBuyKey := "eur_buy", NavasanUnit := "toman", NavasanIsCrypto := false },
  { ID := "GBP", Category := "currency", NameFa := "پوند انگلیس", Emoji := "💷", BonbastSellKey := "gbp1", BonbastBuyKey := "gbp2", BonbastUnit := "toman", NavasanKey := "gbp", NavasanSellKey := "gbp_sell", NavasanBuyKey := "gbp_buy", NavasanUnit := "toman", NavasanIsCrypto := false },
  { ID := "CHF", Category := "currency", NameFa := "فرانک سوئیس", Emoji := "💱", BonbastSellKey := "chf1", BonbastBuyKey := "chf2", BonbastUnit := "toman", NavasanKey := "chf", NavasanSellKey := "chf_sell", NavasanBuyKey := "chf_buy", NavasanUnit := "toman", NavasanIsCrypto := false },
  { ID := "CAD", Category := "currency", NameFa := "دلار کانادا", Emoji := "💱", BonbastSellKey := "cad1", BonbastBuyKey := "cad2", BonbastUnit := "toman", NavasanKey := "cad", NavasanSellKey := "cad_sell", NavasanBuyKey := "cad_buy", NavasanUnit := "toman", NavasanIsCrypto := false },
  { ID := "AUD", Category := "currency", NameFa := "دلار استرالیا", Emoji := "💱", BonbastSellKey := "aud1", BonbastBuyKey := "aud2", BonbastUnit := "toman", NavasanKey := "aud", NavasanSellKey := "aud_sell", NavasanBuyKey := "aud_buy", NavasanUnit := "toman", NavasanIsCrypto := false },
  { ID := "SEK", Category := "currency", NameFa := "کرون سوئد", Emoji := "💱", BonbastSellKey := "sek1", BonbastBuyKey := "sek2", BonbastUnit := "toman", NavasanKey := "sek", NavasanSellKey := "sek_sell", NavasanBuyKey := "sek_buy", NavasanUnit := "toman", NavasanIsCrypto := false },
  { ID := "NOK", Category := "currency", NameFa := "کرون نروژ", Emoji := "💱", BonbastSellKey := "nok1", BonbastBuyKey := "nok2", BonbastUnit := "toman", NavasanKey := "nok", NavasanSellKey := "nok_sell", NavasanBuyKey := "nok_buy", NavasanUnit := "toman", NavasanIsCrypto := false },
  { ID := "RUB", Category := "currency", NameFa := "روبل روسیه", Emoji := "💱", BonbastSellKey := "rub1", BonbastBuyKey := "rub2", BonbastUnit := "toman", NavasanKey := "rub", NavasanSellKey := "rub_sell", NavasanBuyKey := "rub_buy", NavasanUnit := "toman", NavasanIsCrypto := false },
  { ID := "THB", Category := "currency", NameFa := "بات تایلند", Emoji := "💱", BonbastSellKey := "thb1", BonbastBuyKey := "thb2", BonbastUnit := "toman", NavasanKey := "thb", NavasanSellKey := "thb_sell", NavasanBuyKey := "thb_buy", NavasanUnit := "toman", NavasanIsCrypto := false },
  { ID := "JPY", Category := "currency", NameFa := "ین ژاپن", Emoji := "💱", BonbastSellKey := "jpy1", BonbastBuyKey := "jpy2", BonbastUnit := "toman", NavasanKey := "jpy", NavasanSellKey := "jpy_sell", NavasanBuyKey := "jpy_buy", NavasanUnit := "toman", NavasanIsCrypto := false },
  { ID := "SGD", Category := "currency", NameFa := "دلار سنگاپور", Emoji := "💱", BonbastSellKey := "sgd1", BonbastBuyKey := "sgd2", BonbastUnit := "toman", NavasanKey := "sgd", NavasanSellKey := "sgd_sell", NavasanBuyKey := "sgd_buy", NavasanUnit := "toman", NavasanIsCrypto := false },
  { ID := "HKD", Category := "currency", NameFa := "دلار هنگ‌کنگ", Emoji := "💱", BonbastSellKey := "hkd1", BonbastBuyKey := "hkd2", BonbastUnit := "toman", NavasanKey := "hkd", NavasanSellKey := "hkd_sell", NavasanBuyKey := "hkd_buy", NavasanUnit := "toman", NavasanIsCrypto := false },
  { ID := "NZD", Category := "currency", NameFa := "دلار نیوزیلند", Emoji := "💱", BonbastSellKey := "nzd1", BonbastBuyKey := "nzd2", BonbastUnit := "toman", NavasanKey := "nzd", NavasanSellKey := "nzd_sell", NavasanBuyKey := "nzd_buy", NavasanUnit := "toman", NavasanIsCrypto := false },
  { ID := "ZAR", Category := "currency", NameFa := "رَند آفریقای جنوبی", Emoji := "💱", BonbastSellKey := "zar1", BonbastBuyKey := "zar2", BonbastUnit := "toman", NavasanKey := "zar", NavasanSellKey := "zar_sell", NavasanBuyKey := "zar_buy", NavasanUnit := "toman", NavasanIsCrypto := false },
  { ID := "TRY", Category := "currency", NameFa := "لیر ترکیه", Emoji := "💱", BonbastSellKey := "try1", BonbastBuyKey := "try2", BonbastUnit := "toman", NavasanKey := "try", NavasanSellKey := "try_sell", NavasanBuyKey := "try_buy", NavasanUnit := "toman", NavasanIsCrypto := false },
  { ID := "CNY", Category := "currency", NameFa := "یوان چین", Emoji := "💱", BonbastSellKey := "cny1", BonbastBuyKey := "cny2", BonbastUnit := "toman", NavasanKey := "cny", NavasanSellKey := "cny_sell", NavasanBuyKey := "cny_buy", NavasanUnit := "toman", NavasanIsCrypto := false },
  { ID := "SAR", Category := "currency", NameFa := "ریال عربستان", Emoji := "💱", BonbastSellKey := "sar1", BonbastBuyKey := "sar2", BonbastUnit := "toman", NavasanKey := "sar", NavasanSellKey := "sar_sell", NavasanBuyKey := "sar_buy", NavasanUnit := "toman", NavasanIsCrypto := false },
  { ID := "INR", Category := "currency", NameFa := "روپیه هند", Emoji := "💱", BonbastSellKey := "inr1", BonbastBuyKey := "inr2", BonbastUnit := "toman", NavasanKey := "inr", NavasanSellKey := "inr_sell", NavasanBuyKey := "inr_buy", NavasanUnit := "toman", NavasanIsCrypto := false },
  { ID := "MYR", Category := "currency", NameFa := "رینگیت مالزی", Emoji := "💱", BonbastSellKey := "myr1", BonbastBuyKey := "myr2", BonbastUnit := "toman", NavasanKey := "myr", NavasanSellKey := "myr_sell", NavasanBuyKey := "myr_buy", NavasanUnit := "toman", NavasanIsCrypto := false },
  { ID := "DKK", Category := "currency", NameFa := "کرون دانمارک", Emoji := "💱", BonbastSellKey := "dkk1", BonbastBuyKey := "dkk2", BonbastUnit := "toman", NavasanKey := "dkk", NavasanSellKey := "dkk_sell", NavasanBuyKey := "dkk_buy", NavasanUnit := "toman", NavasanIsCrypto := false },
  { ID := "AED", Category := "currency", NameFa := "درهم امارات", Emoji := "💱", BonbastSellKey := "aed1", BonbastBuyKey := "aed2", BonbastUnit := "toman", NavasanKey := "aed", NavasanSellKey := "aed_sell", NavasanBuyKey := "aed_buy", NavasanUnit := "toman", NavasanIsCrypto := false },
  { ID := "IQD", Category := "currency", NameFa := "دینار عراق", Emoji := "💱", BonbastSellKey := "iqd1", BonbastBuyKey := "iqd2", BonbastUnit := "toman", NavasanKey := "iqd", NavasanSellKey := "iqd_sell", NavasanBuyKey := "iqd_buy", NavasanUnit := "toman", NavasanIsCrypto := false },
  { ID := "KWD", Category := "currency", NameFa := "دینار کویت", Emoji := "💱", BonbastSellKey := "kwd1", BonbastBuyKey := "kwd2", BonbastUnit := "toman", NavasanKey := "kwd", NavasanSellKey := "kwd_sell", NavasanBuyKey := "kwd_buy", NavasanUnit := "toman", NavasanIsCrypto := false },
  { ID := "BHD", Category := "currency", NameFa := "دینار بحرین", Emoji := "💱", BonbastSellKey := "bhd1", BonbastBuyKey := "bhd2", BonbastUnit := "toman", NavasanKey := "bhd", NavasanSellKey := "bhd_sell", NavasanBuyKey := "bhd_buy", NavasanUnit := "toman", NavasanIsCrypto := false },
  { ID := "OMR", Category := "currency", NameFa := "ریال عمان", Emoji := "💱", BonbastSellKey := "omr1", BonbastBuyKey := "omr2", BonbastUnit := "toman", NavasanKey := "omr", NavasanSellKey := "omr_sell", NavasanBuyKey := "omr_buy", NavasanUnit := "toman", NavasanIsCrypto := false },
  { ID := "QAR", Category := "currency", NameFa := "ریال قطر", Emoji := "💱", BonbastSellKey := "qar1", BonbastBuyKey := "qar2", BonbastUnit := "toman", NavasanKey := "qar", NavasanSellKey := "qar_sell", NavasanBuyKey := "qar_buy", NavasanUnit := "toman", NavasanIsCrypto := false },
  { ID := "EMAMI", Category := "coin", NameFa := "سکه امامی", Emoji := "🪙", BonbastSellKey := "sekeb", BonbastBuyKey := "", BonbastUnit := "toman", NavasanKey := "sekeb", NavasanSellKey := "", NavasanBuyKey := "", NavasanUnit := "toman", NavasanIsCrypto := false },
  { ID := "BAHAR", Category := "coin", NameFa := "سکه بهار آزادی", Emoji := "🪙", BonbastSellKey := "sekeb1", BonbastBuyKey := "", BonbastUnit := "toman", NavasanKey := "sekeb1", NavasanSellKey := "", NavasanBuyKey := "", NavasanUnit := "toman", NavasanIsCrypto := false },
  { ID := "NIM", Category := "coin", NameFa := "نیم سکه", Emoji := "🪙", BonbastSellKey := "sekeb2", BonbastBuyKey := "", BonbastUnit := "toman", NavasanKey := "sekeb2", NavasanSellKey := "", NavasanBuyKey := "", NavasanUnit := "toman", NavasanIsCrypto := false },
  { ID := "ROB", Category := "coin", NameFa := "ربع سکه", Emoji := "🪙", BonbastSellKey := "sekeb3", BonbastBuyKey := "", BonbastUnit := "toman", NavasanKey := "sekeb3", NavasanSellKey := "", NavasanBuyKey := "", NavasanUnit := "toman", NavasanIsCrypto := false },
  { ID := "GERAMI", Category := "coin", NameFa := "سکه گرمی", Emoji := "🪙", BonbastSellKey := "sekeb4", BonbastBuyKey := "", BonbastUnit := "toman", NavasanKey := "sekeb4", NavasanSellKey := "", NavasanBuyKey := "", NavasanUnit := "toman", NavasanIsCrypto := false },
  { ID := "GERAM18", Category := "gold", NameFa := "هر گرم طلای ۱۸ عیار", Emoji := "🥇", BonbastSellKey := "geram18", BonbastBuyKey := "", BonbastUnit := "toman", NavasanKey := "geram18", NavasanSellKey := "", NavasanBuyKey := "", NavasanUnit := "toman", NavasanIsCrypto := false },
  { ID := "GERAM24", Category := "gold", NameFa := "هر گرم طلای ۲۴ عیار", Emoji := "🥇", BonbastSellKey := "geram24", BonbastBuyKey := "", BonbastUnit := "toman", NavasanKey := "geram24", NavasanSellKey := "", NavasanBuyKey := "", NavasanUnit := "toman", NavasanIsCrypto := false },
  { ID := "MITHQAL", Category := "gold", NameFa := "مثقال طلا", Emoji := "🥇", BonbastSellKey := "mithqal", BonbastBuyKey := "", BonbastUnit := "toman", NavasanKey := "mithqal", NavasanSellKey := "", NavasanBuyKey := "", NavasanUnit := "toman", NavasanIsCrypto := false },
  { ID := "OUNCE", Category := "gold", NameFa := "اونس طلا", Emoji := "🌍", BonbastSellKey := "gold", BonbastBuyKey := "", BonbastUnit := "usd", NavasanKey := "usd_xau", NavasanSellKey := "", NavasanBuyKey := "", NavasanUnit := "usd", NavasanIsCrypto := false },
  { ID := "BTC", Category := "crypto", NameFa := "بیت‌کوین", Emoji := "₿", BonbastSellKey := "btc", BonbastBuyKey := "", BonbastUnit := "usd", NavasanKey := "btc", NavasanSellKey := "", NavasanBuyKey := "", NavasanUnit := "usd", NavasanIsCrypto := true }
]

/-- The lookup `items.ByID` (items.go 86-98): `init` assigns `byID[it.ID] = it` for each
catalog entry in order, so the last entry with a given ID is the one found. -/
def ByID (id : String) : Option Item :=
  All.reverse.find? (fun it => it.ID = id)

end items

/-! ## internal/sources: types -/

namespace sources

/-- Go struct `sources.Quote` (types.go 17-21); the `*float64` fields are options. -/
structure Quote where
  Sell : Option ℚ
  Buy : Option ℚ
  Unit : String

/-- Go struct `sources.Snapshot` (types.go 23-28). -/
structure Snapshot where
  Provider : String
  Method : String
  FetchedAt : Int
  Quotes : AList (fun _ : String => Quote)

end sources

/-! ## internal/db: ChatSettings -/

namespace db

/-- Go struct `db.ChatSettings` (db.go). The `sql.Null*` fields are options. -/
structure ChatSettings where
  ChatID : Int
  SourceProvider : String
  SourceMethod : String
  IntervalMinutes : Int
  DowntimeEnabled : Bool
  DowntimeStart : String
  DowntimeEnd : String
  TriggerItems : List String
  TriggerThresholdType : String
  TriggerThresholdValue : ℚ
  PostMode : String
  PriceMode : String
  Digits : String
  ShowSameArrow : Bool
  TemplateID : String
  LastPostMessageID : Option Int
  LastPostTime : Option Int
  LastFetchTime : Option Int
  LastError : Option String

end db


namespace db

/-- Go struct `db.Template` (db.go 616-626). -/
structure Template where
  TemplateID : String
  Name : String
  Description : String
  Body : String
  MediaType : String
  MediaFileID : String
  IsBuiltin : Bool
  CreatedBy : Int
  CreatedAt : Int

/-- A row of table `chat_last_values` below its primary key `(chat_id, item_id)`. -/
structure LastValueRow where
  last_value : ℚ
  last_updated_at : Int

/-- The SQLite tables the scheduler reads and writes, keyed by their primary keys:
`chat_settings` by `chat_id` and `chat_last_values` by `(chat_id, item_id)`. -/
structure Store where
  chat_settings : Int → Option ChatSettings
  chat_last_values : Int → String → Option LastValueRow

end db

/-! ## The environment and the world state -/

/-- Everything postOnce observes from outside the program, as an oracle: the wall clock,
the outcome of each store statement, the outcome of the quote fetch and of the
Telegram requests, and the rendering helpers that are not modelled. -/
structure Env where
  /-- The n-th reading of `time.Now()`, in nanoseconds since the Unix epoch. -/
  now : Nat → Int
  /-- The error, if any, of the n-th store write statement. -/
  writeErr : Nat → Option String
  /-- The error, if any, of the query of `db.GetChatSettings`. -/
  chatSettingsErr : Option String
  /-- The outcome of `db.EnabledItemIDs`. -/
  EnabledItemIDs : Except String (List String)
  /-- The outcome of `sources.Manager.Get`. -/
  srcGet : Except String sources.Snapshot
  /-- The outcome of `db.GetTemplate`. -/
  GetTemplate : Except String db.Template
  /-- The error, if any, of the query of `db.GetLastValues`. -/
  lastValuesErr : Option String
  /-- The error, if any, of the query of `db.GetLastPostMessageID`. -/
  lastPostErr : Option String
  /-- The function `utils.FormatNumber` (number formatting is not modelled). -/
  FormatNumber : ℚ → String → String → String
  /-- The message text produced by the template substitution of `render.BuildMessage`. -/
  text : String
  /-- The error, if any, of the edit request `bot.Request`. -/
  botRequest : Option String
  /-- The outcome of `bot.Send`: an error or the id of the sent message. -/
  botSend : Except String Int
  /-- Whether the scheduler was built with a non-nil `Notifier`. -/
  hasNotifier : Bool

/-- The calls the scheduler makes on its collaborators, and the entries into its own
failure-notification routine, recorded in the order they happen. -/
inductive Call where
  | srcGet (provider method : String)
  | UpdateFetchHealth (chatID fetchedAt : Int) (errMsg : String)
  | SetLastValue (chatID : Int) (itemID : String) (value : ℚ)
  | UpdateLastPost (chatID messageID t : Int)
  | notifySourceFail (chatID : Int) (err : String)
  | NotifyAdmins (chatID : Int) (provider method err : String)
  | botEditCaption (chatID messageID : Int) (caption : String)
  | botEditText (chatID messageID : Int) (text : String)
  | botSendVideo (chatID : Int) (fileID caption : String)
  | botSendPhoto (chatID : Int) (fileID caption : String)
  | botSendMessage (chatID : Int) (text : String)
  deriving DecidableEq

/-- Whether a call is a Telegram delivery request (an edit or a send). -/
def Call.isDelivery : Call → Bool
  | .botEditCaption _ _ _ => true
  | .botEditText _ _ _ => true
  | .botSendVideo _ _ _ => true
  | .botSendPhoto _ _ _ => true
  | .botSendMessage _ _ => true
  | _ => false

/-- Whether a call is a new-message send. -/
def Call.isSend : Call → Bool
  | .botSendVideo _ _ _ => true
  | .botSendPhoto _ _ _ => true
  | .botSendMessage _ _ => true
  | _ => false

/-- Whether a call is a `SetLastValue` or an `UpdateLastPost` store write. -/
def Call.isBaselineWrite : Call → Bool
  | .SetLastValue _ _ _ => true
  | .UpdateLastPost _ _ _ => true
  | _ => false

/-- The mutable state: the store, the scheduler field `lastFailNotify`, how many clock
readings and store writes have happened, and the call log. -/
structure World where
  store : db.Store
  lastFailNotify : Int → Option Int
  clockReads : Nat
  writes : Nat
  log : List Call

/-- Append a call to the log. -/
def World.logCall (w : World) (c : Call) : World :=
  { w with log := w.log ++ [c] }

/-- The calls logged between world `w` and a later world `w2`. -/
def newCalls (w w2 : World) : List Call :=
  w2.log.drop w.log.length

/-- One reading of `time.Now()`. -/
def timeNow (env : Env) (w : World) : Int × World :=
  (env.now w.clockReads, { w with clockReads := w.clockReads + 1 })

/-- Go `time.Time.Unix`: whole seconds since the epoch. -/
def unixSeconds (t : Int) : Int := t / 1000000000

/-- One store write statement: it fails as the environment says, leaving the store as it
was, or it applies `f`. -/
def execWrite (env : Env) (w : World) (f : db.Store → db.Store) : Option String × World :=
  match env.writeErr w.writes with
  | some e => (some e, { w with writes := w.writes + 1 })
  | none => (none, { w with writes := w.writes + 1, store := f w.store })

/-! ## internal/db: the accessors the scheduler calls -/

namespace db

/-- Apply `f` to the `chat_settings` row of `chatID`, if there is one
(`UPDATE chat_settings SET ... WHERE chat_id=?`). -/
def updateSettingsRow (st : Store) (chatID : Int) (f : ChatSettings → ChatSettings) : Store :=
  { st with chat_settings := fun c =>
      if c = chatID then (st.chat_settings c).map f else st.chat_settings c }

/-- Insert or replace the `chat_last_values` row of `(chatID, itemID)`
(`INSERT ... ON CONFLICT(chat_id,item_id) DO UPDATE`). -/
def upsertLastValue (st : Store) (chatID : Int) (itemID : String) (row : LastValueRow) : Store :=
  { st with chat_last_values := fun c i =>
      if c = chatID ∧ i = itemID then some row else st.chat_last_values c i }

/-- The accessor `(*DB).GetChatSettings` (db.go 458-480): the settings row of the chat;
scanning fails when there is no row. -/
def GetChatSettings (env : Env) (w : World) (chatID : Int) : Except String ChatSettings :=
  match env.chatSettingsErr with
  | some e => .error e
  | none =>
    match w.store.chat_settings chatID with
    | none => .error "sql: no rows in result set"
    | some row => .ok { row with ChatID := chatID }

/-- The accessor `(*DB).GetLastValues` (values.go 9-35): the stored values of the requested
items, as a map; no query is made for an empty item list. -/
def GetLastValues (env : Env) (w : World) (chatID : Int) (itemIDs : List String) :
    Except String GoMap :=
  if itemIDs.length = 0 then .ok ∅
  else
    match env.lastValuesErr with
    | some e => .error e
    | none =>
      .ok (itemIDs.foldl
        (fun out id =>
          match w.store.chat_last_values chatID id with
          | some row => out.insert id row.last_value
          | none => out)
        ∅)

/-- The accessor `(*DB).GetLastPostMessageID` (values.go 48-52): the nullable column
`last_post_message_id` of the chat's settings row; scanning fails when there is no row. -/
def GetLastPostMessageID (env : Env) (w : World) (chatID : Int) : Except String (Option Int) :=
  match env.lastPostErr with
  | some e => .error e
  | none =>
    match w.store.chat_settings chatID with
    | none => .error "sql: no rows in result set"
    | some row => .ok row.LastPostMessageID

/-- The accessor `(*DB).SetLastValue` (db.go 696-703). -/
def SetLastValue (env : Env) (w : World) (chatID : Int) (itemID : String) (value : ℚ) :
    Option String × World :=
  let w := w.logCall (.SetLastValue chatID itemID value)
  let (t, w) := timeNow env w
  let now := unixSeconds t
  execWrite env w (fun st => upsertLastValue st chatID itemID ⟨value, now⟩)

/-- The accessor `(*DB).UpdateLastPost` (db.go 705-708). -/
def UpdateLastPost (env : Env) (w : World) (chatID messageID t : Int) : Option String × World :=
  let w := w.logCall (.UpdateLastPost chatID messageID t)
  execWrite env w (fun st => updateSettingsRow st chatID (fun row =>
    { row with LastPostMessageID := some messageID, LastPostTime := some (unixSeconds t) }))

/-- The accessor `(*DB).UpdateFetchHealth` (db.go 710-717): an empty error text is stored
as NULL. -/
def UpdateFetchHealth (env : Env) (w : World) (chatID fetchedAt : Int) (errMsg : String) :
    Option String × World :=
  let w := w.logCall (.UpdateFetchHealth chatID fetchedAt errMsg)
  let errVal : Option String := if errMsg ≠ "" then some errMsg else none
  execWrite env w (fun st => updateSettingsRow st chatID (fun row =>
    { row with LastFetchTime := some (unixSeconds fetchedAt), LastError := errVal }))

/-- The stored last value of an item of a chat (`GetLastValue`, db.go 684-694). -/
def Store.lastValue (st : Store) (chatID : Int) (itemID : String) : Option ℚ :=
  (st.chat_last_values chatID itemID).map (fun row => row.last_value)

/-- The last-post record of a chat: the columns `last_post_message_id` and
`last_post_time` of its settings row, if the row exists. -/
def Store.lastPost (st : Store) (chatID : Int) : Option (Option Int × Option Int) :=
  (st.chat_settings chatID).map (fun row => (row.LastPostMessageID, row.LastPostTime))

/-- The fetch-health record of a chat: the columns `last_fetch_time` and `last_error` of
its settings row, if the row exists. -/
def Store.fetchHealth (st : Store) (chatID : Int) : Option (Option Int × Option String) :=
  (st.chat_settings chatID).map (fun row => (row.LastFetchTime, row.LastError))

end db

/-! ## internal/render -/

namespace render

/-- Go struct `render.Output` (render.go 26-32), without the `Lines` field, which the
scheduler never reads. -/
structure Output where
  Text : String
  UsedValues : GoMap
  MediaType : String
  MediaFileID : String

/-- The value selection of `formatPrice` (render.go 138-164): the used value and whether
there is one. -/
def pickUsedVal (priceMode : String) (q : sources.Quote) : ℚ × Bool :=
  if priceMode = "buy" then
    match q.Buy, q.Sell with
    | some b, _ => (b, true)
    | none, some s => (s, true)
    | none, none => (0, false)
  else if priceMode = "both" then
    match q.Sell, q.Buy with
    | some s, _ => (s, true)
    | none, some b => (b, true)
    | none, none => (0, false)
  else
    match q.Sell, q.Buy with
    | some s, _ => (s, true)
    | none, some b => (b, true)
    | none, none => (0, false)

/-- The function `formatPrice` (render.go 132-187): the display string, the used value and
whether the quote has a value. `FormatNumber` is `utils.FormatNumber`. -/
def formatPrice (FormatNumber : ℚ → String → String → String) (priceMode digits : String)
    (q : sources.Quote) : String × ℚ × Bool :=
  let usedVal := (pickUsedVal priceMode q).1
  let hasVal := (pickUsedVal priceMode q).2
  let unit := q.Unit
  if !hasVal then ("", 0, false)
  else if priceMode = "both" then
    match q.Sell, q.Buy with
    | some s, some b => (FormatNumber s unit digits ++ " / " ++ FormatNumber b unit digits, usedVal, true)
    | _, _ => (FormatNumber usedVal unit digits, usedVal, true)
  else if priceMode = "buy" then
    match q.Buy with
    | some b => (FormatNumber b unit digits, usedVal, true)
    | none => (FormatNumber usedVal unit digits, usedVal, true)
  else (FormatNumber usedVal unit digits, usedVal, true)

/-- The `used` map built by the item loop of `BuildMessage` (render.go 38-90): an enabled
item contributes its used value when it is in the catalog, the snapshot has a quote for
it and the quote has a value. -/
def usedValuesLoop (FormatNumber : ℚ → String → String → String)
    (settings : db.ChatSettings) (snap : sources.Snapshot) : List String → GoMap → GoMap
  | [], used => used
  | id :: rest, used =>
    match items.ByID id with
    | none => usedValuesLoop FormatNumber settings snap rest used
    | some _ =>
      match snap.Quotes.lookup id with
      | none => usedValuesLoop FormatNumber settings snap rest used
      | some q =>
        match formatPrice FormatNumber settings.PriceMode settings.Digits q with
        | (_, usedVal, hasVal) =>
          if !hasVal then usedValuesLoop FormatNumber settings snap rest used
          else usedValuesLoop FormatNumber settings snap rest (used.insert id usedVal)

/-- The function `render.BuildMessage` (render.go 35-130). The used-value map and the media
fields are computed as in the source; the message text (line rendering, template
substitution and the Jalali date) is taken from the environment. -/
def BuildMessage (env : Env) (settings : db.ChatSettings) (tmpl : db.Template)
    (enabledItemIDs : List String) (snap : sources.Snapshot) (_lastValues : GoMap) : Output :=
  { Text := env.text
    UsedValues := usedValuesLoop env.FormatNumber settings snap enabledItemIDs ∅
    MediaType := tmpl.MediaType
    MediaFileID := tmpl.MediaFileID }

end render

/-! ## float64 arithmetic -/

/-- A Go `float64` value (IEEE 754 binary64): a finite value, given exactly by the fraction
`num / den` (the sign of a zero is not kept), an infinity, or NaN. -/
inductive Float64 where
  | finite (num : Int) (den : Nat)
  | inf (negative : Bool)
  | nan
  deriving DecidableEq, Repr

namespace Float64

/-- The number of binary digits of `n`, counted with the given fuel. -/
def bitLength : Nat → Nat → Nat
  | 0, _ => 0
  | fuel + 1, n => if n = 0 then 0 else bitLength fuel (n / 2) + 1

/-- The number of binary digits of `n`. -/
def bits (n : Nat) : Nat := bitLength n n

/-- The power `2 ^ k` for `k ≥ 0`, and 1 for a negative `k`. -/
def pow2 (k : Int) : Nat := 2 ^ k.toNat

/-- The integer nearest to `n / d`, the even one when two are equally near. -/
def roundHalfEven (n d : Nat) : Nat :=
  let q := n / d
  let r := n % d
  if 2 * r < d then q
  else if d < 2 * r then q + 1
  else if q % 2 = 0 then q else q + 1

/-- The binary exponent of the last place of the float64 nearest to `a / b`, for positive
`a` and `b`: the `e` with `2 ^ 52 ≤ a / (b * 2 ^ e) < 2 ^ 53`, and -1074 (the exponent of
the subnormal numbers) when that `e` is smaller. -/
def exponentOf (a b : Nat) : Int :=
  let e0 : Int := (bits a : Int) - (bits b : Int) - 53
  let q0 := (a * pow2 (-e0)) / (b * pow2 e0)
  let e1 := if 2 ^ 53 ≤ q0 then e0 + 1 else e0
  max e1 (-1074)

/-- The float64 nearest to the fraction `num / den` (round to nearest, ties to even, the
rounding of every float64 operation of Go): a significand of 53 bits, an infinity from
`2 ^ 1024` on. -/
def round (num : Int) (den : Nat) : Float64 :=
  if num = 0 then finite 0 1
  else
    let e := exponentOf num.natAbs den
    let m := roundHalfEven (num.natAbs * pow2 (-e)) (den * pow2 e)
    if 972 ≤ e ∨ (e = 971 ∧ 2 ^ 53 ≤ m) then inf (decide (num < 0))
    else finite ((if num < 0 then -1 else 1) * ((m * pow2 e : Nat) : Int)) (pow2 (-e))

/-- A stored float64 value, which the maps and the settings hold as a rational number. -/
def ofRat (q : ℚ) : Float64 := finite q.num q.den

/-- Go `-x`. -/
def neg : Float64 → Float64
  | finite n d => finite (-n) d
  | inf s => inf (!s)
  | nan => nan

/-- Go `x < 0`. -/
def ltZero : Float64 → Bool
  | finite n _ => decide (n < 0)
  | inf s => s
  | nan => false

/-- Go `x - y`. -/
def sub : Float64 → Float64 → Float64
  | finite a b, finite c d => round (a * d - c * b) (b * d)
  | finite _ _, inf s => inf (!s)
  | inf s, finite _ _ => inf s
  | inf s, inf t => if s = t then nan else inf s
  | _, _ => nan

/-- Go `x * y`. -/
def mul : Float64 → Float64 → Float64
  | finite a b, finite c d => round (a * c) (b * d)
  | finite a _, inf s => if a = 0 then nan else inf (xor s (decide (a < 0)))
  | inf s, finite c _ => if c = 0 then nan else inf (xor s (decide (c < 0)))
  | inf s, inf t => inf (xor s t)
  | _, _ => nan

/-- Go `x / y`. -/
def div : Float64 → Float64 → Float64
  | finite a b, finite c d =>
    if c = 0 then (if a = 0 then nan else inf (decide (a < 0)))
    else round ((if c < 0 then -1 else 1) * (a * d)) (b * c.natAbs)
  | finite _ _, inf _ => finite 0 1
  | inf s, finite c _ => inf (xor s (decide (c < 0)))
  | _, _ => nan

/-- Go `x >= y`. -/
def ge : Float64 → Float64 → Bool
  | finite a b, finite c d => decide (c * b ≤ a * d)
  | finite _ _, inf t => t
  | inf s, finite _ _ => !s
  | inf s, inf t => !s || t
  | _, _ => false

end Float64

/-! ## internal/scheduler: anyTriggerChanged -/

namespace scheduler

/-- The value of `delta` after scheduler.go 207-210: the float64 difference `cur - prev`,
negated when it is below zero. -/
def absDelta (cur prev : ℚ) : Float64 :=
  let delta := Float64.sub (Float64.ofRat cur) (Float64.ofRat prev)
  if delta.ltZero then delta.neg else delta

/-- The value of `pct` at scheduler.go 216: `(delta / prev) * 100.0` in float64, a division
and then a multiplication, each rounded. -/
def pctOf (delta : Float64) (prev : ℚ) : Float64 :=
  Float64.mul (Float64.div delta (Float64.ofRat prev)) (Float64.ofRat 100)

/-- The `for _, id := range settings.TriggerItems` loop of `anyTriggerChanged`
(scheduler.go 198-226), with the float64 arithmetic of Go. The first component is the
returned boolean; the second component records, in evaluation order, the divisor of every
division `delta / prev` the loop evaluates. -/
def anyTriggerChangedLoop (thresholdType : String) (thresholdVal : ℚ)
    (current last : GoMap) : List String → Bool × List ℚ
  | [] => (false, [])
  | id :: rest =>
    match current.lookup id with
    | none => anyTriggerChangedLoop thresholdType thresholdVal current last rest
    | some cur =>
      match last.lookup id with
      | none => (true, [])
      | some prev =>
        let delta := Float64.sub (Float64.ofRat cur) (Float64.ofRat prev)
        let delta := if delta.ltZero then delta.neg else delta
        if thresholdType = "pct" then
          if prev = 0 then (true, [])
          else
            let pct := Float64.mul (Float64.div delta (Float64.ofRat prev)) (Float64.ofRat 100)
            if pct.ge (Float64.ofRat thresholdVal) then (true, [prev])
            else
              let r := anyTriggerChangedLoop thresholdType thresholdVal current last rest
              (r.1, prev :: r.2)
        else
          if delta.ge (Float64.ofRat thresholdVal) then (true, [])
          else anyTriggerChangedLoop thresholdType thresholdVal current last rest

/-- The function `(*Scheduler).anyTriggerChanged` (scheduler.go 195-227) together with
the divisors of the divisions it evaluates. -/
def anyTriggerChangedTraced (settings : db.ChatSettings) (current last : GoMap) :
    Bool × List ℚ :=
  anyTriggerChangedLoop settings.TriggerThresholdType settings.TriggerThresholdValue
    current last settings.TriggerItems

/-- The boolean returned by `(*Scheduler).anyTriggerChanged`. -/
def anyTriggerChanged (settings : db.ChatSettings) (current last : GoMap) : Bool :=
  (anyTriggerChangedTraced settings current last).1


/-- The request built for a new message (scheduler.go 259-284): a video or a photo with
the text as caption when the output carries media, a plain message otherwise. -/
def newMessageRequest (chatID : Int) (out : render.Output) : Call :=
  if out.MediaType ≠ "" ∧ out.MediaFileID ≠ "" then
    if out.MediaType = "video" then .botSendVideo chatID out.MediaFileID out.Text
    else .botSendPhoto chatID out.MediaFileID out.Text
  else .botSendMessage chatID out.Text

/-- The request built for an edit of message `mid` (scheduler.go 239-248): a caption edit
when the output carries media, a text edit otherwise. -/
def editRequest (chatID mid : Int) (out : render.Output) : Call :=
  if out.MediaType ≠ "" ∧ out.MediaFileID ≠ "" then .botEditCaption chatID mid out.Text
  else .botEditText chatID mid out.Text

/-- The new-message part of `postOrEdit` (scheduler.go 258-289): the message is sent with
`bot.Send`, and the id of the sent message or the error is returned. -/
def sendNew (env : Env) (w : World) (chatID : Int) (out : render.Output) :
    Except String Int × World :=
  let w := w.logCall (newMessageRequest chatID out)
  match env.botSend with
  | .error e => (.error e, w)
  | .ok messageID => (.ok messageID, w)

/-- The function `(*Scheduler).postOrEdit` (scheduler.go 229-290). -/
def postOrEdit (env : Env) (w : World) (chatID : Int) (settings : db.ChatSettings)
    (out : render.Output) : Except String Int × World :=
  let postMode := if settings.PostMode = "" then "edit" else settings.PostMode
  if postMode = "edit" then
    match db.GetLastPostMessageID env w chatID with
    | .ok (some mid) =>
      let w := w.logCall (editRequest chatID mid out)
      match env.botRequest with
      | none => (.ok mid, w)
      | some _ => sendNew env w chatID out
    | _ => sendNew env w chatID out
  else sendNew env w chatID out

/-- The duration `30*time.Minute` in nanoseconds. -/
def failNotifyWindow : Int := 30 * 60 * 1000000000

/-- The function `(*Scheduler).notifySourceFail` (scheduler.go 292-318). A destination
without an entry in `lastFailNotify` reads as the zero time, which is never within the
window. -/
def notifySourceFail (env : Env) (w : World) (chatID : Int) (settings : db.ChatSettings)
    (err : String) : World :=
  let w := w.logCall (.notifySourceFail chatID err)
  let last := w.lastFailNotify chatID
  let (t, w) := timeNow env w
  let throttled :=
    match last with
    | some l => decide (t - l < failNotifyWindow)
    | none => false
  if throttled then w
  else
    let (t2, w) := timeNow env w
    let w := { w with lastFailNotify := fun c => if c = chatID then some t2 else w.lastFailNotify c }
    if env.hasNotifier then
      w.logCall (.NotifyAdmins chatID settings.SourceProvider settings.SourceMethod err)
    else w

/-- The loop `for id, v := range out.UsedValues` of `postOnce` (scheduler.go 187-189), over
the entries of the map. Go leaves the iteration order unspecified; the keys of a map are
distinct, so each item is written once. -/
def saveLastValues (env : Env) (chatID : Int) : List (Sigma fun _ : String => ℚ) → World → World
  | [], w => w
  | e :: rest, w => saveLastValues env chatID rest (db.SetLastValue env w chatID e.1 e.2).2

/-- The part of `postOnce` after the trigger gating (scheduler.go 178-192): post or edit,
then persist the last values, the last post and the fetch health. -/
def deliver (env : Env) (w : World) (chatID : Int) (settings : db.ChatSettings)
    (snap : sources.Snapshot) (out : render.Output) : Option String × World :=
  match postOrEdit env w chatID settings out with
  | (.error e, w) =>
    let w := (db.UpdateFetchHealth env w chatID snap.FetchedAt e).2
    let w := notifySourceFail env w chatID settings e
    (some e, w)
  | (.ok msgID, w) =>
    let w := saveLastValues env chatID out.UsedValues.entries w
    let (t, w) := timeNow env w
    let w := (db.UpdateLastPost env w chatID msgID t).2
    let w := (db.UpdateFetchHealth env w chatID snap.FetchedAt "").2
    (none, w)

/-- The function `(*Scheduler).postOnce` (scheduler.go 142-193): the returned error
(`none` for nil) and the world after the call. -/
def postOnce (env : Env) (w : World) (chatID : Int) (settings : db.ChatSettings)
    (forced : Bool) : Option String × World :=
  match env.EnabledItemIDs with
  | .error e => (some e, w)
  | .ok enabledIDs =>
    let w := w.logCall (.srcGet settings.SourceProvider settings.SourceMethod)
    match env.srcGet with
    | .error e =>
      let (t, w) := timeNow env w
      let w := (db.UpdateFetchHealth env w chatID t e).2
      let w := notifySourceFail env w chatID settings e
      (some e, w)
    | .ok snap =>
      match env.GetTemplate with
      | .error e => (some e, w)
      | .ok tmpl =>
        match db.GetLastValues env w chatID enabledIDs with
        | .error e => (some e, w)
        | .ok lastVals =>
          let out := render.BuildMessage env settings tmpl enabledIDs snap lastVals
          if !forced && decide (settings.TriggerItems.length > 0) then
            if !anyTriggerChanged settings out.UsedValues lastVals then
              let w := (db.UpdateFetchHealth env w chatID snap.FetchedAt "").2
              (none, w)
            else deliver env w chatID settings snap out
          else deliver env w chatID settings snap out

/-- The function `(*Scheduler).PostNow` (scheduler.go 130-139): the manual post, a forced
`postOnce` whose error is dropped. -/
def PostNow (env : Env) (w : World) (chatID : Int) : World :=
  match db.GetChatSettings env w chatID with
  | .error _ => w
  | .ok settings => (postOnce env w chatID settings true).2

end scheduler

/-! ## internal/utils: time of day -/

namespace utils

/-- The bytes of a Go string: its UTF-8 encoding, each byte as a number below 256. -/
def goBytes (s : String) : List Nat :=
  s.data.flatMap (fun c => (String.utf8EncodeChar c).map UInt8.toNat)

/-- Go `b - '0'` on a `byte`: the subtraction wraps around modulo 256. -/
def byteMinusZero (b : Nat) : Nat := (b + 256 - 48) % 256

/-- The function `utils.ParseHHMM` (time.go 33-44): minutes since midnight and whether the
string was accepted. -/
def ParseHHMM (hhmm : String) : Int × Bool :=
  match goBytes hhmm with
  | [b0, b1, b2, b3, b4] =>
    if b2 ≠ 58 then (0, false)
    else
      let hh : Int := (byteMinusZero b0 : Int) * 10 + (byteMinusZero b1 : Int)
      let mm : Int := (byteMinusZero b3 : Int) * 10 + (byteMinusZero b4 : Int)
      if hh < 0 ∨ hh > 23 ∨ mm < 0 ∨ mm > 59 then (0, false)
      else (hh * 60 + mm, true)
  | _ => (0, false)

/-- The function `utils.InDowntime` (time.go 55-67). -/
def InDowntime (minuteOfDay start stop : Int) : Bool :=
  if start = stop then false
  else if start < stop then decide (minuteOfDay ≥ start) && decide (minuteOfDay < stop)
  else decide (minuteOfDay ≥ start) || decide (minuteOfDay < stop)

end utils

/-! ## internal/scheduler: the tick scan -/

namespace db

/-- Go struct `db.Chat` (db.go 308-314); the field `ChatType` is `Type` in the source. -/
structure Chat where
  ChatID : Int
  Title : String
  ChatType : String
  Approved : Bool
  Enabled : Bool

end db

namespace scheduler

/-- Go `a % b` on `int`: the remainder of the division truncated toward zero. -/
def goMod (a b : Int) : Int := Int.tmod a b

/-- The effective interval of `runTick` (scheduler.go 111-114): a stored interval that is
not positive is replaced by 5. -/
def effectiveInterval (interval : Int) : Int :=
  if interval ≤ 0 then 5 else interval

/-- The interval test of `runTick` (scheduler.go 111-117): the destination is due when
`minuteOfDay % interval` is 0 for the effective interval. -/
def intervalDue (interval minuteOfDay : Int) : Bool :=
  if goMod minuteOfDay (effectiveInterval interval) ≠ 0 then false else true

/-- The downtime test of `runTick` (scheduler.go 102-109): downtime is enabled, both bounds
parse, and the minute is inside the window. -/
def downtimeNow (settings : db.ChatSettings) (minuteOfDay : Int) : Bool :=
  if settings.DowntimeEnabled then
    let start := utils.ParseHHMM settings.DowntimeStart
    let stop := utils.ParseHHMM settings.DowntimeEnd
    start.2 && stop.2 && utils.InDowntime minuteOfDay start.1 stop.1
  else false

/-- The scan loop of `runTick` (scheduler.go 93-126): the destinations for which a
`postOnce` goroutine is started, in order, each with the settings it is started with.
`envOf` gives the environment that the processing of each destination observes. Chat ids
are the primary key of table `chats` and the processing of one destination writes only its
own rows, so the scan reads every settings row as it was when the tick began. -/
def runTickScan (envOf : Int → Env) (w : World) (minuteOfDay : Int) :
    List db.Chat → List (Int × db.ChatSettings)
  | [] => []
  | c :: rest =>
    if !c.Approved || !c.Enabled then runTickScan envOf w minuteOfDay rest
    else
      match db.GetChatSettings (envOf c.ChatID) w c.ChatID with
      | .error _ => runTickScan envOf w minuteOfDay rest
      | .ok settings =>
        if downtimeNow settings minuteOfDay then runTickScan envOf w minuteOfDay rest
        else if !intervalDue settings.IntervalMinutes minuteOfDay then
          runTickScan envOf w minuteOfDay rest
        else (c.ChatID, settings) :: runTickScan envOf w minuteOfDay rest

/-- The started `postOnce` calls of one tick, run one after the other in the order they
were started (one of the schedules that the semaphore of `runTick` admits). -/
def runDispatched (envOf : Int → Env) : List (Int × db.ChatSettings) → World → World
  | [], w => w
  | d :: rest, w => runDispatched envOf rest (postOnce (envOf d.1) w d.1 d.2 false).2

/-- The function `(*Scheduler).runTick` (scheduler.go 77-128) at a given minute of the day:
nothing happens when `ListChats` fails; otherwise the scan starts a non-forced `postOnce`
for each due destination and waits for all of them. -/
def runTick (envOf : Int → Env) (listChats : Except String (List db.Chat)) (w : World)
    (minuteOfDay : Int) : World :=
  match listChats with
  | .error _ => w
  | .ok chats => runDispatched envOf (runTickScan envOf w minuteOfDay chats) w

end scheduler

namespace scheduler

/-- Whether a call is a `NotifyAdmins` about the given destination. -/
def isNotifyAdminsFor (chatID : Int) : Call → Bool
  | .NotifyAdmins c _ _ _ => decide (c = chatID)
  | _ => false

/-- Whether the operators were notified about the given destination between two worlds. -/
def notifiedBetween (chatID : Int) (w w2 : World) : Bool :=
  (newCalls w w2).any (isNotifyAdminsFor chatID)

/-- A sequence of failures, each handed to `notifySourceFail` in turn. -/
def runFailures (env : Env) : List (Int × db.ChatSettings × String) → World → World
  | [], w => w
  | f :: rest, w => runFailures env rest (notifySourceFail env w f.1 f.2.1 f.2.2)

end scheduler

/-! ## internal/sources: the cached fetch -/

namespace sources

/-- The zero `time.Time` (January 1, year 1, 00:00 UTC) in nanoseconds since the Unix
epoch. -/
def zeroTime : Int := -62135596800 * 1000000000

/-- The zero value `Snapshot{}`. -/
def emptySnapshot : Snapshot :=
  { Provider := "", Method := "", FetchedAt := zeroTime, Quotes := ∅ }

/-- Go struct `cacheEntry` (manager.go 15-19); the field `atTime` is `at` in the source. -/
structure cacheEntry where
  snap : Snapshot
  err : Option String
  atTime : Int

/-- What `Manager.Get` observes from outside: the clock and the outcome of each call of
`m.fetch` (the n-th call, for the given provider and method). -/
structure FetchEnv where
  now : Nat → Int
  fetchResult : Nat → String → String → Snapshot × Option String

/-- The state of a `Manager` (manager.go 22-33) that `Get` uses: the cache, how many times
the clock was read, and the calls of `m.fetch` made so far, in order. -/
structure Manager where
  cache : String → Option cacheEntry
  clockReads : Nat
  fetches : List (String × String)

/-- The function `cacheKey` (manager.go 45). -/
def cacheKey (p m : String) : String := p ++ "|" ++ m

/-- The constant `ttl` of `Get` (manager.go 51): 20 seconds, in nanoseconds. -/
def ttl : Int := 20 * 1000000000

/-- One reading of the clock by the manager. -/
def Manager.readClock (env : FetchEnv) (m : Manager) : Int × Manager :=
  (env.now m.clockReads, { m with clockReads := m.clockReads + 1 })

/-- One call of `m.fetch` (manager.go 64): its outcome comes from the environment and the
call is recorded. -/
def Manager.callFetch (env : FetchEnv) (m : Manager) (provider method : String) :
    (Snapshot × Option String) × Manager :=
  (env.fetchResult m.fetches.length provider method,
    { m with fetches := m.fetches ++ [(provider, method)] })

/-- The first critical section of `Get` (manager.go 53-61): the cached outcome when there
is an entry younger than the TTL, nothing otherwise. The clock is read only when there is
an entry. -/
def Manager.lookupFresh (env : FetchEnv) (m : Manager) (key : String) :
    Option (Snapshot × Option String) × Manager :=
  match m.cache key with
  | some ce =>
    let (t, m) := m.readClock env
    if t - ce.atTime < ttl then
      match ce.err with
      | some e => (some (emptySnapshot, some e), m)
      | none => (some (ce.snap, none), m)
    else (none, m)
  | none => (none, m)

/-- The rest of `Get` after a miss (manager.go 63-70): fetch, then store the outcome with
the current time in the second critical section, and return it. -/
def Manager.fetchAndStore (env : FetchEnv) (m : Manager) (provider method : String) :
    (Snapshot × Option String) × Manager :=
  let (r, m) := m.callFetch env provider method
  let (t, m) := m.readClock env
  (r, { m with cache := fun k =>
    if k = cacheKey provider method then some { snap := r.1, err := r.2, atTime := t }
    else m.cache k })

/-- The function `(*Manager).Get` (manager.go 47-71), run without interruption: the
returned snapshot and error, and the manager state after the call. -/
def Manager.Get (env : FetchEnv) (m : Manager) (provider method : String) :
    (Snapshot × Option String) × Manager :=
  match m.lookupFresh env (cacheKey provider method) with
  | (some r, m) => (r, m)
  | (none, m) => m.fetchAndStore env provider method

/-- Where a running `Get` call stands: before its first critical section, after a miss
(the lock is released and the fetch is still to be done), or returned. -/
inductive GetPhase where
  | start
  | missed
  | done (r : Snapshot × Option String)

/-- One step of a running `Get` call: the first critical section, or the fetch followed by
the second critical section. -/
def Manager.stepGet (env : FetchEnv) (m : Manager) (provider method : String) :
    GetPhase → GetPhase × Manager
  | .start =>
    match m.lookupFresh env (cacheKey provider method) with
    | (some r, m) => (.done r, m)
    | (none, m) => (.missed, m)
  | .missed =>
    match m.fetchAndStore env provider method with
    | (r, m) => (.done r, m)
  | .done r => (.done r, m)

/-- Two `Get` calls for the same provider and method running concurrently on one manager:
the shared state and the phase of each call. -/
structure TwoGets where
  m : Manager
  first : GetPhase
  second : GetPhase

/-- Run two concurrent `Get` calls under a schedule: each entry of the schedule lets the
first call (`true`) or the second call (`false`) take its next step. -/
def runSchedule (env : FetchEnv) (provider method : String) : List Bool → TwoGets → TwoGets
  | [], s => s
  | true :: rest, s =>
    let r := s.m.stepGet env provider method s.first
    runSchedule env provider method rest { s with m := r.2, first := r.1 }
  | false :: rest, s =>
    let r := s.m.stepGet env provider method s.second
    runSchedule env provider method rest { s with m := r.2, second := r.1 }

end sources

/-! ## internal/utils: formatting the time of day -/

namespace utils

/-- The decimal digit character of a number below 10. -/
def digitChar (d : Nat) : Char := Char.ofNat (48 + d)

/-- A number below 100 written with two decimal digits, as the layout elements `15` and
`04` of `time.Format` do. -/
def twoDigits (n : Nat) : List Char := [digitChar (n / 10), digitChar (n % 10)]

/-- The string "HH:MM" with the given four digits. -/
def hhmmString (a b c d : Nat) : String :=
  String.mk [digitChar a, digitChar b, ':', digitChar c, digitChar d]

/-- The function `utils.FormatHHMM` (time.go 46-53). Go `/` and `%` truncate toward zero.
`time.Date(2000, 1, 1, h, m, ...)` followed by `Format("15:04")` writes the hour of the day
and the minute with two digits each; an hour of 24 or more moves the date forward and
leaves `h mod 24` as the hour of the day (the model does not follow the date into the
daylight-saving period, which starts 80 days later). -/
def FormatHHMM (minutes : Int) : String :=
  let minutes := if minutes < 0 then Int.tmod (Int.tmod minutes 1440 + 1440) 1440 else minutes
  let h := Int.tdiv minutes 60
  let m := Int.tmod minutes 60
  String.mk (twoDigits (h % 24).toNat ++ [':'] ++ twoDigits m.toNat)

end utils

/-! ## internal/sources: the provider dispatch and the quote construction -/

namespace sources

/-- What `Manager.fetch` calls: the settings table and the four fetchers, each given by
its outcome (the snapshot and the error, `none` for `nil`). -/
structure Fetchers where
  GetGlobalSetting : String → Except String String
  fetchBonbastAPI : String → String → Snapshot × Option String
  fetchBonbastScrape : Snapshot × Option String
  fetchNavasanAPI : String → Snapshot × Option String
  fetchNavasanScrape : Snapshot × Option String

/-- A call made by `Manager.fetch`: a read of a global setting or a fetcher. -/
inductive FetchCall where
  | GetGlobalSetting (key : String)
  | fetchBonbastAPI (user hash : String)
  | fetchBonbastScrape
  | fetchNavasanAPI (key : String)
  | fetchNavasanScrape
  deriving DecidableEq, Repr

/-- The last statement of `Manager.fetch` (manager.go 108):
`fmt.Errorf("unsupported provider/method: %s/%s", provider, method)`. -/
def unsupported (provider method : String) : Snapshot × Option String :=
  (emptySnapshot, some ("unsupported provider/method: " ++ provider ++ "/" ++ method))

/-- Go `(*Manager).fetch` (manager.go 73-109): the outcome and the calls made, in order.
A `switch` without a matching case falls through to the last statement. -/
def Manager.fetch (d : Fetchers) (provider method : String) :
    (Snapshot × Option String) × List FetchCall :=
  if provider = "bonbast" then
    if method = "api" then
      match d.GetGlobalSetting "bonbast_api_username" with
      | .error err => ((emptySnapshot, some err), [.GetGlobalSetting "bonbast_api_username"])
      | .ok user =>
        match d.GetGlobalSetting "bonbast_api_hash" with
        | .error err =>
          ((emptySnapshot, some err),
            [.GetGlobalSetting "bonbast_api_username", .GetGlobalSetting "bonbast_api_hash"])
        | .ok hash =>
          if user = "" ∨ hash = "" then
            ((emptySnapshot, some "Bonbast API is not configured (username/hash)"),
              [.GetGlobalSetting "bonbast_api_username", .GetGlobalSetting "bonbast_api_hash"])
          else
            (d.fetchBonbastAPI user hash,
              [.GetGlobalSetting "bonbast_api_username", .GetGlobalSetting "bonbast_api_hash",
                .fetchBonbastAPI user hash])
    else if method = "scrape" then
      (d.fetchBonbastScrape, [.fetchBonbastScrape])
    else (unsupported provider method, [])
  else if provider = "navasan" then
    if method = "api" then
      match d.GetGlobalSetting "navasan_api_key" with
      | .error err => ((emptySnapshot, some err), [.GetGlobalSetting "navasan_api_key"])
      | .ok key =>
        if key = "" then
          ((emptySnapshot, some "Navasan API key is not configured"),
            [.GetGlobalSetting "navasan_api_key"])
        else
          (d.fetchNavasanAPI key, [.GetGlobalSetting "navasan_api_key", .fetchNavasanAPI key])
    else if method = "scrape" then
      (d.fetchNavasanScrape, [.fetchNavasanScrape])
    else (unsupported provider method, [])
  else (unsupported provider method, [])

/-- A decoded JSON value of Go type `any`, by its dynamic type: `nil`, `json.Number` (its
literal), `float64`, `int`, `string`, and every other type. -/
inductive JsonValue where
  | null
  | number (lit : String)
  | float (f : ℚ)
  | int (i : Int)
  | str (s : String)
  | other
  deriving DecidableEq

/-- Go `map[string]any`. -/
abbrev RawMap := AList (fun _ : String => JsonValue)

/-- Go struct `navasanItem` (navasan.go 16-23). -/
structure navasanItem where
  Value : JsonValue
  Date : JsonValue
  Change : JsonValue
  Percent : JsonValue
  DollarRate : JsonValue
  DirhamRate : JsonValue
  deriving DecidableEq

/-- Go `map[string]navasanItem`. -/
abbrev NavasanMap := AList (fun _ : String => navasanItem)

/-- The zero value `navasanItem{}`. -/
def emptyNavasanItem : navasanItem :=
  { Value := .null, Date := .null, Change := .null, Percent := .null, DollarRate := .null,
    DirhamRate := .null }

/-- The network, the decoders and the clock, as the fetchers observe them:
`strconv.ParseFloat(s, 64)` (`none` for an error; `json.Number.Float64` is the same call),
`url.PathEscape`, the n-th call of `getBonbastParam` and of `postForm` (with its URL and
its one form field), `httpGet` by URL, the two decoders, and the n-th clock reading. -/
structure Net where
  ParseFloat : String → Option ℚ
  PathEscape : String → String
  getBonbastParam : Nat → Except String String
  postForm : Nat → String → String → String → Except String String
  httpGet : String → Except String String
  decodeJSONMap : String → Except String RawMap
  decodeNavasanMap : String → Except String NavasanMap
  now : Nat → Int

/-- Go `strings.ReplaceAll(t, ",", "")`. -/
def removeCommas (t : String) : String :=
  String.mk (t.data.filter (fun c => c ≠ ','))

/-- Go `unicode.IsSpace`. -/
def isSpace (c : Char) : Bool :=
  c.toNat ∈ [9, 10, 11, 12, 13, 32, 0x85, 0xA0, 0x1680, 0x2028, 0x2029, 0x202f, 0x205f, 0x3000]
    || (0x2000 ≤ c.toNat && c.toNat ≤ 0x200a)

/-- Go `strings.TrimSpace`. -/
def TrimSpace (s : String) : String :=
  String.mk ((s.data.dropWhile isSpace).reverse.dropWhile isSpace).reverse

/-- Go `getFloat` (bonbast.go 178-202). -/
def getFloat (ParseFloat : String → Option ℚ) (m : RawMap) (key : String) : ℚ × Bool :=
  match m.lookup key with
  | none => (0, false)
  | some v =>
    match v with
    | .number lit =>
      match ParseFloat lit with
      | some f => (f, true)
      | none => (0, false)
    | .float f => (f, true)
    | .str t =>
      let s := removeCommas t
      if s = "" then (0, false)
      else
        match ParseFloat s with
        | some f => (f, true)
        | none => (0, false)
    | _ => (0, false)

/-- Go `toFloat` (navasan.go 193-217). -/
def toFloat (ParseFloat : String → Option ℚ) (v : JsonValue) : ℚ × Bool :=
  match v with
  | .null => (0, false)
  | .float f => (f, true)
  | .int i => ((i : ℚ), true)
  | .number lit =>
    match ParseFloat lit with
    | some f => (f, true)
    | none => (0, false)
  | .str t =>
    let s := removeCommas (TrimSpace t)
    if s = "" ∨ s = "-" then (0, false)
    else
      match ParseFloat s with
      | some f => (f, true)
      | none => (0, false)
  | .other => (0, false)

end sources

namespace sources

/-- The loop `for _, it := range items.All` of the three quote constructions: `body` is
one iteration, `none` when it reaches a `continue` and the quote it stores under `it.ID`
otherwise. -/
def quotesLoop (body : items.Item → Option Quote) :
    List items.Item → AList (fun _ : String => Quote) → AList (fun _ : String => Quote)
  | [], quotes => quotes
  | it :: rest, quotes =>
    match body it with
    | none => quotesLoop body rest quotes
    | some q => quotesLoop body rest (quotes.insert it.ID q)

/-- One iteration of the Bonbast quote loop (bonbast.go 52-69 and 88-104). -/
def bonbastQuoteFor (ParseFloat : String → Option ℚ) (raw : RawMap) (it : items.Item) :
    Option Quote :=
  if it.BonbastSellKey = "" then none
  else
    match getFloat ParseFloat raw it.BonbastSellKey with
    | (_, false) => none
    | (sv, true) =>
      let buy : Option ℚ :=
        if it.BonbastBuyKey ≠ "" then
          match getFloat ParseFloat raw it.BonbastBuyKey with
          | (bv, true) => some bv
          | (_, false) => none
        else none
      some { Sell := some sv, Buy := buy, Unit := it.BonbastUnit }

/-- The Bonbast quote construction (bonbast.go 51-70 and 87-105). -/
def bonbastQuotes (ParseFloat : String → Option ℚ) (raw : RawMap) :
    AList (fun _ : String => Quote) :=
  quotesLoop (bonbastQuoteFor ParseFloat raw) items.All ∅

/-- Go `fetchBonbastAPI` (bonbast.go 75-107). -/
def fetchBonbastAPI (net : Net) (username hash : String) : Snapshot × Option String :=
  if username = "" ∨ hash = "" then (emptySnapshot, some "missing bonbast api username/hash")
  else
    match net.postForm 0 ("https://bonbast.com/api/" ++ net.PathEscape username) "hash" hash with
    | .error err => (emptySnapshot, some err)
    | .ok body =>
      match net.decodeJSONMap body with
      | .error err => (emptySnapshot, some err)
      | .ok raw =>
        ({ Provider := "bonbast", Method := "api", FetchedAt := net.now 0,
           Quotes := bonbastQuotes net.ParseFloat raw }, none)

/-- The end of `fetchBonbastScrape` (bonbast.go 47-71), from the response body on. -/
def bonbastScrapeDecode (net : Net) (body : String) : Snapshot × Option String :=
  match net.decodeJSONMap body with
  | .error err => (emptySnapshot, some err)
  | .ok raw =>
    ({ Provider := "bonbast", Method := "scrape", FetchedAt := net.now 0,
       Quotes := bonbastQuotes net.ParseFloat raw }, none)

/-- Go `fetchBonbastScrape` (bonbast.go 24-72). When the second `getBonbastParam` fails
the error returned is the one of the first `postForm`. -/
def fetchBonbastScrape (net : Net) : Snapshot × Option String :=
  match net.getBonbastParam 0 with
  | .error err => (emptySnapshot, some err)
  | .ok param =>
    match net.postForm 0 "https://bonbast.com/json" "param" param with
    | .ok body => bonbastScrapeDecode net body
    | .error err =>
      match net.getBonbastParam 1 with
      | .error _ => (emptySnapshot, some err)
      | .ok param2 =>
        match net.postForm 1 "https://bonbast.com/json" "param" param2 with
        | .error err3 => (emptySnapshot, some err3)
        | .ok body => bonbastScrapeDecode net body

/-- Go `appendUnique` (navasan.go 139-152): `set[v]` holds exactly for the members of the
list built so far. -/
def appendUnique (list : List String) (vals : List String) : List String :=
  vals.foldl (fun l v => if v = "" ∨ v ∈ l then l else l ++ [v]) list

/-- Go `findFirst` (navasan.go 154-161). -/
def findFirst (m : NavasanMap) : List String → navasanItem × Bool
  | [] => (emptyNavasanItem, false)
  | k :: rest =>
    match m.lookup k with
    | some v => (v, true)
    | none => findFirst m rest

/-- The slice `sellKeys` of `buildNavasanQuotes` (navasan.go 94-98). -/
def sellKeys (it : items.Item) : List String :=
  appendUnique (if it.NavasanSellKey ≠ "" then [it.NavasanSellKey] else [])
    [it.NavasanKey, it.NavasanKey ++ "_sell"]

/-- The slice `buyKeys` of `buildNavasanQuotes` (navasan.go 100-104). -/
def buyKeys (it : items.Item) : List String :=
  appendUnique (if it.NavasanBuyKey ≠ "" then [it.NavasanBuyKey] else []) [it.NavasanKey ++ "_buy"]

/-- The value of `sell` after navasan.go 116-118, and of `buy` after 121-126: the `value`
field of the record found, when `toFloat` accepts it. -/
def valueOf (ParseFloat : String → Option ℚ) (found : navasanItem × Bool) : Option ℚ :=
  if found.2 then
    match toFloat ParseFloat found.1.Value with
    | (v, true) => some v
    | (_, false) => none
  else none

/-- The end of one iteration of `buildNavasanQuotes` (navasan.go 116-134), reached when the
crypto branch did not store a quote. -/
def navasanValueQuote (ParseFloat : String → Option ℚ) (it : items.Item)
    (sellItem buyItem : navasanItem × Bool) : Option Quote :=
  let sell := valueOf ParseFloat sellItem
  let buy := valueOf ParseFloat buyItem
  if sell = none ∧ buy = none then none
  else some { Sell := sell, Buy := buy, Unit := it.NavasanUnit }

/-- One iteration of the loop of `buildNavasanQuotes` (navasan.go 88-135). -/
def navasanQuoteFor (ParseFloat : String → Option ℚ) (raw : NavasanMap) (it : items.Item) :
    Option Quote :=
  if it.NavasanKey = "" then none
  else
    let sellItem := findFirst raw (sellKeys it)
    let buyItem := findFirst raw (buyKeys it)
    if sellItem.2 ∧ it.NavasanIsCrypto = true then
      match toFloat ParseFloat sellItem.1.DollarRate with
      | (dv, true) =>
        if dv > 0 then some { Sell := some dv, Buy := none, Unit := "usd" }
        else navasanValueQuote ParseFloat it sellItem buyItem
      | (_, false) => navasanValueQuote ParseFloat it sellItem buyItem
    else navasanValueQuote ParseFloat it sellItem buyItem

/-- Go `buildNavasanQuotes` (navasan.go 86-137). -/
def buildNavasanQuotes (ParseFloat : String → Option ℚ) (raw : NavasanMap) :
    AList (fun _ : String => Quote) :=
  quotesLoop (navasanQuoteFor ParseFloat raw) items.All ∅

/-- The loop `for k, v := range part { merged[k] = v }` (navasan.go 73-75). -/
def mergeInto (part merged : NavasanMap) : NavasanMap :=
  part.entries.foldl (fun acc e => acc.insert e.1 e.2) merged

/-- The loop over the endpoints of `fetchNavasanScrape` (navasan.go 64-77): the merged map
and the counter `success`. -/
def mergeEndpoints (net : Net) : List String → NavasanMap × Nat → NavasanMap × Nat
  | [], st => st
  | ep :: rest, st =>
    match net.httpGet ep with
    | .error _ => mergeEndpoints net rest st
    | .ok body =>
      match net.decodeNavasanMap body with
      | .error _ => mergeEndpoints net rest st
      | .ok part => mergeEndpoints net rest (mergeInto part st.1, st.2 + 1)

/-- The three endpoints of `fetchNavasanScrape` (navasan.go 53-59); `time.Now().Unix()/10`
is an integer division that truncates. -/
def navasanEndpoints (net : Net) : List String :=
  let cb := toString (Int.tdiv (unixSeconds (net.now 0)) 10)
  [ "https://www.navasan.net/last_currencies.php?_=" ++ cb,
    "https://www.navasan.net/gold_rates.php?_=" ++ cb,
    "https://www.navasan.net/aed_based_rates.php?_=" ++ cb ]

/-- Go `fetchNavasanScrape` (navasan.go 51-84). -/
def fetchNavasanScrape (net : Net) : Snapshot × Option String :=
  let merged := (mergeEndpoints net (navasanEndpoints net) (∅, 0)).1
  if merged.entries.length = 0 then
    (emptySnapshot, some "navasan scrape failed (no data from endpoints)")
  else
    ({ Provider := "navasan", Method := "scrape", FetchedAt := net.now 1,
       Quotes := buildNavasanQuotes net.ParseFloat merged }, none)

end sources

namespace sources

/-- What one iteration of the endpoint loop of `fetchNavasanScrape` obtains (navasan.go
65-72): the decoded map when the request and the decoding both succeed. -/
def endpointPart (net : Net) (ep : String) : Option NavasanMap :=
  match net.httpGet ep with
  | .error _ => none
  | .ok body =>
    match net.decodeNavasanMap body with
    | .error _ => none
    | .ok part => some part

/-- The record under `k` after merging the decoded maps in the order of the endpoints: the
one of the last endpoint whose decoded map has the key. -/
def lastRecord (net : Net) (k : String) (eps : List String) (init : Option navasanItem) :
    Option navasanItem :=
  eps.foldl (fun acc ep =>
    match (endpointPart net ep).bind (fun part => part.lookup k) with
    | some v => some v
    | none => acc) init

end sources

/-! ## internal/utils: grouping digits -/

namespace utils

/-- The value of an `int64` expression: the mathematical result wrapped to 64 bits. -/
def wrapInt64 (x : Int) : Int := (x + 2 ^ 63) % 2 ^ 64 - 2 ^ 63

/-- Go `fmt.Sprintf("%d", n)`, as a list of characters. -/
def sprintfD (n : Int) : List Char :=
  if n < 0 then '-' :: Nat.toDigits 10 n.natAbs else Nat.toDigits 10 n.natAbs

/-- The loop of `formatIntWithCommas` (format.go 69-72) on `s[rem:]`: a comma and the next
three bytes, until the end; `none` is the run-time panic of a slice `s[i : i+3]` that is
out of range. -/
def commaGroups : List Char → Option (List Char)
  | [] => some []
  | a :: b :: c :: rest => (commaGroups rest).map (fun t => ',' :: a :: b :: c :: t)
  | _ => none

/-- Go `formatIntWithCommas` (format.go 53-76); `n = -n` is an `int64` negation. `none`
is a run-time panic. -/
def formatIntWithCommas (n : Int) : Option String :=
  let sign : List Char := if n < 0 then ['-'] else []
  let n := if n < 0 then wrapInt64 (-n) else n
  let s := sprintfD n
  if s.length ≤ 3 then some (String.mk (sign ++ s))
  else
    let rem := if s.length % 3 = 0 then 3 else s.length % 3
    (commaGroups (s.drop rem)).map (fun t => String.mk (sign ++ s.take rem ++ t))

end utils

namespace sources

end sources

/-! ## Concrete scenarios -/

namespace scenario

/-- Settings of a destination whose only trigger item is USD, with the given threshold
type and value; every other field has the default of the `chat_settings` schema. -/
def usdTrigger (thresholdType : String) (thresholdValue : ℚ) : db.ChatSettings :=
  { ChatID := 1
    SourceProvider := "bonbast"
    SourceMethod := "scrape"
    IntervalMinutes := 5
    DowntimeEnabled := false
    DowntimeStart := "20:00"
    DowntimeEnd := "10:00"
    TriggerItems := ["USD"]
    TriggerThresholdType := thresholdType
    TriggerThresholdValue := thresholdValue
    PostMode := "edit"
    PriceMode := "sell"
    Digits := "en"
    ShowSameArrow := false
    TemplateID := "tmpl_default"
    LastPostMessageID := none
    LastPostTime := none
    LastFetchTime := none
    LastError := none }

/-- A value map with the single entry USD. -/
def usdMap (v : ℚ) : GoMap := AList.singleton "USD" v

/-- The empty value map. -/
def emptyMap : GoMap := ∅

/-- The default template, without media. -/
def defaultTemplate : db.Template :=
  { TemplateID := "tmpl_default"
    Name := "default"
    Description := ""
    Body := "CURRENCIES"
    MediaType := ""
    MediaFileID := ""
    IsBuiltin := true
    CreatedBy := 0
    CreatedAt := 0 }

/-- A snapshot whose only quote is USD with the given sell value. -/
def usdSnapshot (sell : ℚ) : sources.Snapshot :=
  { Provider := "bonbast"
    Method := "scrape"
    FetchedAt := 1700000000000000000
    Quotes := AList.singleton "USD" { Sell := some sell, Buy := none, Unit := "toman" } }

/-- An environment in which USD is the only enabled item, every store statement succeeds,
and the fetch and the send have the given outcomes. -/
def usdEnv (srcGet : Except String sources.Snapshot) (botSend : Except String Int) : Env :=
  { now := fun n => 1700000001000000000 + n
    writeErr := fun _ => none
    chatSettingsErr := none
    EnabledItemIDs := .ok ["USD"]
    srcGet := srcGet
    GetTemplate := .ok defaultTemplate
    lastValuesErr := none
    lastPostErr := none
    FormatNumber := fun _ _ _ => ""
    text := "USD"
    botRequest := none
    botSend := botSend
    hasNotifier := true }

/-- A world in which chat 1 has the given settings row and the given stored last value of
USD, and nothing has happened yet. -/
def usdWorld (settings : db.ChatSettings) (prev : ℚ) : World :=
  { store :=
      { chat_settings := fun c => if c = 1 then some settings else none
        chat_last_values := fun c i =>
          if c = 1 ∧ i = "USD" then some { last_value := prev, last_updated_at := 0 } else none }
    lastFailNotify := fun _ => none
    clockReads := 0
    writes := 0
    log := [] }

/-- Settings of a destination without trigger items. -/
def noTrigger : db.ChatSettings :=
  { usdTrigger "abs" 0 with TriggerItems := [] }

/-- The environment of the gated scenario: the fetch returns USD at 50050. -/
def gatedEnv : Env := usdEnv (.ok (usdSnapshot 50050)) (.ok 7)

/-- The world of the gated scenario: trigger USD with absolute threshold 100 and stored
USD value 50000. -/
def gatedWorld : World := usdWorld (usdTrigger "abs" 100) 50000

/-- The environment of the failing-fetch scenario. -/
def fetchFailEnv : Env := usdEnv (.error "timeout") (.ok 7)

/-- The environment of the successful scenario: the fetch returns USD at 50150 and the
send returns message id 7. -/
def successEnv : Env := usdEnv (.ok (usdSnapshot 50150)) (.ok 7)

/-- The environment of the failing-send scenario: the fetch returns USD at 50150 and the
send is refused. -/
def sendFailEnv : Env := usdEnv (.ok (usdSnapshot 50150)) (.error "Forbidden")

/-- The destination of the tick scenarios: chat 1, approved and enabled. -/
def chatOne : db.Chat :=
  { ChatID := 1, Title := "prices", ChatType := "channel", Approved := true, Enabled := true }

/-- The environment of every destination in the tick scenarios: the fetch returns USD at
50000 and the send returns message id 7. -/
def tickEnv : Int → Env := fun _ => usdEnv (.ok (usdSnapshot 50000)) (.ok 7)

/-- The world of the tick scenarios: chat 1 has interval 5, downtime disabled and no
trigger items. -/
def tickWorld : World := usdWorld noTrigger 50000

/-- A world in which chat 1 has a recorded last post, message 42. -/
def editWorld : World :=
  usdWorld { usdTrigger "abs" 100 with LastPostMessageID := some 42 } 50000

/-- An environment in which the edit request is refused and the send returns message
id 7. -/
def editFailEnv : Env :=
  { usdEnv (.ok (usdSnapshot 50150)) (.ok 7) with
    botRequest := some "Bad Request: message to edit not found" }

/-- A rendered output without media. -/
def textOutput : render.Output :=
  { Text := "USD", UsedValues := usdMap 50150, MediaType := "", MediaFileID := "" }

/-- A fetch environment whose clock advances one second per reading and whose every fetch
returns USD at 50000. -/
def fetchEnv : sources.FetchEnv :=
  { now := fun n => 1700000000000000000 + (n : Int) * 1000000000
    fetchResult := fun _ _ _ => (usdSnapshot 50000, none) }

/-- A manager that has not fetched anything yet. -/
def emptyManager : sources.Manager :=
  { cache := fun _ => none, clockReads := 0, fetches := [] }

/-- A settings table with Bonbast credentials and no Navasan key; every fetcher fails with
its own name. -/
def adminFetchers : sources.Fetchers :=
  { GetGlobalSetting := fun key =>
      if key = "bonbast_api_username" then .ok "user"
      else if key = "bonbast_api_hash" then .ok "h4sh"
      else .ok ""
    fetchBonbastAPI := fun _ _ => (sources.emptySnapshot, some "bonbast api")
    fetchBonbastScrape := (sources.emptySnapshot, some "bonbast scrape")
    fetchNavasanAPI := fun _ => (sources.emptySnapshot, some "navasan api")
    fetchNavasanScrape := (sources.emptySnapshot, some "navasan scrape") }

/-- The item "USD" of the catalog. -/
def usdItem : items.Item :=
  { ID := "USD", Category := "currency", NameFa := "دلار آمریکا", Emoji := "💵", BonbastSellKey := "usd1", BonbastBuyKey := "usd2", BonbastUnit := "toman", NavasanKey := "usd", NavasanSellKey := "usd_sell", NavasanBuyKey := "usd_buy", NavasanUnit := "toman", NavasanIsCrypto := false }

/-- The item "BTC" of the catalog. -/
def btcItem : items.Item :=
  { ID := "BTC", Category := "crypto", NameFa := "بیت‌کوین", Emoji := "₿", BonbastSellKey := "btc", BonbastBuyKey := "", BonbastUnit := "usd", NavasanKey := "btc", NavasanSellKey := "", NavasanBuyKey := "", NavasanUnit := "usd", NavasanIsCrypto := true }

/-- The values of `strconv.ParseFloat` on the strings the scenarios use; every other string
is taken as not numeric. -/
def parseFloat (s : String) : Option ℚ :=
  if s = "1234567" then some 1234567
  else if s = "65000" then some 65000
  else if s = "2500000000" then some 2500000000
  else if s = "0" then some 0
  else none

/-- A Bonbast response with the sell price of the dollar as a string with commas, and
nothing else. -/
def bonbastRaw : sources.RawMap :=
  AList.singleton "usd1" (sources.JsonValue.str "1,234,567")

/-- A network that answers every request with the body "body", decoded to `bonbastRaw`
and to an empty Navasan map. -/
def bonbastNet : sources.Net :=
  { ParseFloat := parseFloat
    PathEscape := fun s => s
    getBonbastParam := fun _ => .ok "p"
    postForm := fun _ _ _ _ => .ok "body"
    httpGet := fun _ => .ok "body"
    decodeJSONMap := fun _ => .ok bonbastRaw
    decodeNavasanMap := fun _ => .ok ∅
    now := fun n => 1700000000000000000 + n }

/-- A Navasan record for "btc": the value in tomans as a string with commas and the dollar
rate given as a number. -/
def btcRecord (dollarRate : sources.JsonValue) : sources.navasanItem :=
  { sources.emptyNavasanItem with
    Value := sources.JsonValue.str " 2,500,000,000 ", DollarRate := dollarRate }

/-- A Navasan response whose only key is "btc". -/
def btcMap (dollarRate : sources.JsonValue) : sources.NavasanMap :=
  AList.singleton "btc" (btcRecord dollarRate)

/-- A network whose every Navasan endpoint answers with the body "\x7b\x7d", which decodes
to a map without keys. -/
def emptyObjectNet : sources.Net :=
  { bonbastNet with
    httpGet := fun _ => .ok "\x7b\x7d"
    decodeNavasanMap := fun _ => .ok ∅ }

/-- A network whose Navasan endpoints all answer with the "btc" record. -/
def btcNet : sources.Net :=
  { bonbastNet with
    httpGet := fun _ => .ok "body"
    decodeNavasanMap := fun _ => .ok (btcMap (sources.JsonValue.float 65000)) }

/-- A snapshot without any quote. -/
def noQuoteSnapshot : sources.Snapshot :=
  { usdSnapshot 0 with Quotes := ∅ }

/-- The environment of the scenario without a current value: the fetch succeeds with a
snapshot that has no quote for USD. -/
def noQuoteEnv : Env := usdEnv (.ok noQuoteSnapshot) (.ok 7)

end scenario

/-! ## Lemmas: the effect of each operation on the world -/

section effects

variable (env : Env) (w : World)

/-- The new calls of a world whose log extends the old log by `cs` are `cs`. -/
theorem newCalls_of_log_eq (w2 : World) (cs : List Call) (h : w2.log = w.log ++ cs) :
    newCalls w w2 = cs := by
  simp [newCalls, h]

/-- Reading the last values does not depend on the call log. -/
theorem GetLastValues_logCall (c : Call) (chatID : Int) (ids : List String) :
    db.GetLastValues env (w.logCall c) chatID ids = db.GetLastValues env w chatID ids := rfl

/-- The accessor `UpdateFetchHealth` logs exactly its own call. -/
theorem UpdateFetchHealth_log (chatID t : Int) (e : String) :
    (db.UpdateFetchHealth env w chatID t e).2.log = w.log ++ [.UpdateFetchHealth chatID t e] := by
  simp only [db.UpdateFetchHealth, execWrite, World.logCall]
  split <;> rfl

/-- The accessor `UpdateFetchHealth` leaves the table `chat_last_values` as it was. -/
theorem UpdateFetchHealth_last_values (chatID t : Int) (e : String) :
    (db.UpdateFetchHealth env w chatID t e).2.store.chat_last_values =
      w.store.chat_last_values := by
  simp only [db.UpdateFetchHealth, execWrite, World.logCall]
  split <;> rfl

/-- The accessor `UpdateFetchHealth` leaves every last-post record as it was. -/
theorem UpdateFetchHealth_lastPost (chatID t : Int) (e : String) (c : Int) :
    (db.UpdateFetchHealth env w chatID t e).2.store.lastPost c = w.store.lastPost c := by
  simp only [db.UpdateFetchHealth, execWrite, World.logCall]
  split
  · rfl
  · simp only [db.Store.lastPost, db.updateSettingsRow]
    split
    · next h => subst h; cases w.store.chat_settings c <;> rfl
    · rfl

/-- The accessor `UpdateFetchHealth` leaves the notification throttle as it was. -/
theorem UpdateFetchHealth_lastFailNotify (chatID t : Int) (e : String) :
    (db.UpdateFetchHealth env w chatID t e).2.lastFailNotify = w.lastFailNotify := by
  simp only [db.UpdateFetchHealth, execWrite, World.logCall]
  split <;> rfl

/-- When its write succeeds on an existing row, `UpdateFetchHealth` stores the fetch time
and the error text, an empty text as absent. -/
theorem UpdateFetchHealth_fetchHealth (chatID t : Int) (e : String)
    (hw : env.writeErr w.writes = none) (row : db.ChatSettings)
    (hrow : w.store.chat_settings chatID = some row) :
    (db.UpdateFetchHealth env w chatID t e).2.store.fetchHealth chatID =
      some (some (unixSeconds t), if e ≠ "" then some e else none) := by
  simp [db.UpdateFetchHealth, execWrite, World.logCall, hw, db.Store.fetchHealth,
    db.updateSettingsRow, hrow]

/-- The function `notifySourceFail` does not touch the store. -/
theorem notifySourceFail_store (chatID : Int) (settings : db.ChatSettings) (e : String) :
    (scheduler.notifySourceFail env w chatID settings e).store = w.store := by
  simp only [scheduler.notifySourceFail, timeNow, World.logCall]
  split_ifs <;> rfl

/-- The calls of `notifySourceFail`: its own entry, followed by at most one
`NotifyAdmins`. -/
theorem notifySourceFail_log (chatID : Int) (settings : db.ChatSettings) (e : String) :
    ∃ cs, (scheduler.notifySourceFail env w chatID settings e).log =
        w.log ++ Call.notifySourceFail chatID e :: cs ∧
      ∀ c ∈ cs, c.isBaselineWrite = false ∧ c.isDelivery = false := by
  simp only [scheduler.notifySourceFail, timeNow, World.logCall]
  split_ifs
  · exact ⟨[], by simp, by simp⟩
  · exact ⟨[.NotifyAdmins chatID settings.SourceProvider settings.SourceMethod e], by simp,
      by simp [Call.isBaselineWrite, Call.isDelivery]⟩
  · exact ⟨[], by simp, by simp⟩

/-- A new-message request is a delivery request. -/
theorem newMessageRequest_isDelivery (chatID : Int) (out : render.Output) :
    (scheduler.newMessageRequest chatID out).isDelivery = true := by
  simp only [scheduler.newMessageRequest]
  split_ifs <;> rfl

/-- An edit request is a delivery request. -/
theorem editRequest_isDelivery (chatID mid : Int) (out : render.Output) :
    (scheduler.editRequest chatID mid out).isDelivery = true := by
  simp only [scheduler.editRequest]
  split_ifs <;> rfl

/-- The function `postOrEdit` only appends delivery requests to the log, at least one, and
changes nothing else. -/
theorem postOrEdit_world (chatID : Int) (settings : db.ChatSettings) (out : render.Output) :
    ∃ cs, cs ≠ [] ∧ (∀ c ∈ cs, c.isDelivery = true) ∧
      (scheduler.postOrEdit env w chatID settings out).2 = { w with log := w.log ++ cs } := by
  have hsend : ∀ (w1 : World) (pre : List Call), (∀ c ∈ pre, c.isDelivery = true) →
      w1 = { w with log := w.log ++ pre } →
      ∃ cs, cs ≠ [] ∧ (∀ c ∈ cs, c.isDelivery = true) ∧
        (scheduler.sendNew env w1 chatID out).2 = { w with log := w.log ++ cs } := by
    intro w1 pre hpre hw1
    refine ⟨pre ++ [scheduler.newMessageRequest chatID out], by simp, ?_, ?_⟩
    · intro c hc
      rcases List.mem_append.mp hc with h | h
      · exact hpre c h
      · rw [List.mem_singleton.mp h]; exact newMessageRequest_isDelivery chatID out
    · subst hw1
      simp only [scheduler.sendNew, World.logCall]
      split <;> simp
  have hsend0 := hsend w [] (by simp) (by simp)
  have hedit : ∃ cs, cs ≠ [] ∧ (∀ c ∈ cs, c.isDelivery = true) ∧
      (match db.GetLastPostMessageID env w chatID with
        | .ok (some mid) =>
          match env.botRequest with
          | none => (Except.ok mid, w.logCall (scheduler.editRequest chatID mid out))
          | some _ =>
            scheduler.sendNew env (w.logCall (scheduler.editRequest chatID mid out)) chatID out
        | _ => scheduler.sendNew env w chatID out).2 = { w with log := w.log ++ cs } := by
    split
    · next mid _ =>
      split
      · exact ⟨[scheduler.editRequest chatID mid out], by simp,
          by simpa using editRequest_isDelivery chatID mid out, by simp [World.logCall]⟩
      · exact hsend _ [scheduler.editRequest chatID mid out]
          (by simpa using editRequest_isDelivery chatID mid out) (by simp [World.logCall])
    · exact hsend0
  simp only [scheduler.postOrEdit]
  split_ifs
  all_goals first | exact hedit | exact hsend0

/-- The save loop logs one `SetLastValue` call per entry, in order. -/
theorem saveLastValues_log (chatID : Int) (es : List (Sigma fun _ : String => ℚ)) :
    ∀ w : World, (scheduler.saveLastValues env chatID es w).log =
      w.log ++ es.map (fun e => Call.SetLastValue chatID e.1 e.2) := by
  induction es with
  | nil => intro w; simp [scheduler.saveLastValues]
  | cons e rest ih =>
    intro w
    rw [scheduler.saveLastValues, ih]
    have : (db.SetLastValue env w chatID e.1 e.2).2.log =
        w.log ++ [Call.SetLastValue chatID e.1 e.2] := by
      simp only [db.SetLastValue, execWrite, World.logCall, timeNow]
      split <;> rfl
    rw [this]; simp

/-- The save loop leaves the table `chat_settings` as it was. -/
theorem saveLastValues_chat_settings (chatID : Int) (es : List (Sigma fun _ : String => ℚ)) :
    ∀ w : World, (scheduler.saveLastValues env chatID es w).store.chat_settings =
      w.store.chat_settings := by
  induction es with
  | nil => intro w; rfl
  | cons e rest ih =>
    intro w
    rw [scheduler.saveLastValues, ih]
    simp only [db.SetLastValue, execWrite, World.logCall, timeNow]
    split <;> rfl

/-- A stored value is untouched by the save loop when its item is not among the saved
entries. -/
theorem saveLastValues_other (chatID : Int) (es : List (Sigma fun _ : String => ℚ))
    (id : String) (hid : id ∉ es.keys) :
    ∀ w : World, (scheduler.saveLastValues env chatID es w).store.lastValue chatID id =
      w.store.lastValue chatID id := by
  induction es with
  | nil => intro w; rfl
  | cons e rest ih =>
    intro w
    have hne : id ≠ e.1 := fun h => hid (by simp [List.keys, h])
    have hrest : id ∉ rest.keys := fun h => hid (by simp [List.keys] at h ⊢; exact Or.inr h)
    rw [scheduler.saveLastValues, ih hrest]
    simp only [db.SetLastValue, execWrite, World.logCall, timeNow]
    split
    · rfl
    · simp [db.Store.lastValue, db.upsertLastValue, hne]

/-- With every store write succeeding, the save loop leaves each saved entry's value as the
stored last value of its item. -/
theorem saveLastValues_saved (hw : ∀ n, env.writeErr n = none) (chatID : Int)
    (es : List (Sigma fun _ : String => ℚ)) (hnd : es.NodupKeys) :
    ∀ w : World, ∀ e ∈ es,
      (scheduler.saveLastValues env chatID es w).store.lastValue chatID e.1 = some e.2 := by
  induction es with
  | nil => intro w e he; simp at he
  | cons e0 rest ih =>
    intro w e he
    have hnd2 := List.nodupKeys_cons.mp hnd
    rcases List.mem_cons.mp he with rfl | hmem
    · rw [scheduler.saveLastValues, saveLastValues_other env chatID rest e.1 hnd2.1]
      simp [db.SetLastValue, execWrite, World.logCall, timeNow, hw, db.Store.lastValue,
        db.upsertLastValue]
    · rw [scheduler.saveLastValues]
      exact ih hnd2.2 _ e hmem

/-- The accessor `UpdateLastPost` logs exactly its own call. -/
theorem UpdateLastPost_log (chatID m t : Int) :
    (db.UpdateLastPost env w chatID m t).2.log = w.log ++ [.UpdateLastPost chatID m t] := by
  simp only [db.UpdateLastPost, execWrite, World.logCall]
  split <;> rfl

/-- The accessor `UpdateLastPost` leaves the table `chat_last_values` as it was. -/
theorem UpdateLastPost_last_values (chatID m t : Int) :
    (db.UpdateLastPost env w chatID m t).2.store.chat_last_values =
      w.store.chat_last_values := by
  simp only [db.UpdateLastPost, execWrite, World.logCall]
  split <;> rfl

/-- The delivery part when `postOrEdit` fails: the error is stored, the failure routine
runs, and the error is returned. -/
theorem deliver_of_error (chatID : Int) (settings : db.ChatSettings) (snap : sources.Snapshot)
    (out : render.Output) (e : String)
    (h : (scheduler.postOrEdit env w chatID settings out).1 = .error e) :
    scheduler.deliver env w chatID settings snap out =
      (some e, scheduler.notifySourceFail env
        (db.UpdateFetchHealth env (scheduler.postOrEdit env w chatID settings out).2 chatID
          snap.FetchedAt e).2 chatID settings e) := by
  rcases hr : scheduler.postOrEdit env w chatID settings out with ⟨r, w2⟩
  rw [hr] at h
  simp only at h
  subst h
  simp only [scheduler.deliver, hr]

/-- The delivery part when `postOrEdit` succeeds: the last values, the last post and the
fetch health are written, and nil is returned. -/
theorem deliver_of_ok (chatID : Int) (settings : db.ChatSettings) (snap : sources.Snapshot)
    (out : render.Output) (msgID : Int)
    (h : (scheduler.postOrEdit env w chatID settings out).1 = .ok msgID) :
    scheduler.deliver env w chatID settings snap out =
      (none, (db.UpdateFetchHealth env
        (db.UpdateLastPost env
          (timeNow env (scheduler.saveLastValues env chatID out.UsedValues.entries
            (scheduler.postOrEdit env w chatID settings out).2)).2 chatID msgID
          (timeNow env (scheduler.saveLastValues env chatID out.UsedValues.entries
            (scheduler.postOrEdit env w chatID settings out).2)).1).2
        chatID snap.FetchedAt "").2) := by
  rcases hr : scheduler.postOrEdit env w chatID settings out with ⟨r, w2⟩
  rw [hr] at h
  simp only at h
  subst h
  simp only [scheduler.deliver, hr]

/-- The function `deliver` always logs at least one delivery request. -/
theorem deliver_log (chatID : Int) (settings : db.ChatSettings) (snap : sources.Snapshot)
    (out : render.Output) :
    ∃ cs, (scheduler.deliver env w chatID settings snap out).2.log = w.log ++ cs ∧
      ∃ c ∈ cs, c.isDelivery = true := by
  obtain ⟨cs, hne, hdel, hw2⟩ := postOrEdit_world env w chatID settings out
  obtain ⟨c0, hc0⟩ := List.exists_mem_of_ne_nil cs hne
  cases hres : (scheduler.postOrEdit env w chatID settings out).1 with
  | error e =>
    rw [deliver_of_error env w chatID settings snap out e hres]
    obtain ⟨cs2, hlog, _⟩ := notifySourceFail_log env
      (db.UpdateFetchHealth env (scheduler.postOrEdit env w chatID settings out).2 chatID
        snap.FetchedAt e).2 chatID settings e
    refine ⟨cs ++ (Call.UpdateFetchHealth chatID snap.FetchedAt e ::
      Call.notifySourceFail chatID e :: cs2), ?_, c0, by simp [hc0], hdel c0 hc0⟩
    rw [hlog, UpdateFetchHealth_log, hw2]
    simp
  | ok msgID =>
    rw [deliver_of_ok env w chatID settings snap out msgID hres]
    refine ⟨cs ++ (out.UsedValues.entries.map (fun e => Call.SetLastValue chatID e.1 e.2) ++
      [Call.UpdateLastPost chatID msgID (timeNow env (scheduler.saveLastValues env chatID
        out.UsedValues.entries (scheduler.postOrEdit env w chatID settings out).2)).1,
       Call.UpdateFetchHealth chatID snap.FetchedAt ""]), ?_, c0, by simp [hc0], hdel c0 hc0⟩
    rw [UpdateFetchHealth_log, UpdateLastPost_log]
    simp only [timeNow]
    rw [saveLastValues_log, hw2]
    simp

/-- The function `postOnce` once the item list, the snapshot, the template and the last
values are loaded: the trigger gating followed by the delivery. -/
theorem postOnce_of_loads (chatID : Int) (settings : db.ChatSettings) (forced : Bool)
    (enabledIDs : List String) (snap : sources.Snapshot) (tmpl : db.Template)
    (lastVals : GoMap)
    (hids : env.EnabledItemIDs = .ok enabledIDs) (hsnap : env.srcGet = .ok snap)
    (htmpl : env.GetTemplate = .ok tmpl)
    (hlast : db.GetLastValues env w chatID enabledIDs = .ok lastVals) :
    scheduler.postOnce env w chatID settings forced =
      if (!forced && decide (settings.TriggerItems.length > 0)) = true then
        if (!scheduler.anyTriggerChanged settings
            (render.BuildMessage env settings tmpl enabledIDs snap lastVals).UsedValues
            lastVals) = true then
          (none, (db.UpdateFetchHealth env
            (w.logCall (.srcGet settings.SourceProvider settings.SourceMethod)) chatID
            snap.FetchedAt "").2)
        else scheduler.deliver env
          (w.logCall (.srcGet settings.SourceProvider settings.SourceMethod)) chatID settings
          snap (render.BuildMessage env settings tmpl enabledIDs snap lastVals)
      else scheduler.deliver env
        (w.logCall (.srcGet settings.SourceProvider settings.SourceMethod)) chatID settings
        snap (render.BuildMessage env settings tmpl enabledIDs snap lastVals) := by
  simp only [scheduler.postOnce, hids, hsnap, htmpl, GetLastValues_logCall, hlast]

/-- The function `postOrEdit` does not touch the store. -/
theorem postOrEdit_store (chatID : Int) (settings : db.ChatSettings) (out : render.Output) :
    (scheduler.postOrEdit env w chatID settings out).2.store = w.store := by
  obtain ⟨cs, _, _, h⟩ := postOrEdit_world env w chatID settings out
  rw [h]

/-- The function `postOrEdit` makes no store write. -/
theorem postOrEdit_writes (chatID : Int) (settings : db.ChatSettings) (out : render.Output) :
    (scheduler.postOrEdit env w chatID settings out).2.writes = w.writes := by
  obtain ⟨cs, _, _, h⟩ := postOrEdit_world env w chatID settings out
  rw [h]

/-- The function `postOrEdit` does not read the clock. -/
theorem postOrEdit_clockReads (chatID : Int) (settings : db.ChatSettings)
    (out : render.Output) :
    (scheduler.postOrEdit env w chatID settings out).2.clockReads = w.clockReads := by
  obtain ⟨cs, _, _, h⟩ := postOrEdit_world env w chatID settings out
  rw [h]

/-- The save loop reads the clock once per entry. -/
theorem saveLastValues_clockReads (chatID : Int) (es : List (Sigma fun _ : String => ℚ)) :
    ∀ w : World, (scheduler.saveLastValues env chatID es w).clockReads =
      w.clockReads + es.length := by
  induction es with
  | nil => intro w; rfl
  | cons e rest ih =>
    intro w
    rw [scheduler.saveLastValues, ih]
    have : (db.SetLastValue env w chatID e.1 e.2).2.clockReads = w.clockReads + 1 := by
      simp only [db.SetLastValue, execWrite, World.logCall, timeNow]
      split <;> rfl
    rw [this, List.length_cons]; omega

/-- With every store write succeeding, the two settings updates that end a successful
delivery leave the chat's row with the new last post and a cleared error. -/
theorem persist_settings_row (hw : ∀ n, env.writeErr n = none) (chatID m t f : Int)
    (row : db.ChatSettings) (hrow : w.store.chat_settings chatID = some row) :
    (db.UpdateFetchHealth env (db.UpdateLastPost env w chatID m t).2 chatID f
        "").2.store.chat_settings chatID =
      some { row with LastPostMessageID := some m, LastPostTime := some (unixSeconds t),
                      LastFetchTime := some (unixSeconds f), LastError := none } := by
  simp [db.UpdateFetchHealth, db.UpdateLastPost, execWrite, World.logCall, hw,
    db.updateSettingsRow, hrow]

/-- The two settings updates that end a delivery leave the table `chat_last_values` as it
was. -/
theorem persist_last_values (chatID m t f : Int) :
    (db.UpdateFetchHealth env (db.UpdateLastPost env w chatID m t).2 chatID f
        "").2.store.chat_last_values = w.store.chat_last_values := by
  rw [UpdateFetchHealth_last_values, UpdateLastPost_last_values]

end effects

/-! ## Theorems: float64 arithmetic -/

namespace Float64

/-- A number below `2 ^ j` has at most `j` binary digits. -/
theorem bitLength_le : ∀ (fuel n j : Nat), n < 2 ^ j → bitLength fuel n ≤ j := by
  intro fuel
  induction fuel with
  | zero => intro n j _; simp [bitLength]
  | succ f ih =>
    intro n j h
    unfold bitLength
    split_ifs with h0
    · exact Nat.zero_le _
    · cases j with
      | zero => simp at h; exact absurd h h0
      | succ j =>
        have : n / 2 < 2 ^ j := by
          rw [Nat.div_lt_iff_lt_mul (by decide)]
          rw [pow_succ] at h
          exact h
        exact Nat.succ_le_succ (ih _ _ this)

/-- Rounding a whole number to an integer leaves it. -/
theorem roundHalfEven_one (n : Nat) : roundHalfEven n 1 = n := by
  simp [roundHalfEven, Nat.mod_one]

/-- The last place of a whole number below `2 ^ 53` is not above the units. -/
theorem exponentOf_int (a : Nat) (h : a < 2 ^ 53) : exponentOf a 1 ≤ 0 := by
  have hb : (bits a : Int) ≤ 53 := by
    have := bitLength_le a a 53 h
    unfold bits
    exact_mod_cast this
  have h1 : bits 1 = 1 := by decide
  unfold exponentOf
  simp only [h1]
  split_ifs <;> omega

/-- A whole number of magnitude below `2 ^ 53` is a float64: rounding returns it, as a
fraction with a power of two as denominator. -/
theorem round_int (n : Int) (h : n.natAbs < 2 ^ 53) :
    ∃ k : Nat, round n 1 = finite (n * 2 ^ k) (2 ^ k) := by
  unfold round
  by_cases h0 : n = 0
  · exact ⟨0, by simp [h0]⟩
  · have he := exponentOf_int n.natAbs h
    have hp : pow2 (exponentOf n.natAbs 1) = 1 := by
      unfold pow2
      rw [Int.toNat_eq_zero.mpr he]
      rfl
    refine ⟨(-exponentOf n.natAbs 1).toNat, ?_⟩
    simp only [h0, if_false]
    rw [if_neg (by
      intro hh
      rcases hh with hh | ⟨hh, _⟩ <;> omega)]
    rw [hp, mul_one, roundHalfEven_one]
    unfold pow2
    congr 1
    by_cases hneg : n < 0
    · simp only [hneg, if_true]
      push_cast
      rw [abs_of_neg hneg]
      ring
    · simp only [hneg, if_false]
      push_cast
      rw [abs_of_nonneg (not_lt.mp hneg)]
      ring

/-- The comparison `x >= y` of a whole number `x` with a stored value `y` is the exact
one. -/
theorem ge_int_ofRat (z : Int) (k : Nat) (th : ℚ) :
    (finite (z * 2 ^ k) (2 ^ k)).ge (ofRat th) = true ↔ th ≤ (z : ℚ) := by
  have hpos : (0 : Int) < 2 ^ k := by positivity
  rw [Rat.le_def]
  simp only [ge, ofRat, decide_eq_true_eq, Rat.intCast_num, Rat.intCast_den, Nat.cast_one,
    mul_one, Nat.cast_pow, Nat.cast_ofNat]
  constructor
  · intro h
    have h2 : th.num * 2 ^ k ≤ z * (th.den : Int) * 2 ^ k := by linarith
    exact le_of_mul_le_mul_right h2 hpos
  · intro h
    have := mul_le_mul_of_nonneg_right h (le_of_lt hpos)
    linarith

/-- The difference of a stored value with itself is zero. -/
theorem sub_self_ofRat (c : ℚ) : sub (ofRat c) (ofRat c) = finite 0 1 := by
  simp [sub, ofRat, round]

/-- Zero divided by a stored value other than zero, and then multiplied by 100, is zero. -/
theorem zero_div_mul (c : ℚ) (hc : c ≠ 0) :
    mul (div (finite 0 1) (ofRat c)) (ofRat 100) = finite 0 1 := by
  have hn : c.num ≠ 0 := Rat.num_ne_zero.mpr hc
  simp [mul, div, ofRat, round, hn]

/-- Zero is not at least a positive stored value. -/
theorem zero_ge_ofRat (th : ℚ) (hth : 0 < th) : (finite 0 1).ge (ofRat th) = false := by
  simp [ge, ofRat, hth]

end Float64

/-! ## Theorems: the trigger engine -/

namespace scheduler

/-- The difference of two whole numbers that lie less than `2 ^ 53` apart is computed
without rounding: the comparison of `delta` with the threshold is the exact one. -/
theorem absDelta_int (c p : Int) (h : (c - p).natAbs < 2 ^ 53) (th : ℚ) :
    (absDelta (c : ℚ) (p : ℚ)).ge (Float64.ofRat th) = true ↔ th ≤ |(c : ℚ) - (p : ℚ)| := by
  obtain ⟨k, hk⟩ := Float64.round_int (c - p) h
  have hsub : Float64.sub (Float64.ofRat (c : ℚ)) (Float64.ofRat (p : ℚ)) =
      Float64.finite ((c - p) * 2 ^ k) (2 ^ k) := by
    rw [← hk]
    simp [Float64.sub, Float64.ofRat]
  have hpos : (0 : Int) < 2 ^ k := by positivity
  unfold absDelta
  simp only [hsub, Float64.ltZero, decide_eq_true_eq]
  by_cases hneg : c - p < 0
  · have h1 : (c - p) * 2 ^ k < 0 := mul_neg_of_neg_of_pos hneg hpos
    have h2 : ((c : ℚ) - (p : ℚ)) < 0 := by exact_mod_cast hneg
    rw [if_pos h1, abs_of_neg h2]
    have h3 : Float64.neg (Float64.finite ((c - p) * 2 ^ k) (2 ^ k)) =
        Float64.finite ((-(c - p)) * 2 ^ k) (2 ^ k) := by
      simp only [Float64.neg]
      congr 1
      ring
    rw [h3, Float64.ge_int_ofRat]
    push_cast
    rfl
  · have h1 : ¬ (c - p) * 2 ^ k < 0 := by
      have := mul_nonneg (not_lt.mp hneg) (le_of_lt hpos)
      omega
    have h2 : (0 : ℚ) ≤ (c : ℚ) - (p : ℚ) := by exact_mod_cast (not_lt.mp hneg)
    rw [if_neg h1, abs_of_nonneg h2, Float64.ge_int_ofRat]
    push_cast
    rfl

/-- One iteration of the loop at an item without a current used value: it is skipped. -/
theorem loop_cons_no_current (ty : String) (th : ℚ) (current last : GoMap) (id : String)
    (rest : List String) (hcur : current.lookup id = none) :
    anyTriggerChangedLoop ty th current last (id :: rest) =
      anyTriggerChangedLoop ty th current last rest := by
  rw [anyTriggerChangedLoop]
  simp only [hcur]

/-- One iteration of the loop at an item with a current used value and no previous value:
it returns true. -/
theorem loop_cons_first_time (ty : String) (th : ℚ) (current last : GoMap) (id : String)
    (rest : List String) (cur : ℚ) (hcur : current.lookup id = some cur)
    (hprev : last.lookup id = none) :
    anyTriggerChangedLoop ty th current last (id :: rest) = (true, []) := by
  rw [anyTriggerChangedLoop]
  simp only [hcur, hprev]

/-- One iteration of the loop at an item with both values. -/
theorem loop_cons_both (ty : String) (th : ℚ) (current last : GoMap) (id : String)
    (rest : List String) (cur prev : ℚ) (hcur : current.lookup id = some cur)
    (hprev : last.lookup id = some prev) :
    anyTriggerChangedLoop ty th current last (id :: rest) =
      if ty = "pct" then
        if prev = 0 then (true, [])
        else if (pctOf (absDelta cur prev) prev).ge (Float64.ofRat th) = true then (true, [prev])
        else ((anyTriggerChangedLoop ty th current last rest).1,
              prev :: (anyTriggerChangedLoop ty th current last rest).2)
      else
        if (absDelta cur prev).ge (Float64.ofRat th) = true then (true, [])
        else anyTriggerChangedLoop ty th current last rest := by
  rw [anyTriggerChangedLoop]
  simp only [hcur, hprev, absDelta, pctOf]

/-- With an absolute threshold and every item having both values, the loop returns true
exactly when the float64 difference of some item, in absolute value, is at least the
threshold. -/
theorem loop_abs_iff (ty : String) (th : ℚ) (current last : GoMap) (hty : ty ≠ "pct")
    (l : List String)
    (hall : ∀ id ∈ l, (current.lookup id).isSome ∧ (last.lookup id).isSome) :
    (anyTriggerChangedLoop ty th current last l).1 = true ↔
      ∃ id ∈ l, ∃ cur prev, current.lookup id = some cur ∧ last.lookup id = some prev ∧
        (absDelta cur prev).ge (Float64.ofRat th) = true := by
  induction l with
  | nil => simp [anyTriggerChangedLoop]
  | cons id rest ih =>
    have hrest : ∀ x ∈ rest, (current.lookup x).isSome ∧ (last.lookup x).isSome :=
      fun x hx => hall x (List.mem_cons_of_mem _ hx)
    obtain ⟨hc, hp⟩ := hall id (List.mem_cons_self _ _)
    obtain ⟨cur, hcur⟩ := Option.isSome_iff_exists.mp hc
    obtain ⟨prev, hprev⟩ := Option.isSome_iff_exists.mp hp
    by_cases hge : (absDelta cur prev).ge (Float64.ofRat th) = true
    · have : (anyTriggerChangedLoop ty th current last (id :: rest)).1 = true := by
        rw [loop_cons_both ty th current last id rest cur prev hcur hprev, if_neg hty, if_pos hge]
      simp only [this, true_iff]
      exact ⟨id, List.mem_cons_self _ _, cur, prev, hcur, hprev, hge⟩
    · have : (anyTriggerChangedLoop ty th current last (id :: rest)).1 =
          (anyTriggerChangedLoop ty th current last rest).1 := by
        rw [loop_cons_both ty th current last id rest cur prev hcur hprev, if_neg hty, if_neg hge]
      rw [this, ih hrest]
      constructor
      · rintro ⟨x, hx, h⟩
        exact ⟨x, List.mem_cons_of_mem _ hx, h⟩
      · rintro ⟨x, hx, c, p, h1, h2, h3⟩
        rcases List.mem_cons.mp hx with rfl | hx
        · rw [hcur] at h1; rw [hprev] at h2
          cases h1; cases h2
          exact absurd h3 hge
        · exact ⟨x, hx, c, p, h1, h2, h3⟩

/-- Trigger USD with absolute threshold 100 and previous value 50000: the current value
50150 triggers and the current value 50050 does not. -/
theorem anyTriggerChanged_usd_scenarios :
    anyTriggerChanged (scenario.usdTrigger "abs" 100) (scenario.usdMap 50150)
      (scenario.usdMap 50000) = true ∧
    anyTriggerChanged (scenario.usdTrigger "abs" 100) (scenario.usdMap 50050)
      (scenario.usdMap 50000) = false := by
  constructor
  · have h := loop_cons_both "abs" 100 (scenario.usdMap 50150) (scenario.usdMap 50000) "USD" []
      50150 50000 (by decide) (by decide)
    simp only [anyTriggerChanged, anyTriggerChangedTraced, scenario.usdTrigger, h]
    decide
  · have h := loop_cons_both "abs" 100 (scenario.usdMap 50050) (scenario.usdMap 50000) "USD" []
      50050 50000 (by decide) (by decide)
    simp only [anyTriggerChanged, anyTriggerChangedTraced, scenario.usdTrigger, h]
    decide

/-- The two stored values of the rounding scenario are float64 values: the ones nearest to
100.1 and to 0.1. Their float64 difference is exactly 100 (written with the denominator
`2 ^ 46`), and their exact difference is below 100. -/
theorem rounding_scenario_values :
    Float64.round 1001 10 = Float64.finite 7043911292184166 70368744177664 ∧
    (7043911292184166 / 70368744177664 : ℚ) = 3521955646092083 / 35184372088832 ∧
    Float64.round 1 10 = Float64.finite 7205759403792794 72057594037927936 ∧
    (7205759403792794 / 72057594037927936 : ℚ) = 3602879701896397 / 36028797018963968 ∧
    absDelta (3521955646092083 / 35184372088832) (3602879701896397 / 36028797018963968) =
      Float64.finite 7036874417766400 70368744177664 ∧
    |(3521955646092083 / 35184372088832 : ℚ) - 3602879701896397 / 36028797018963968| < 100 := by
  have h1 : Float64.ofRat (3521955646092083 / 35184372088832) =
      Float64.finite 3521955646092083 35184372088832 := by
    unfold Float64.ofRat
    norm_num
  have h2 : Float64.ofRat (3602879701896397 / 36028797018963968) =
      Float64.finite 3602879701896397 36028797018963968 := by
    unfold Float64.ofRat
    norm_num
  refine ⟨?_, ?_, ?_, ?_, ?_, ?_⟩
  · decide
  · norm_num
  · decide
  · norm_num
  · unfold absDelta
    rw [h1, h2]
    set_option maxRecDepth 100000 in decide
  · norm_num [abs_lt]

/-- C1, counterexample: trigger USD with absolute threshold 100, current value the float64
nearest to 100.1 and previous value the float64 nearest to 0.1. The exact difference of the
two values is below 100, yet `anyTriggerChanged` returns true: the float64 subtraction
rounds the difference to 100. -/
theorem anyTriggerChanged_abs_exact_counterexample :
    ¬ (∀ (settings : db.ChatSettings) (current last : GoMap),
        settings.TriggerThresholdType ≠ "pct" →
        (∀ id ∈ settings.TriggerItems,
          (current.lookup id).isSome ∧ (last.lookup id).isSome) →
        (anyTriggerChanged settings current last = true ↔
          ∃ id ∈ settings.TriggerItems, ∃ cur prev,
            current.lookup id = some cur ∧ last.lookup id = some prev ∧
            |cur - prev| ≥ settings.TriggerThresholdValue)) := by
  intro h
  have hiff := h (scenario.usdTrigger "abs" 100)
    (scenario.usdMap (3521955646092083 / 35184372088832))
    (scenario.usdMap (3602879701896397 / 36028797018963968)) (by decide)
    (by
      intro id hid
      have hid2 : id = "USD" := by simpa [scenario.usdTrigger] using hid
      subst hid2
      exact ⟨rfl, rfl⟩)
  have hcode : anyTriggerChanged (scenario.usdTrigger "abs" 100)
      (scenario.usdMap (3521955646092083 / 35184372088832))
      (scenario.usdMap (3602879701896397 / 36028797018963968)) = true := by
    have hl := loop_cons_both "abs" 100 (scenario.usdMap (3521955646092083 / 35184372088832))
      (scenario.usdMap (3602879701896397 / 36028797018963968)) "USD" []
      (3521955646092083 / 35184372088832) (3602879701896397 / 36028797018963968) rfl rfl
    simp only [anyTriggerChanged, anyTriggerChangedTraced, scenario.usdTrigger, hl,
      rounding_scenario_values.2.2.2.2.1]
    decide
  obtain ⟨id, hmem, cur, prev, hc, hp, hge⟩ := hiff.mp hcode
  have hid : id = "USD" := by simpa [scenario.usdTrigger] using hmem
  subst hid
  have hc2 : cur = 3521955646092083 / 35184372088832 := by
    have : (scenario.usdMap (3521955646092083 / 35184372088832)).lookup "USD" =
        some (3521955646092083 / 35184372088832) := rfl
    rw [this] at hc
    exact (Option.some.inj hc).symm
  have hp2 : prev = 3602879701896397 / 36028797018963968 := by
    have : (scenario.usdMap (3602879701896397 / 36028797018963968)).lookup "USD" =
        some (3602879701896397 / 36028797018963968) := rfl
    rw [this] at hp
    exact (Option.some.inj hp).symm
  rw [hc2, hp2] at hge
  exact absurd hge (not_le.mpr rounding_scenario_values.2.2.2.2.2)

/-- C1, amended: with an absolute threshold type (any type other than "pct") and every
trigger item having both a current used value and a previous value, `anyTriggerChanged`
returns true if and only if, for at least one trigger item, the float64 difference
`current - previous`, rounded to the nearest float64 and taken in absolute value, is at
least `TriggerThresholdValue`. For whole-number values that lie less than `2 ^ 53` apart
the difference is not rounded, and the test is `|current - previous| >= threshold`. -/
theorem anyTriggerChanged_abs_iff (settings : db.ChatSettings) (current last : GoMap)
    (hty : settings.TriggerThresholdType ≠ "pct")
    (hall : ∀ id ∈ settings.TriggerItems,
      (current.lookup id).isSome ∧ (last.lookup id).isSome) :
    (anyTriggerChanged settings current last = true ↔
      ∃ id ∈ settings.TriggerItems, ∃ cur prev,
        current.lookup id = some cur ∧ last.lookup id = some prev ∧
        (absDelta cur prev).ge (Float64.ofRat settings.TriggerThresholdValue) = true) ∧
    (∀ c p : Int, (c - p).natAbs < 2 ^ 53 →
      ((absDelta (c : ℚ) (p : ℚ)).ge (Float64.ofRat settings.TriggerThresholdValue) = true ↔
        |(c : ℚ) - (p : ℚ)| ≥ settings.TriggerThresholdValue)) :=
  ⟨loop_abs_iff _ _ current last hty _ hall,
    fun c p h => absDelta_int c p h settings.TriggerThresholdValue⟩

/-- Witness of C1 (amended): trigger USD, absolute threshold 100, previous 50000, current
50150: the difference 150 is exact and `anyTriggerChanged` returns true. -/
theorem anyTriggerChanged_abs_iff_witness :
    (scenario.usdTrigger "abs" 100).TriggerThresholdType ≠ "pct" ∧
    (∀ id ∈ (scenario.usdTrigger "abs" 100).TriggerItems,
      ((scenario.usdMap 50150).lookup id).isSome ∧ ((scenario.usdMap 50000).lookup id).isSome) ∧
    anyTriggerChanged (scenario.usdTrigger "abs" 100) (scenario.usdMap 50150)
        (scenario.usdMap 50000) = true ∧
    ((absDelta ((50150 : Int) : ℚ) ((50000 : Int) : ℚ)).ge
        (Float64.ofRat (scenario.usdTrigger "abs" 100).TriggerThresholdValue) = true ↔
      |(((50150 : Int) : ℚ)) - ((50000 : Int) : ℚ)| ≥
        (scenario.usdTrigger "abs" 100).TriggerThresholdValue) :=
  have h := anyTriggerChanged_abs_iff (scenario.usdTrigger "abs" 100) (scenario.usdMap 50150)
    (scenario.usdMap 50000) (by decide) (by decide)
  ⟨by decide, by decide,
    h.1.mpr ⟨"USD", by decide, 50150, 50000, rfl, rfl, by decide⟩,
    h.2 50150 50000 (by decide)⟩


/-- If the loop returns true on the remaining items, it returns true on the longer list:
an earlier item either returns true itself or passes on to the rest. -/
theorem loop_cons_of_rest (ty : String) (th : ℚ) (current last : GoMap) (id : String)
    (rest : List String) (h : (anyTriggerChangedLoop ty th current last rest).1 = true) :
    (anyTriggerChangedLoop ty th current last (id :: rest)).1 = true := by
  cases hcur : current.lookup id with
  | none => rw [loop_cons_no_current ty th current last id rest hcur]; exact h
  | some cur =>
    cases hprev : last.lookup id with
    | none => rw [loop_cons_first_time ty th current last id rest cur hcur hprev]
    | some prev =>
      rw [loop_cons_both ty th current last id rest cur prev hcur hprev]
      split_ifs <;> first | rfl | exact h

/-- The loop returns true as soon as some item has a current used value and no previous
value. -/
theorem loop_first_time (ty : String) (th : ℚ) (current last : GoMap) (l : List String)
    (h : ∃ id ∈ l, (current.lookup id).isSome ∧ last.lookup id = none) :
    (anyTriggerChangedLoop ty th current last l).1 = true := by
  induction l with
  | nil => simp at h
  | cons id0 rest ih =>
    obtain ⟨id, hmem, hc, hp⟩ := h
    rcases List.mem_cons.mp hmem with rfl | hrest
    · obtain ⟨cur, hcur⟩ := Option.isSome_iff_exists.mp hc
      rw [loop_cons_first_time ty th current last id rest cur hcur hp]
    · exact loop_cons_of_rest ty th current last id0 rest (ih ⟨id, hrest, hc, hp⟩)

/-- Counterexample to C2 as stated: the trigger item USD has no entry in the last-values
map, yet `anyTriggerChanged` returns false, because USD has no current used value
either and the loop skips it. -/
theorem anyTriggerChanged_first_observation_counterexample :
    ¬ (∀ (settings : db.ChatSettings) (current last : GoMap),
        (∃ id ∈ settings.TriggerItems, last.lookup id = none) →
        anyTriggerChanged settings current last = true) := by
  intro h
  have h1 := h (scenario.usdTrigger "abs" 100) scenario.emptyMap scenario.emptyMap
    ⟨"USD", by decide, by decide⟩
  have h2 : anyTriggerChanged (scenario.usdTrigger "abs" 100) scenario.emptyMap
      scenario.emptyMap = false := by
    have h3 := loop_cons_no_current "abs" 100 scenario.emptyMap scenario.emptyMap "USD" []
      (by decide)
    show (anyTriggerChangedLoop "abs" 100 scenario.emptyMap scenario.emptyMap ["USD"]).1 = false
    rw [h3, anyTriggerChangedLoop]
  rw [h2] at h1
  exact Bool.false_ne_true h1

/-- C2 (amended): if some trigger item has a current used value and no entry in the
last-values map, `anyTriggerChanged` returns true, whatever the threshold. -/
theorem anyTriggerChanged_first_observation (settings : db.ChatSettings)
    (current last : GoMap)
    (h : ∃ id ∈ settings.TriggerItems, (current.lookup id).isSome ∧ last.lookup id = none) :
    anyTriggerChanged settings current last = true :=
  loop_first_time _ _ current last _ h

/-- Witness of C2 (amended): trigger USD with current value 50000 and no previous value. -/
theorem anyTriggerChanged_first_observation_witness :
    (∃ id ∈ (scenario.usdTrigger "abs" 100).TriggerItems,
      ((scenario.usdMap 50000).lookup id).isSome ∧ scenario.emptyMap.lookup id = none) ∧
    anyTriggerChanged (scenario.usdTrigger "abs" 100) (scenario.usdMap 50000)
      scenario.emptyMap = true :=
  ⟨⟨"USD", by decide, by decide, by decide⟩,
    anyTriggerChanged_first_observation (scenario.usdTrigger "abs" 100)
      (scenario.usdMap 50000) scenario.emptyMap ⟨"USD", by decide, by decide, by decide⟩⟩

/-- Every division the loop evaluates has a non-zero divisor. -/
theorem loop_divisors_ne_zero (ty : String) (th : ℚ) (current last : GoMap) (l : List String) :
    ∀ d ∈ (anyTriggerChangedLoop ty th current last l).2, d ≠ 0 := by
  induction l with
  | nil => simp [anyTriggerChangedLoop]
  | cons id rest ih =>
    cases hcur : current.lookup id with
    | none => rw [loop_cons_no_current ty th current last id rest hcur]; exact ih
    | some cur =>
      cases hprev : last.lookup id with
      | none => rw [loop_cons_first_time ty th current last id rest cur hcur hprev]; simp
      | some prev =>
        rw [loop_cons_both ty th current last id rest cur prev hcur hprev]
        split_ifs with h1 h2 h3 h4
        · simp
        · simpa using h2
        · intro d hd
          rcases List.mem_cons.mp hd with rfl | hd
          · exact h2
          · exact ih d hd
        · simp
        · exact ih

/-- With threshold type "pct", the loop returns true as soon as some item has a current
used value and a previous value of exactly 0. -/
theorem loop_pct_prev_zero (th : ℚ) (current last : GoMap) (l : List String)
    (h : ∃ id ∈ l, (current.lookup id).isSome ∧ last.lookup id = some 0) :
    (anyTriggerChangedLoop "pct" th current last l).1 = true := by
  induction l with
  | nil => simp at h
  | cons id0 rest ih =>
    obtain ⟨id, hmem, hc, hp⟩ := h
    rcases List.mem_cons.mp hmem with rfl | hrest
    · obtain ⟨cur, hcur⟩ := Option.isSome_iff_exists.mp hc
      rw [loop_cons_both "pct" th current last id rest cur 0 hcur hp]
      simp
    · exact loop_cons_of_rest "pct" th current last id0 rest (ih ⟨id, hrest, hc, hp⟩)

/-- C3: with threshold type "pct", if some trigger item has a current used value and a
previously recorded value of exactly 0, `anyTriggerChanged` returns true for every
threshold magnitude and every current value, and no division by zero is evaluated. -/
theorem anyTriggerChanged_pct_prev_zero (settings : db.ChatSettings) (current last : GoMap)
    (hty : settings.TriggerThresholdType = "pct")
    (h : ∃ id ∈ settings.TriggerItems, (current.lookup id).isSome ∧ last.lookup id = some 0) :
    anyTriggerChanged settings current last = true ∧
    ∀ d ∈ (anyTriggerChangedTraced settings current last).2, d ≠ 0 := by
  refine ⟨?_, loop_divisors_ne_zero _ _ current last _⟩
  simp only [anyTriggerChanged, anyTriggerChangedTraced, hty]
  exact loop_pct_prev_zero _ current last _ h

/-- Witness of C3: trigger USD, threshold 5 percent, previous value 0, current value
50000. -/
theorem anyTriggerChanged_pct_prev_zero_witness :
    (scenario.usdTrigger "pct" 5).TriggerThresholdType = "pct" ∧
    (∃ id ∈ (scenario.usdTrigger "pct" 5).TriggerItems,
      ((scenario.usdMap 50000).lookup id).isSome ∧ (scenario.usdMap 0).lookup id = some 0) ∧
    (anyTriggerChanged (scenario.usdTrigger "pct" 5) (scenario.usdMap 50000)
        (scenario.usdMap 0) = true ∧
      ∀ d ∈ (anyTriggerChangedTraced (scenario.usdTrigger "pct" 5) (scenario.usdMap 50000)
        (scenario.usdMap 0)).2, d ≠ 0) :=
  ⟨by decide, ⟨"USD", by decide, by decide, by decide⟩,
    anyTriggerChanged_pct_prev_zero (scenario.usdTrigger "pct" 5) (scenario.usdMap 50000)
      (scenario.usdMap 0) (by decide) ⟨"USD", by decide, by decide, by decide⟩⟩

/-- With threshold type "pct" and every item having a current used value and a non-zero
previous value, the loop returns true exactly when the float64 percentage of some item is
at least the threshold. -/
theorem loop_pct_iff (th : ℚ) (current last : GoMap) (l : List String)
    (hall : ∀ id ∈ l, (current.lookup id).isSome ∧
      ∃ prev, last.lookup id = some prev ∧ prev ≠ 0) :
    (anyTriggerChangedLoop "pct" th current last l).1 = true ↔
      ∃ id ∈ l, ∃ cur prev, current.lookup id = some cur ∧ last.lookup id = some prev ∧
        (pctOf (absDelta cur prev) prev).ge (Float64.ofRat th) = true := by
  induction l with
  | nil => simp [anyTriggerChangedLoop]
  | cons id rest ih =>
    have hrest : ∀ x ∈ rest, (current.lookup x).isSome ∧
        ∃ prev, last.lookup x = some prev ∧ prev ≠ 0 :=
      fun x hx => hall x (List.mem_cons_of_mem _ hx)
    obtain ⟨hc, prev, hprev, hne⟩ := hall id (List.mem_cons_self _ _)
    obtain ⟨cur, hcur⟩ := Option.isSome_iff_exists.mp hc
    by_cases hge : (pctOf (absDelta cur prev) prev).ge (Float64.ofRat th) = true
    · have : (anyTriggerChangedLoop "pct" th current last (id :: rest)).1 = true := by
        rw [loop_cons_both "pct" th current last id rest cur prev hcur hprev, if_pos rfl,
          if_neg hne, if_pos hge]
      simp only [this, true_iff]
      exact ⟨id, List.mem_cons_self _ _, cur, prev, hcur, hprev, hge⟩
    · have : (anyTriggerChangedLoop "pct" th current last (id :: rest)).1 =
          (anyTriggerChangedLoop "pct" th current last rest).1 := by
        rw [loop_cons_both "pct" th current last id rest cur prev hcur hprev, if_pos rfl,
          if_neg hne, if_neg hge]
      rw [this, ih hrest]
      constructor
      · rintro ⟨x, hx, h⟩
        exact ⟨x, List.mem_cons_of_mem _ hx, h⟩
      · rintro ⟨x, hx, c, p, h1, h2, h3⟩
        rcases List.mem_cons.mp hx with rfl | hx
        · rw [hcur] at h1; rw [hprev] at h2
          cases h1; cases h2
          exact absurd h3 hge
        · exact ⟨x, hx, c, p, h1, h2, h3⟩

/-- The float64 percentage of the move from 100 to 129: the difference 29 is exact, the
division by 100 rounds to 5224175567749775 / 2 ^ 54, and the multiplication by 100 rounds
to 8162774324609023 / 2 ^ 48, which is below 29 (it prints as 28.999999999999996). -/
theorem pctOf_129_100 :
    absDelta 129 100 = Float64.finite 8162774324609024 281474976710656 ∧
    Float64.div (absDelta 129 100) (Float64.ofRat 100) =
      Float64.finite 5224175567749775 18014398509481984 ∧
    pctOf (absDelta 129 100) 100 = Float64.finite 8162774324609023 281474976710656 ∧
    (pctOf (absDelta 129 100) 100).ge (Float64.ofRat 29) = false := by
  refine ⟨?_, ?_, ?_, ?_⟩ <;> decide

/-- C4, counterexample: trigger USD with threshold 29 percent, previous value 100 and
current value 129. The exact percentage `|129 - 100| / 100 * 100` is 29, which is at least
the threshold, yet `anyTriggerChanged` returns false: the float64 division and
multiplication give 28.999999999999996. -/
theorem anyTriggerChanged_pct_exact_counterexample :
    ¬ (∀ (settings : db.ChatSettings) (current last : GoMap),
        settings.TriggerThresholdType = "pct" →
        (∀ id ∈ settings.TriggerItems, (current.lookup id).isSome ∧
          ∃ prev, last.lookup id = some prev ∧ prev ≠ 0) →
        (anyTriggerChanged settings current last = true ↔
          ∃ id ∈ settings.TriggerItems, ∃ cur prev,
            current.lookup id = some cur ∧ last.lookup id = some prev ∧
            |cur - prev| / prev * 100 ≥ settings.TriggerThresholdValue)) := by
  intro h
  have hiff := h (scenario.usdTrigger "pct" 29) (scenario.usdMap 129) (scenario.usdMap 100)
    (by decide)
    (by
      intro id hid
      have hid2 : id = "USD" := by simpa [scenario.usdTrigger] using hid
      subst hid2
      exact ⟨rfl, 100, rfl, by norm_num⟩)
  have hcode : anyTriggerChanged (scenario.usdTrigger "pct" 29) (scenario.usdMap 129)
      (scenario.usdMap 100) = false := by
    have hl := loop_cons_both "pct" 29 (scenario.usdMap 129) (scenario.usdMap 100) "USD" []
      129 100 rfl rfl
    have h100 : ¬ ((100 : ℚ) = 0) := by norm_num
    simp only [anyTriggerChanged, anyTriggerChangedTraced, scenario.usdTrigger, hl, if_true,
      h100, if_false, pctOf_129_100.2.2.2]
    decide
  have hexact : ∃ id ∈ (scenario.usdTrigger "pct" 29).TriggerItems, ∃ cur prev,
      (scenario.usdMap 129).lookup id = some cur ∧
      (scenario.usdMap 100).lookup id = some prev ∧
      |cur - prev| / prev * 100 ≥ (scenario.usdTrigger "pct" 29).TriggerThresholdValue :=
    ⟨"USD", by decide, 129, 100, rfl, rfl, by norm_num [scenario.usdTrigger]⟩
  have := hiff.mpr hexact
  rw [hcode] at this
  exact Bool.false_ne_true this

/-- C4, amended: with threshold type "pct" and every trigger item having a current used
value and a non-zero previous value, `anyTriggerChanged` returns true if and only if, for
at least one trigger item, the float64 value of `|current - previous| / previous * 100`,
computed as a subtraction, a division and a multiplication that each round to the nearest
float64, is at least `TriggerThresholdValue`. -/
theorem anyTriggerChanged_pct_iff (settings : db.ChatSettings) (current last : GoMap)
    (hty : settings.TriggerThresholdType = "pct")
    (hall : ∀ id ∈ settings.TriggerItems, (current.lookup id).isSome ∧
      ∃ prev, last.lookup id = some prev ∧ prev ≠ 0) :
    anyTriggerChanged settings current last = true ↔
      ∃ id ∈ settings.TriggerItems, ∃ cur prev,
        current.lookup id = some cur ∧ last.lookup id = some prev ∧
        (Float64.mul
            (Float64.div (absDelta cur prev) (Float64.ofRat prev))
            (Float64.ofRat 100)).ge
          (Float64.ofRat settings.TriggerThresholdValue) = true := by
  simp only [anyTriggerChanged, anyTriggerChangedTraced, hty]
  exact loop_pct_iff _ current last _ hall

/-- Witness of C4 (amended): trigger USD, threshold 1 percent, previous 50000: the current
value 50150 gives the float64 percentage 0.3 and no trigger, the current value 50500 gives
1 and a trigger. -/
theorem anyTriggerChanged_pct_iff_witness :
    (scenario.usdTrigger "pct" 1).TriggerThresholdType = "pct" ∧
    (∀ id ∈ (scenario.usdTrigger "pct" 1).TriggerItems,
      ((scenario.usdMap 50500).lookup id).isSome ∧
      ∃ prev, (scenario.usdMap 50000).lookup id = some prev ∧ prev ≠ 0) ∧
    anyTriggerChanged (scenario.usdTrigger "pct" 1) (scenario.usdMap 50500)
        (scenario.usdMap 50000) = true ∧
    anyTriggerChanged (scenario.usdTrigger "pct" 1) (scenario.usdMap 50150)
        (scenario.usdMap 50000) = false :=
  have hall : ∀ (v : ℚ), ∀ id ∈ (scenario.usdTrigger "pct" 1).TriggerItems,
      ((scenario.usdMap v).lookup id).isSome ∧
      ∃ prev, (scenario.usdMap 50000).lookup id = some prev ∧ prev ≠ 0 := by
    intro v id hid
    have hid2 : id = "USD" := by simpa [scenario.usdTrigger] using hid
    subst hid2
    exact ⟨rfl, 50000, rfl, by norm_num⟩
  have h1 := anyTriggerChanged_pct_iff (scenario.usdTrigger "pct" 1) (scenario.usdMap 50500)
    (scenario.usdMap 50000) (by decide) (hall 50500)
  have h2 := anyTriggerChanged_pct_iff (scenario.usdTrigger "pct" 1) (scenario.usdMap 50150)
    (scenario.usdMap 50000) (by decide) (hall 50150)
  ⟨by decide, hall 50500,
    h1.mpr ⟨"USD", by decide, 50500, 50000, rfl, rfl, by decide⟩,
    by
      by_contra hne
      have ht : anyTriggerChanged (scenario.usdTrigger "pct" 1) (scenario.usdMap 50150)
          (scenario.usdMap 50000) = true := by
        cases hb : anyTriggerChanged (scenario.usdTrigger "pct" 1) (scenario.usdMap 50150)
            (scenario.usdMap 50000) with
        | true => rfl
        | false => exact absurd hb hne
      obtain ⟨id, hid, cur, prev, hc, hp, hge⟩ := h2.mp ht
      have hid2 : id = "USD" := by simpa [scenario.usdTrigger] using hid
      subst hid2
      have hc2 : cur = 50150 := by
        have : (scenario.usdMap 50150).lookup "USD" = some 50150 := rfl
        rw [this] at hc
        exact (Option.some.inj hc).symm
      have hp2 : prev = 50000 := by
        have : (scenario.usdMap 50000).lookup "USD" = some 50000 := rfl
        rw [this] at hp
        exact (Option.some.inj hp).symm
      rw [hc2, hp2] at hge
      revert hge
      decide⟩

end scheduler

/-! ## Theorems: postOnce -/

namespace scheduler

/-- The calls logged by `deliver` after the source fetch contain a delivery request. -/
theorem deliver_newCalls (env : Env) (w : World) (chatID : Int) (settings : db.ChatSettings)
    (snap : sources.Snapshot) (out : render.Output) (c0 : Call) :
    ∃ c ∈ newCalls w (deliver env (w.logCall c0) chatID settings snap out).2,
      c.isDelivery = true := by
  obtain ⟨cs, hlog, c, hc, hdel⟩ := deliver_log env (w.logCall c0) chatID settings snap out
  have h2 : (deliver env (w.logCall c0) chatID settings snap out).2.log = w.log ++ (c0 :: cs) := by
    rw [hlog]; simp [World.logCall]
  rw [newCalls_of_log_eq w _ _ h2]
  exact ⟨c, List.mem_cons_of_mem _ hc, hdel⟩

/-- C5: for a destination whose trigger item set is empty, a non-forced `postOnce` whose
fetch, template and last-values loads succeed never takes the gated-skip branch: whatever
the current and previous values, it runs the delivery part and issues a delivery
request. -/
theorem postOnce_empty_triggers_delivers (env : Env) (w : World) (chatID : Int)
    (settings : db.ChatSettings) (enabledIDs : List String) (snap : sources.Snapshot)
    (tmpl : db.Template) (lastVals : GoMap)
    (hempty : settings.TriggerItems = [])
    (hids : env.EnabledItemIDs = .ok enabledIDs) (hsnap : env.srcGet = .ok snap)
    (htmpl : env.GetTemplate = .ok tmpl)
    (hlast : db.GetLastValues env w chatID enabledIDs = .ok lastVals) :
    postOnce env w chatID settings false =
      deliver env (w.logCall (.srcGet settings.SourceProvider settings.SourceMethod)) chatID
        settings snap (render.BuildMessage env settings tmpl enabledIDs snap lastVals) ∧
    ∃ c ∈ newCalls w (postOnce env w chatID settings false).2, c.isDelivery = true := by
  have h : postOnce env w chatID settings false =
      deliver env (w.logCall (.srcGet settings.SourceProvider settings.SourceMethod)) chatID
        settings snap (render.BuildMessage env settings tmpl enabledIDs snap lastVals) := by
    rw [postOnce_of_loads env w chatID settings false enabledIDs snap tmpl lastVals hids hsnap
      htmpl hlast]
    simp [hempty]
  refine ⟨h, ?_⟩
  rw [h]
  exact deliver_newCalls env w chatID settings snap _ _

/-- Witness of C5: no trigger items, stored USD value 50000, fetched USD value 50000. -/
theorem postOnce_empty_triggers_delivers_witness :
    scenario.noTrigger.TriggerItems = [] ∧
    (postOnce (scenario.usdEnv (.ok (scenario.usdSnapshot 50000)) (.ok 7))
        (scenario.usdWorld scenario.noTrigger 50000) 1 scenario.noTrigger false =
      deliver (scenario.usdEnv (.ok (scenario.usdSnapshot 50000)) (.ok 7))
        ((scenario.usdWorld scenario.noTrigger 50000).logCall (.srcGet "bonbast" "scrape")) 1
        scenario.noTrigger (scenario.usdSnapshot 50000)
        (render.BuildMessage (scenario.usdEnv (.ok (scenario.usdSnapshot 50000)) (.ok 7))
          scenario.noTrigger scenario.defaultTemplate ["USD"] (scenario.usdSnapshot 50000)
          (AList.insert "USD" 50000 ∅)) ∧
      ∃ c ∈ newCalls (scenario.usdWorld scenario.noTrigger 50000)
          (postOnce (scenario.usdEnv (.ok (scenario.usdSnapshot 50000)) (.ok 7))
            (scenario.usdWorld scenario.noTrigger 50000) 1 scenario.noTrigger false).2,
        c.isDelivery = true) :=
  ⟨rfl, postOnce_empty_triggers_delivers
    (scenario.usdEnv (.ok (scenario.usdSnapshot 50000)) (.ok 7))
    (scenario.usdWorld scenario.noTrigger 50000) 1 scenario.noTrigger ["USD"]
    (scenario.usdSnapshot 50000) scenario.defaultTemplate (AList.insert "USD" 50000 ∅)
    rfl rfl rfl rfl rfl⟩

/-- C10: a forced `postOnce` bypasses the trigger engine: for every trigger item list,
threshold and pair of current and previous values, once the fetch, template and
last-values loads succeed it runs the delivery part, never the gated-skip branch, and
issues a delivery request. -/
theorem postOnce_forced_delivers (env : Env) (w : World) (chatID : Int)
    (settings : db.ChatSettings) (enabledIDs : List String) (snap : sources.Snapshot)
    (tmpl : db.Template) (lastVals : GoMap)
    (hids : env.EnabledItemIDs = .ok enabledIDs) (hsnap : env.srcGet = .ok snap)
    (htmpl : env.GetTemplate = .ok tmpl)
    (hlast : db.GetLastValues env w chatID enabledIDs = .ok lastVals) :
    postOnce env w chatID settings true =
      deliver env (w.logCall (.srcGet settings.SourceProvider settings.SourceMethod)) chatID
        settings snap (render.BuildMessage env settings tmpl enabledIDs snap lastVals) ∧
    ∃ c ∈ newCalls w (postOnce env w chatID settings true).2, c.isDelivery = true := by
  have h : postOnce env w chatID settings true =
      deliver env (w.logCall (.srcGet settings.SourceProvider settings.SourceMethod)) chatID
        settings snap (render.BuildMessage env settings tmpl enabledIDs snap lastVals) := by
    rw [postOnce_of_loads env w chatID settings true enabledIDs snap tmpl lastVals hids hsnap
      htmpl hlast]
    simp
  refine ⟨h, ?_⟩
  rw [h]
  exact deliver_newCalls env w chatID settings snap _ _


/-- The gated-skip branch of `postOnce`: with trigger items configured, a non-forced run in
which no trigger item changed only updates the fetch health. -/
theorem postOnce_gated_eq (env : Env) (w : World) (chatID : Int)
    (settings : db.ChatSettings) (enabledIDs : List String) (snap : sources.Snapshot)
    (tmpl : db.Template) (lastVals : GoMap)
    (hids : env.EnabledItemIDs = .ok enabledIDs) (hsnap : env.srcGet = .ok snap)
    (htmpl : env.GetTemplate = .ok tmpl)
    (hlast : db.GetLastValues env w chatID enabledIDs = .ok lastVals)
    (hne : settings.TriggerItems ≠ [])
    (hgate : anyTriggerChanged settings
      (render.BuildMessage env settings tmpl enabledIDs snap lastVals).UsedValues
      lastVals = false) :
    postOnce env w chatID settings false =
      (none, (db.UpdateFetchHealth env
        (w.logCall (.srcGet settings.SourceProvider settings.SourceMethod)) chatID
        snap.FetchedAt "").2) := by
  rw [postOnce_of_loads env w chatID settings false enabledIDs snap tmpl lastVals hids hsnap
    htmpl hlast]
  have hlen : settings.TriggerItems.length > 0 := List.length_pos.mpr hne
  simp [hgate, hlen]

/-- C7: when a non-forced `postOnce` is gated out (trigger list non-empty and
`anyTriggerChanged` false), it returns no error; the only calls it makes after the source
fetch is one `UpdateFetchHealth` with the snapshot's fetch time and an empty error text,
so there is no send or edit, no `SetLastValue`, no `UpdateLastPost` and no failure
notification; the stored last values, the last-post record and the notification throttle
are unchanged; and when the write succeeds the stored fetch health is the snapshot's
fetch time with no error. -/
theorem postOnce_gated_skip (env : Env) (w : World) (chatID : Int)
    (settings : db.ChatSettings) (enabledIDs : List String) (snap : sources.Snapshot)
    (tmpl : db.Template) (lastVals : GoMap)
    (hids : env.EnabledItemIDs = .ok enabledIDs) (hsnap : env.srcGet = .ok snap)
    (htmpl : env.GetTemplate = .ok tmpl)
    (hlast : db.GetLastValues env w chatID enabledIDs = .ok lastVals)
    (hne : settings.TriggerItems ≠ [])
    (hgate : anyTriggerChanged settings
      (render.BuildMessage env settings tmpl enabledIDs snap lastVals).UsedValues
      lastVals = false) :
    (postOnce env w chatID settings false).1 = none ∧
    newCalls w (postOnce env w chatID settings false).2 =
      [.srcGet settings.SourceProvider settings.SourceMethod,
       .UpdateFetchHealth chatID snap.FetchedAt ""] ∧
    (postOnce env w chatID settings false).2.store.chat_last_values =
      w.store.chat_last_values ∧
    (∀ c, (postOnce env w chatID settings false).2.store.lastPost c = w.store.lastPost c) ∧
    (postOnce env w chatID settings false).2.lastFailNotify = w.lastFailNotify ∧
    (env.writeErr w.writes = none → ∀ row, w.store.chat_settings chatID = some row →
      (postOnce env w chatID settings false).2.store.fetchHealth chatID =
        some (some (unixSeconds snap.FetchedAt), none)) := by
  rw [postOnce_gated_eq env w chatID settings enabledIDs snap tmpl lastVals hids hsnap htmpl
    hlast hne hgate]
  refine ⟨rfl, ?_, ?_, ?_, ?_, ?_⟩
  · apply newCalls_of_log_eq
    rw [UpdateFetchHealth_log]
    simp [World.logCall]
  · rw [UpdateFetchHealth_last_values]; rfl
  · intro c
    rw [UpdateFetchHealth_lastPost]; rfl
  · rw [UpdateFetchHealth_lastFailNotify]; rfl
  · intro hw row hrow
    have h := UpdateFetchHealth_fetchHealth env
      (w.logCall (.srcGet settings.SourceProvider settings.SourceMethod)) chatID
      snap.FetchedAt "" hw row hrow
    simpa using h

/-- The used values rendered for the USD scenario are the fetched sell value. -/
theorem usd_used_values (srcGet : Except String sources.Snapshot) (botSend : Except String Int)
    (settings : db.ChatSettings) (hmode : settings.PriceMode = "sell") (v : ℚ)
    (lastVals : GoMap) :
    (render.BuildMessage (scenario.usdEnv srcGet botSend) settings scenario.defaultTemplate
      ["USD"] (scenario.usdSnapshot v) lastVals).UsedValues = scenario.usdMap v := by
  have hq : (scenario.usdSnapshot v).Quotes.lookup "USD" =
      some { Sell := some v, Buy := none, Unit := "toman" } := rfl
  have hit : (items.ByID "USD").isSome = true := by decide
  obtain ⟨it, hit⟩ := Option.isSome_iff_exists.mp hit
  simp only [render.BuildMessage, render.usedValuesLoop, hit, hq, render.formatPrice,
    render.pickUsedVal, hmode]
  simp [scenario.usdMap, AList.singleton, AList.insert, AList.ext_iff]

/-- The gate of the gated scenario is closed: trigger USD, absolute threshold 100, previous
50000, current 50050. -/
theorem usd_gate_closed :
    anyTriggerChanged (scenario.usdTrigger "abs" 100) (scenario.usdMap 50050)
      (AList.insert "USD" 50000 ∅) = false := by
  have h := loop_cons_both "abs" 100 (scenario.usdMap 50050) (AList.insert "USD" 50000 ∅)
    "USD" [] 50050 50000 (by decide) (by decide)
  simp only [anyTriggerChanged, anyTriggerChangedTraced, scenario.usdTrigger, h]
  decide


/-- Witness of C7: trigger USD, absolute threshold 100, previous 50000, current 50050. -/
theorem postOnce_gated_skip_witness :
    (scenario.usdTrigger "abs" 100).TriggerItems ≠ [] ∧
    anyTriggerChanged (scenario.usdTrigger "abs" 100)
      (render.BuildMessage scenario.gatedEnv (scenario.usdTrigger "abs" 100)
        scenario.defaultTemplate ["USD"] (scenario.usdSnapshot 50050)
        (AList.insert "USD" 50000 ∅)).UsedValues
      (AList.insert "USD" 50000 ∅) = false ∧
    ((postOnce scenario.gatedEnv scenario.gatedWorld 1 (scenario.usdTrigger "abs" 100)
        false).1 = none ∧
      newCalls scenario.gatedWorld
        (postOnce scenario.gatedEnv scenario.gatedWorld 1 (scenario.usdTrigger "abs" 100)
          false).2 =
        [.srcGet (scenario.usdTrigger "abs" 100).SourceProvider
            (scenario.usdTrigger "abs" 100).SourceMethod,
         .UpdateFetchHealth 1 (scenario.usdSnapshot 50050).FetchedAt ""] ∧
      (postOnce scenario.gatedEnv scenario.gatedWorld 1 (scenario.usdTrigger "abs" 100)
        false).2.store.chat_last_values = scenario.gatedWorld.store.chat_last_values ∧
      (∀ c, (postOnce scenario.gatedEnv scenario.gatedWorld 1 (scenario.usdTrigger "abs" 100)
        false).2.store.lastPost c = scenario.gatedWorld.store.lastPost c) ∧
      (postOnce scenario.gatedEnv scenario.gatedWorld 1 (scenario.usdTrigger "abs" 100)
        false).2.lastFailNotify = scenario.gatedWorld.lastFailNotify ∧
      (scenario.gatedEnv.writeErr scenario.gatedWorld.writes = none →
        ∀ row, scenario.gatedWorld.store.chat_settings 1 = some row →
        (postOnce scenario.gatedEnv scenario.gatedWorld 1 (scenario.usdTrigger "abs" 100)
          false).2.store.fetchHealth 1 =
          some (some (unixSeconds (scenario.usdSnapshot 50050).FetchedAt), none))) :=
  have hgate : anyTriggerChanged (scenario.usdTrigger "abs" 100)
      (render.BuildMessage scenario.gatedEnv (scenario.usdTrigger "abs" 100)
        scenario.defaultTemplate ["USD"] (scenario.usdSnapshot 50050)
        (AList.insert "USD" 50000 ∅)).UsedValues
      (AList.insert "USD" 50000 ∅) = false := by
    rw [scenario.gatedEnv, usd_used_values _ _ _ rfl]
    exact usd_gate_closed
  ⟨by decide, hgate,
    postOnce_gated_skip scenario.gatedEnv scenario.gatedWorld 1 (scenario.usdTrigger "abs" 100)
      ["USD"] (scenario.usdSnapshot 50050) scenario.defaultTemplate
      (AList.insert "USD" 50000 ∅) rfl rfl rfl rfl (by decide) hgate⟩

/-- When the gate lets the run through (forced, or no trigger items, or a trigger item
changed), `postOnce` with successful loads is the delivery part. -/
theorem postOnce_deliver_of_gate (env : Env) (w : World) (chatID : Int)
    (settings : db.ChatSettings) (forced : Bool) (enabledIDs : List String)
    (snap : sources.Snapshot) (tmpl : db.Template) (lastVals : GoMap)
    (hids : env.EnabledItemIDs = .ok enabledIDs) (hsnap : env.srcGet = .ok snap)
    (htmpl : env.GetTemplate = .ok tmpl)
    (hlast : db.GetLastValues env w chatID enabledIDs = .ok lastVals)
    (hgate : forced = true ∨ settings.TriggerItems = [] ∨
      anyTriggerChanged settings
        (render.BuildMessage env settings tmpl enabledIDs snap lastVals).UsedValues
        lastVals = true) :
    postOnce env w chatID settings forced =
      deliver env (w.logCall (.srcGet settings.SourceProvider settings.SourceMethod)) chatID
        settings snap (render.BuildMessage env settings tmpl enabledIDs snap lastVals) := by
  rw [postOnce_of_loads env w chatID settings forced enabledIDs snap tmpl lastVals hids hsnap
    htmpl hlast]
  rcases hgate with h | h | h
  · simp [h]
  · simp [h]
  · simp [h]

/-- A delivery request is neither a `SetLastValue` nor an `UpdateLastPost` call. -/
theorem isBaselineWrite_of_isDelivery (c : Call) (h : c.isDelivery = true) :
    c.isBaselineWrite = false := by
  cases c <;> simp_all [Call.isDelivery, Call.isBaselineWrite]

/-- C8: when the source fetch or the final delivery fails inside `postOnce`, the error is
returned to the caller; `UpdateFetchHealth` is called with the error text (at the current
time for a fetch failure, at the snapshot's fetch time for a delivery failure) and is
followed by the entry into `notifySourceFail`; neither `SetLastValue` nor `UpdateLastPost`
is called, and the stored last values and the last-post record are unchanged; when the
write succeeds, the stored fetch health holds the error text. -/
theorem postOnce_failure (env : Env) (w : World) (chatID : Int) (settings : db.ChatSettings)
    (forced : Bool) (enabledIDs : List String) (e : String)
    (hids : env.EnabledItemIDs = .ok enabledIDs)
    (hfail : env.srcGet = .error e ∨
      ∃ snap tmpl lastVals, env.srcGet = .ok snap ∧ env.GetTemplate = .ok tmpl ∧
        db.GetLastValues env w chatID enabledIDs = .ok lastVals ∧
        (forced = true ∨ settings.TriggerItems = [] ∨
          anyTriggerChanged settings
            (render.BuildMessage env settings tmpl enabledIDs snap lastVals).UsedValues
            lastVals = true) ∧
        (postOrEdit env (w.logCall (.srcGet settings.SourceProvider settings.SourceMethod))
          chatID settings
          (render.BuildMessage env settings tmpl enabledIDs snap lastVals)).1 = .error e) :
    (postOnce env w chatID settings forced).1 = some e ∧
    (∃ t pre post,
      ((env.srcGet = .error e ∧ t = env.now w.clockReads) ∨
        ∃ snap, env.srcGet = .ok snap ∧ t = snap.FetchedAt) ∧
      newCalls w (postOnce env w chatID settings forced).2 =
        pre ++ .UpdateFetchHealth chatID t e :: .notifySourceFail chatID e :: post ∧
      (∀ c ∈ pre ++ post, c.isBaselineWrite = false) ∧
      (env.writeErr w.writes = none → ∀ row, w.store.chat_settings chatID = some row →
        (postOnce env w chatID settings forced).2.store.fetchHealth chatID =
          some (some (unixSeconds t), if e ≠ "" then some e else none))) ∧
    (postOnce env w chatID settings forced).2.store.chat_last_values =
      w.store.chat_last_values ∧
    (∀ c, (postOnce env w chatID settings forced).2.store.lastPost c =
      w.store.lastPost c) := by
  rcases hfail with hsnap | ⟨snap, tmpl, lastVals, hsnap, htmpl, hlast, hgate, herr⟩
  · have heq : postOnce env w chatID settings forced =
        (some e, notifySourceFail env
          (db.UpdateFetchHealth env
            (timeNow env (w.logCall (.srcGet settings.SourceProvider settings.SourceMethod))).2
            chatID (env.now w.clockReads) e).2 chatID settings e) := by
      simp only [postOnce, hids, hsnap]
      rfl
    rw [heq]
    obtain ⟨cs2, hlog, hcs2⟩ := notifySourceFail_log env
      (db.UpdateFetchHealth env
        (timeNow env (w.logCall (.srcGet settings.SourceProvider settings.SourceMethod))).2
        chatID (env.now w.clockReads) e).2 chatID settings e
    refine ⟨rfl, ⟨env.now w.clockReads,
      [.srcGet settings.SourceProvider settings.SourceMethod], cs2, Or.inl ⟨hsnap, rfl⟩,
      ?_, ?_, ?_⟩, ?_, ?_⟩
    · apply newCalls_of_log_eq
      rw [hlog, UpdateFetchHealth_log]
      simp [timeNow, World.logCall]
    · intro c hc
      rcases List.mem_append.mp hc with h | h
      · rw [List.mem_singleton.mp h]; rfl
      · exact (hcs2 c h).1
    · intro hw row hrow
      show (notifySourceFail env _ chatID settings e).store.fetchHealth chatID = _
      rw [notifySourceFail_store]
      exact UpdateFetchHealth_fetchHealth env
        (timeNow env (w.logCall (.srcGet settings.SourceProvider settings.SourceMethod))).2
        chatID (env.now w.clockReads) e hw row hrow
    · show (notifySourceFail env _ chatID settings e).store.chat_last_values = _
      rw [notifySourceFail_store, UpdateFetchHealth_last_values]; rfl
    · intro c
      show (notifySourceFail env _ chatID settings e).store.lastPost c = _
      rw [notifySourceFail_store, UpdateFetchHealth_lastPost]; rfl
  · rw [postOnce_deliver_of_gate env w chatID settings forced enabledIDs snap tmpl lastVals
      hids hsnap htmpl hlast hgate,
      deliver_of_error env _ chatID settings snap _ e herr]
    obtain ⟨cs, _, hdel, hw2⟩ := postOrEdit_world env
      (w.logCall (.srcGet settings.SourceProvider settings.SourceMethod)) chatID settings
      (render.BuildMessage env settings tmpl enabledIDs snap lastVals)
    obtain ⟨cs2, hlog, hcs2⟩ := notifySourceFail_log env
      (db.UpdateFetchHealth env (postOrEdit env
        (w.logCall (.srcGet settings.SourceProvider settings.SourceMethod)) chatID settings
        (render.BuildMessage env settings tmpl enabledIDs snap lastVals)).2 chatID
        snap.FetchedAt e).2 chatID settings e
    refine ⟨rfl, ⟨snap.FetchedAt,
      .srcGet settings.SourceProvider settings.SourceMethod :: cs, cs2,
      Or.inr ⟨snap, hsnap, rfl⟩, ?_, ?_, ?_⟩, ?_, ?_⟩
    · apply newCalls_of_log_eq
      rw [hlog, UpdateFetchHealth_log, hw2]
      simp [World.logCall]
    · intro c hc
      rcases List.mem_append.mp hc with h | h
      · rcases List.mem_cons.mp h with h | h
        · rw [h]; rfl
        · exact isBaselineWrite_of_isDelivery c (hdel c h)
      · exact (hcs2 c h).1
    · intro hw row hrow
      show (notifySourceFail env _ chatID settings e).store.fetchHealth chatID = _
      rw [notifySourceFail_store]
      apply UpdateFetchHealth_fetchHealth env _ chatID snap.FetchedAt e _ row
      · rw [postOrEdit_store]; exact hrow
      · rw [postOrEdit_writes]; exact hw
    · show (notifySourceFail env _ chatID settings e).store.chat_last_values = _
      rw [notifySourceFail_store, UpdateFetchHealth_last_values, postOrEdit_store]; rfl
    · intro c
      show (notifySourceFail env _ chatID settings e).store.lastPost c = _
      rw [notifySourceFail_store, UpdateFetchHealth_lastPost, postOrEdit_store]; rfl


/-- Witness of C8: a fetch that fails with the error text "timeout", with the whole
conclusion; and a forced run whose send is refused with the error text "Forbidden", which
returns that error. -/
theorem postOnce_failure_witness :
    ((postOrEdit scenario.sendFailEnv
        (scenario.gatedWorld.logCall (.srcGet "bonbast" "scrape")) 1
        (scenario.usdTrigger "abs" 100)
        (render.BuildMessage scenario.sendFailEnv (scenario.usdTrigger "abs" 100)
          scenario.defaultTemplate ["USD"] (scenario.usdSnapshot 50150)
          (scenario.usdMap 50000))).1 = .error "Forbidden" ∧
      (postOnce scenario.sendFailEnv scenario.gatedWorld 1 (scenario.usdTrigger "abs" 100)
        true).1 = some "Forbidden") ∧
    scenario.fetchFailEnv.EnabledItemIDs = .ok ["USD"] ∧
    scenario.fetchFailEnv.srcGet = .error "timeout" ∧
    ((postOnce scenario.fetchFailEnv scenario.gatedWorld 1 (scenario.usdTrigger "abs" 100)
        false).1 = some "timeout" ∧
    (∃ t pre post,
      ((scenario.fetchFailEnv.srcGet = .error "timeout" ∧
          t = scenario.fetchFailEnv.now scenario.gatedWorld.clockReads) ∨
        ∃ snap, scenario.fetchFailEnv.srcGet = .ok snap ∧ t = snap.FetchedAt) ∧
      newCalls scenario.gatedWorld
          (postOnce scenario.fetchFailEnv scenario.gatedWorld 1
            (scenario.usdTrigger "abs" 100) false).2 =
        pre ++ .UpdateFetchHealth 1 t "timeout" :: .notifySourceFail 1 "timeout" :: post ∧
      (∀ c ∈ pre ++ post, c.isBaselineWrite = false) ∧
      (scenario.fetchFailEnv.writeErr scenario.gatedWorld.writes = none →
        ∀ row, scenario.gatedWorld.store.chat_settings 1 = some row →
        (postOnce scenario.fetchFailEnv scenario.gatedWorld 1
            (scenario.usdTrigger "abs" 100) false).2.store.fetchHealth 1 =
          some (some (unixSeconds t),
            if ("timeout" : String) ≠ "" then some "timeout" else none))) ∧
    (postOnce scenario.fetchFailEnv scenario.gatedWorld 1 (scenario.usdTrigger "abs" 100)
        false).2.store.chat_last_values = scenario.gatedWorld.store.chat_last_values ∧
    (∀ c, (postOnce scenario.fetchFailEnv scenario.gatedWorld 1
        (scenario.usdTrigger "abs" 100) false).2.store.lastPost c =
      scenario.gatedWorld.store.lastPost c)) :=
  ⟨⟨rfl, (postOnce_failure scenario.sendFailEnv scenario.gatedWorld 1
      (scenario.usdTrigger "abs" 100) true ["USD"] "Forbidden" rfl
      (Or.inr ⟨scenario.usdSnapshot 50150, scenario.defaultTemplate, scenario.usdMap 50000,
        rfl, rfl, rfl, Or.inl rfl, rfl⟩)).1⟩,
    rfl, rfl,
    postOnce_failure scenario.fetchFailEnv scenario.gatedWorld 1
      (scenario.usdTrigger "abs" 100) false ["USD"] "timeout" rfl (Or.inl rfl)⟩

/-- The stored last value only depends on the table `chat_last_values`. -/
theorem lastValue_congr (st1 st2 : db.Store)
    (h : st1.chat_last_values = st2.chat_last_values) (c : Int) (i : String) :
    st1.lastValue c i = st2.lastValue c i := by
  simp only [db.Store.lastValue, h]

/-- C9: after a `postOnce` whose delivery succeeds, with the store writes succeeding and
the chat's settings row present, no error is returned; the stored last value of every item
in the rendered used-value map equals its used value; the last-post record holds the
message id returned by `postOrEdit` and the time of the post; and the stored fetch health
holds the snapshot's fetch time and no error. -/
theorem postOnce_success_persists (env : Env) (w : World) (chatID : Int)
    (settings : db.ChatSettings) (forced : Bool) (enabledIDs : List String)
    (snap : sources.Snapshot) (tmpl : db.Template) (lastVals : GoMap) (msgID : Int)
    (row : db.ChatSettings)
    (hids : env.EnabledItemIDs = .ok enabledIDs) (hsnap : env.srcGet = .ok snap)
    (htmpl : env.GetTemplate = .ok tmpl)
    (hlast : db.GetLastValues env w chatID enabledIDs = .ok lastVals)
    (hgate : forced = true ∨ settings.TriggerItems = [] ∨
      anyTriggerChanged settings
        (render.BuildMessage env settings tmpl enabledIDs snap lastVals).UsedValues
        lastVals = true)
    (hok : (postOrEdit env (w.logCall (.srcGet settings.SourceProvider settings.SourceMethod))
      chatID settings
      (render.BuildMessage env settings tmpl enabledIDs snap lastVals)).1 = .ok msgID)
    (hw : ∀ n, env.writeErr n = none)
    (hrow : w.store.chat_settings chatID = some row) :
    (postOnce env w chatID settings forced).1 = none ∧
    (∀ id v,
      (render.BuildMessage env settings tmpl enabledIDs snap lastVals).UsedValues.lookup id =
        some v →
      (postOnce env w chatID settings forced).2.store.lastValue chatID id = some v) ∧
    (postOnce env w chatID settings forced).2.store.lastPost chatID =
      some (some msgID, some (unixSeconds (env.now (w.clockReads +
        (render.BuildMessage env settings tmpl enabledIDs snap
          lastVals).UsedValues.entries.length)))) ∧
    (postOnce env w chatID settings forced).2.store.fetchHealth chatID =
      some (some (unixSeconds snap.FetchedAt), none) := by
  rw [postOnce_deliver_of_gate env w chatID settings forced enabledIDs snap tmpl lastVals
    hids hsnap htmpl hlast hgate,
    deliver_of_ok env _ chatID settings snap _ msgID hok]
  set out := render.BuildMessage env settings tmpl enabledIDs snap lastVals with hout
  set w2 := (postOrEdit env (w.logCall (.srcGet settings.SourceProvider settings.SourceMethod))
    chatID settings out).2 with hw2
  set w3 := saveLastValues env chatID out.UsedValues.entries w2 with hw3
  have hrow3 : (timeNow env w3).2.store.chat_settings chatID = some row := by
    show w3.store.chat_settings chatID = some row
    rw [hw3, saveLastValues_chat_settings, hw2, postOrEdit_store]
    exact hrow
  have hclock : (timeNow env w3).1 =
      env.now (w.clockReads + out.UsedValues.entries.length) := by
    show env.now w3.clockReads = _
    rw [hw3, saveLastValues_clockReads, hw2, postOrEdit_clockReads]
    rfl
  have hfinal := persist_settings_row env (timeNow env w3).2 hw chatID msgID (timeNow env w3).1
    snap.FetchedAt row hrow3
  refine ⟨rfl, ?_, ?_, ?_⟩
  · intro id v hv
    have hmem : (⟨id, v⟩ : Sigma fun _ : String => ℚ) ∈ out.UsedValues.entries :=
      AList.mem_lookup_iff.mp (Option.mem_def.mpr hv)
    show db.Store.lastValue _ chatID id = some v
    rw [lastValue_congr _ _ (persist_last_values env (timeNow env w3).2 chatID msgID
      (timeNow env w3).1 snap.FetchedAt)]
    exact saveLastValues_saved env hw chatID _ out.UsedValues.nodupKeys w2 ⟨id, v⟩ hmem
  · show db.Store.lastPost _ chatID = _
    rw [db.Store.lastPost, hfinal, hclock]
    rfl
  · show db.Store.fetchHealth _ chatID = _
    rw [db.Store.fetchHealth, hfinal]
    rfl


/-- The gate of the successful scenario is open: trigger USD, absolute threshold 100,
previous 50000, current 50150. -/
theorem usd_gate_open :
    anyTriggerChanged (scenario.usdTrigger "abs" 100)
      (render.BuildMessage scenario.successEnv (scenario.usdTrigger "abs" 100)
        scenario.defaultTemplate ["USD"] (scenario.usdSnapshot 50150)
        (scenario.usdMap 50000)).UsedValues
      (scenario.usdMap 50000) = true := by
  rw [scenario.successEnv, usd_used_values _ _ _ rfl]
  exact anyTriggerChanged_usd_scenarios.1

/-- Witness of C9: trigger USD, absolute threshold 100, previous 50000, current 50150, no
earlier post, and the send returns message id 7. -/
theorem postOnce_success_persists_witness :
    (postOrEdit scenario.successEnv
      (scenario.gatedWorld.logCall (.srcGet "bonbast" "scrape")) 1
      (scenario.usdTrigger "abs" 100)
      (render.BuildMessage scenario.successEnv (scenario.usdTrigger "abs" 100)
        scenario.defaultTemplate ["USD"] (scenario.usdSnapshot 50150)
        (scenario.usdMap 50000))).1 = .ok 7 ∧
    (∀ n, scenario.successEnv.writeErr n = none) ∧
    scenario.gatedWorld.store.chat_settings 1 = some (scenario.usdTrigger "abs" 100) ∧
    ((postOnce scenario.successEnv scenario.gatedWorld 1 (scenario.usdTrigger "abs" 100)
        false).1 = none ∧
    (∀ id v,
      (render.BuildMessage scenario.successEnv (scenario.usdTrigger "abs" 100)
        scenario.defaultTemplate ["USD"] (scenario.usdSnapshot 50150)
        (scenario.usdMap 50000)).UsedValues.lookup id = some v →
      (postOnce scenario.successEnv scenario.gatedWorld 1 (scenario.usdTrigger "abs" 100)
        false).2.store.lastValue 1 id = some v) ∧
    (postOnce scenario.successEnv scenario.gatedWorld 1 (scenario.usdTrigger "abs" 100)
        false).2.store.lastPost 1 =
      some (some 7, some (unixSeconds (scenario.successEnv.now
        (scenario.gatedWorld.clockReads +
          (render.BuildMessage scenario.successEnv (scenario.usdTrigger "abs" 100)
            scenario.defaultTemplate ["USD"] (scenario.usdSnapshot 50150)
            (scenario.usdMap 50000)).UsedValues.entries.length)))) ∧
    (postOnce scenario.successEnv scenario.gatedWorld 1 (scenario.usdTrigger "abs" 100)
        false).2.store.fetchHealth 1 =
      some (some (unixSeconds (scenario.usdSnapshot 50150).FetchedAt), none)) :=
  ⟨rfl, fun _ => rfl, rfl,
    postOnce_success_persists scenario.successEnv scenario.gatedWorld 1
      (scenario.usdTrigger "abs" 100) false ["USD"] (scenario.usdSnapshot 50150)
      scenario.defaultTemplate (scenario.usdMap 50000) 7 (scenario.usdTrigger "abs" 100)
      rfl rfl rfl rfl (Or.inr (Or.inr usd_gate_open)) rfl (fun _ => rfl) rfl⟩

/-- Witness of C10: the gated scenario (trigger USD, absolute threshold 100, previous
50000, current 50050), run as a forced post. -/
theorem postOnce_forced_delivers_witness :
    scenario.gatedEnv.EnabledItemIDs = .ok ["USD"] ∧
    scenario.gatedEnv.srcGet = .ok (scenario.usdSnapshot 50050) ∧
    scenario.gatedEnv.GetTemplate = .ok scenario.defaultTemplate ∧
    db.GetLastValues scenario.gatedEnv scenario.gatedWorld 1 ["USD"] =
      .ok (scenario.usdMap 50000) ∧
    (postOnce scenario.gatedEnv scenario.gatedWorld 1 (scenario.usdTrigger "abs" 100) true =
      deliver scenario.gatedEnv
        (scenario.gatedWorld.logCall
          (.srcGet (scenario.usdTrigger "abs" 100).SourceProvider
            (scenario.usdTrigger "abs" 100).SourceMethod)) 1
        (scenario.usdTrigger "abs" 100) (scenario.usdSnapshot 50050)
        (render.BuildMessage scenario.gatedEnv (scenario.usdTrigger "abs" 100)
          scenario.defaultTemplate ["USD"] (scenario.usdSnapshot 50050)
          (scenario.usdMap 50000)) ∧
      ∃ c ∈ newCalls scenario.gatedWorld
          (postOnce scenario.gatedEnv scenario.gatedWorld 1 (scenario.usdTrigger "abs" 100)
            true).2,
        c.isDelivery = true) :=
  ⟨rfl, rfl, rfl, rfl,
    postOnce_forced_delivers scenario.gatedEnv scenario.gatedWorld 1
      (scenario.usdTrigger "abs" 100) ["USD"] (scenario.usdSnapshot 50050)
      scenario.defaultTemplate (scenario.usdMap 50000) rfl rfl rfl rfl⟩

/-- With a positive threshold, the loop returns false when every trigger item that has a
current used value has the same previous value, non-zero under threshold type "pct". -/
theorem loop_unchanged (ty : String) (th : ℚ) (current last : GoMap) (hth : 0 < th)
    (l : List String)
    (hall : ∀ id ∈ l, ∀ cur, current.lookup id = some cur →
      last.lookup id = some cur ∧ (ty = "pct" → cur ≠ 0)) :
    (anyTriggerChangedLoop ty th current last l).1 = false := by
  induction l with
  | nil => rfl
  | cons id rest ih =>
    have hrest := ih (fun x hx => hall x (List.mem_cons_of_mem _ hx))
    cases hcur : current.lookup id with
    | none => rw [loop_cons_no_current ty th current last id rest hcur]; exact hrest
    | some cur =>
      obtain ⟨hprev, hnz⟩ := hall id (List.mem_cons_self _ _) cur hcur
      rw [loop_cons_both ty th current last id rest cur cur hcur hprev]
      have hd : absDelta cur cur = Float64.finite 0 1 := by
        unfold absDelta
        rw [Float64.sub_self_ofRat]
        rfl
      have h0 : ¬ ((absDelta cur cur).ge (Float64.ofRat th) = true) := by
        rw [hd, Float64.zero_ge_ofRat th hth]
        exact Bool.false_ne_true
      have h1 : ty = "pct" →
          ¬ ((pctOf (absDelta cur cur) cur).ge (Float64.ofRat th) = true) := by
        intro hty
        unfold pctOf
        rw [hd, Float64.zero_div_mul cur (hnz hty), Float64.zero_ge_ofRat th hth]
        exact Bool.false_ne_true
      by_cases hty : ty = "pct"
      · rw [if_pos hty, if_neg (hnz hty), if_neg (h1 hty)]
        exact hrest
      · rw [if_neg hty, if_neg h0]
        exact hrest

/-- C6 (failing input): trigger USD with the schema defaults for the threshold (type
"abs", value 0) and a current used value equal to the previous value 50000:
`anyTriggerChanged` returns true, because the difference 0 is at least the threshold 0,
and the non-forced `postOnce` issues a delivery request although nothing changed. -/
theorem anyTriggerChanged_unchanged_default_threshold :
    anyTriggerChanged (scenario.usdTrigger "abs" 0) (scenario.usdMap 50000)
      (scenario.usdMap 50000) = true ∧
    ∃ c ∈ newCalls (scenario.usdWorld (scenario.usdTrigger "abs" 0) 50000)
        (postOnce (scenario.usdEnv (.ok (scenario.usdSnapshot 50000)) (.ok 7))
          (scenario.usdWorld (scenario.usdTrigger "abs" 0) 50000) 1
          (scenario.usdTrigger "abs" 0) false).2,
      c.isDelivery = true := by
  have hany : anyTriggerChanged (scenario.usdTrigger "abs" 0) (scenario.usdMap 50000)
      (scenario.usdMap 50000) = true := by
    have h := loop_cons_both "abs" 0 (scenario.usdMap 50000) (scenario.usdMap 50000) "USD" []
      50000 50000 (by decide) (by decide)
    simp only [anyTriggerChanged, anyTriggerChangedTraced, scenario.usdTrigger, h]
    decide
  refine ⟨hany, ?_⟩
  rw [postOnce_deliver_of_gate (scenario.usdEnv (.ok (scenario.usdSnapshot 50000)) (.ok 7))
    (scenario.usdWorld (scenario.usdTrigger "abs" 0) 50000) 1 (scenario.usdTrigger "abs" 0)
    false ["USD"] (scenario.usdSnapshot 50000) scenario.defaultTemplate
    (scenario.usdMap 50000) rfl rfl rfl rfl
    (Or.inr (Or.inr (by rw [usd_used_values _ _ _ rfl]; exact hany)))]
  exact deliver_newCalls _ _ 1 _ _ _ _


/-- The manual post is a forced `postOnce` on the stored settings of the chat. -/
theorem PostNow_eq_forced_postOnce (env : Env) (w : World) (chatID : Int)
    (row : db.ChatSettings) (herr : env.chatSettingsErr = none)
    (hrow : w.store.chat_settings chatID = some row) :
    PostNow env w chatID = (postOnce env w chatID { row with ChatID := chatID } true).2 := by
  simp only [PostNow, db.GetChatSettings, herr, hrow]

end scheduler

/-! ## Theorems: downtime window and interval -/

namespace utils

/-- C16: for every integer x and every integer s, `InDowntime(x, s, s)` is false: a
downtime window whose start equals its end means no downtime. -/
theorem InDowntime_start_eq_end (x s : Int) : InDowntime x s s = false := by
  simp [InDowntime]

/-- C17: for every minute x and bounds start != end, `InDowntime(x, start, end)` is true if
and only if x lies in the half-open window from start to end taken around the clock:
`start <= x < end` when `start < end`, and `x >= start` or `x < end` when
`start > end`. -/
theorem InDowntime_iff (x start stop : Int) (hne : start ≠ stop) :
    InDowntime x start stop = true ↔
      (start < stop ∧ start ≤ x ∧ x < stop) ∨ (start > stop ∧ (x ≥ start ∨ x < stop)) := by
  by_cases hlt : start < stop
  · have hng : ¬ start > stop := by omega
    simp [InDowntime, hne, hlt, hng]
  · have hgt : start > stop := by omega
    simp [InDowntime, hne, hlt, hgt]

/-- Witness of C17: the window from 20:00 to 10:00 wraps past midnight. -/
theorem InDowntime_iff_witness :
    (20 * 60 : Int) ≠ 10 * 60 ∧
    (InDowntime (23 * 60) (20 * 60) (10 * 60) = true ↔
      ((20 * 60 : Int) < 10 * 60 ∧ (20 * 60 : Int) ≤ 23 * 60 ∧ (23 * 60 : Int) < 10 * 60) ∨
      ((20 * 60 : Int) > 10 * 60 ∧ ((23 * 60 : Int) ≥ 20 * 60 ∨ (23 * 60 : Int) < 10 * 60))) :=
  ⟨by decide, InDowntime_iff (23 * 60) (20 * 60) (10 * 60) (by decide)⟩

/-- The window from 20:00 to 10:00 contains 23:00 and does not contain 15:00. -/
theorem InDowntime_wraparound_examples :
    InDowntime (23 * 60) (20 * 60) (10 * 60) = true ∧
    InDowntime (15 * 60) (20 * 60) (10 * 60) = false := by
  decide

end utils

namespace scheduler

/-- Go `a % b` is 0 exactly when the mathematical remainder is 0. -/
theorem goMod_eq_zero_iff (a b : Int) : goMod a b = 0 ↔ a % b = 0 := by
  constructor
  · intro h; exact Int.emod_eq_zero_of_dvd (Int.dvd_of_tmod_eq_zero h)
  · intro h; exact Int.tmod_eq_zero_of_dvd (Int.dvd_of_emod_eq_zero h)

/-- The interval test holds exactly when the minute is a multiple of the effective
interval. -/
theorem intervalDue_iff (interval m : Int) :
    intervalDue interval m = true ↔ m % (if interval > 0 then interval else 5) = 0 := by
  have he : effectiveInterval interval = if interval > 0 then interval else 5 := by
    unfold effectiveInterval
    by_cases h : interval ≤ 0
    · have h2 : ¬ interval > 0 := by omega
      rw [if_pos h, if_neg h2]
    · have h2 : interval > 0 := by omega
      rw [if_neg h, if_pos h2]
  unfold intervalDue
  rw [he]
  by_cases h : goMod m (if interval > 0 then interval else 5) = 0
  · simp [h, (goMod_eq_zero_iff _ _).mp h]
  · have h2 : ¬ m % (if interval > 0 then interval else 5) = 0 :=
      fun h3 => h ((goMod_eq_zero_iff _ _).mpr h3)
    simp [h, h2]

/-- C14: for every stored interval and every minute-of-day m in 0..1439, the tick scan
treats a destination as due if and only if `m mod e = 0`, where the effective interval e is
the stored interval when it is positive and 5 otherwise; on these minutes the Go remainder
that the scan computes is the mathematical remainder. -/
theorem intervalDue_iff_mod (interval m : Int) (h0 : 0 ≤ m) (_h1 : m ≤ 1439) :
    goMod m (effectiveInterval interval) = m % (if interval > 0 then interval else 5) ∧
    (intervalDue interval m = true ↔ m % (if interval > 0 then interval else 5) = 0) := by
  refine ⟨?_, intervalDue_iff interval m⟩
  unfold effectiveInterval goMod
  by_cases h : interval ≤ 0
  · have h2 : ¬ interval > 0 := by omega
    rw [if_pos h, if_neg h2]
    exact Int.tmod_eq_emod h0 (by decide)
  · have h2 : interval > 0 := by omega
    rw [if_neg h, if_pos h2]
    exact Int.tmod_eq_emod h0 (le_of_lt h2)

/-- Witness of C14: with interval 5, minute 105 is due. -/
theorem intervalDue_iff_mod_witness :
    (0 : Int) ≤ 105 ∧ (105 : Int) ≤ 1439 ∧
    (goMod 105 (effectiveInterval 5) = (105 : Int) % (if (5 : Int) > 0 then 5 else 5) ∧
      (intervalDue 5 105 = true ↔ (105 : Int) % (if (5 : Int) > 0 then 5 else 5) = 0)) :=
  ⟨by decide, by decide, intervalDue_iff_mod 5 105 (by decide) (by decide)⟩

/-- With interval 5 the minutes 0, 5, 10, 100 and 105 are due and the minutes 1, 2, 3, 4, 6
and 101 are not; a stored interval of 0 or -3 behaves as 5. -/
theorem intervalDue_examples :
    intervalDue 5 0 = true ∧ intervalDue 5 5 = true ∧ intervalDue 5 10 = true ∧
    intervalDue 5 100 = true ∧ intervalDue 5 105 = true ∧
    intervalDue 5 1 = false ∧ intervalDue 5 2 = false ∧ intervalDue 5 3 = false ∧
    intervalDue 5 4 = false ∧ intervalDue 5 6 = false ∧ intervalDue 5 101 = false ∧
    intervalDue 0 105 = true ∧ intervalDue (-3) 105 = true ∧ intervalDue 0 104 = false := by
  decide

end scheduler

/-! ## Theorems: the tick scan -/

namespace scheduler

/-- The downtime test holds exactly when downtime is enabled, both bounds parse and the
minute is inside the window. -/
theorem downtimeNow_iff (settings : db.ChatSettings) (m : Int) :
    downtimeNow settings m = true ↔
      (settings.DowntimeEnabled = true ∧
        (utils.ParseHHMM settings.DowntimeStart).2 = true ∧
        (utils.ParseHHMM settings.DowntimeEnd).2 = true ∧
        utils.InDowntime m (utils.ParseHHMM settings.DowntimeStart).1
          (utils.ParseHHMM settings.DowntimeEnd).1 = true) := by
  unfold downtimeNow
  by_cases h : settings.DowntimeEnabled = true
  · simp [h, Bool.and_eq_true, and_assoc]
  · simp [h]

/-- One destination of the scan: it is started exactly when it is approved and enabled, its
settings load, it is not in downtime and the interval test holds. -/
theorem runTickScan_cons (envOf : Int → Env) (w : World) (m : Int) (c : db.Chat)
    (rest : List db.Chat) (x : Int × db.ChatSettings) :
    x ∈ runTickScan envOf w m (c :: rest) ↔
      (c.ChatID = x.1 ∧ c.Approved = true ∧ c.Enabled = true ∧
        db.GetChatSettings (envOf x.1) w x.1 = .ok x.2 ∧
        downtimeNow x.2 m = false ∧ intervalDue x.2.IntervalMinutes m = true) ∨
      x ∈ runTickScan envOf w m rest := by
  obtain ⟨chatID, st⟩ := x
  rw [runTickScan]
  by_cases hflags : (!c.Approved || !c.Enabled) = true
  · rw [if_pos hflags]
    have : ¬ (c.Approved = true ∧ c.Enabled = true) := by
      intro h; simp [h.1, h.2] at hflags
    constructor
    · intro h; exact Or.inr h
    · rintro (⟨_, ha, he, _⟩ | h)
      · exact absurd ⟨ha, he⟩ this
      · exact h
  · rw [if_neg hflags]
    have hflags2 : c.Approved = true ∧ c.Enabled = true := by
      cases ha : c.Approved <;> cases he : c.Enabled <;> simp [ha, he] at hflags ⊢
    cases hload : db.GetChatSettings (envOf c.ChatID) w c.ChatID with
    | error e =>
      simp only []
      constructor
      · intro h; exact Or.inr h
      · rintro (⟨hid, _, _, hl, _⟩ | h)
        · subst hid; rw [hload] at hl; cases hl
        · exact h
    | ok settings =>
      simp only []
      by_cases hdown : downtimeNow settings m = true
      · rw [if_pos hdown]
        constructor
        · intro h; exact Or.inr h
        · rintro (⟨hid, _, _, hl, hd, _⟩ | h)
          · subst hid; rw [hload] at hl; cases hl
            rw [hdown] at hd; cases hd
          · exact h
      · rw [if_neg hdown]
        by_cases hdue : intervalDue settings.IntervalMinutes m = true
        · have hdue2 : ¬ ((!intervalDue settings.IntervalMinutes m) = true) := by simp [hdue]
          rw [if_neg hdue2, List.mem_cons]
          constructor
          · rintro (h | h)
            · cases h
              exact Or.inl ⟨rfl, hflags2.1, hflags2.2, hload, by simpa using hdown, hdue⟩
            · exact Or.inr h
          · rintro (⟨hid, _, _, hl, _, _⟩ | h)
            · subst hid; rw [hload] at hl; cases hl
              exact Or.inl rfl
            · exact Or.inr h
        · have hdue2 : (!intervalDue settings.IntervalMinutes m) = true := by simpa using hdue
          rw [if_pos hdue2]
          constructor
          · intro h; exact Or.inr h
          · rintro (⟨hid, _, _, hl, _, hd⟩ | h)
            · subst hid; rw [hload] at hl; cases hl
              exact absurd hd hdue
            · exact h

/-- The destinations that the scan starts are the approved and enabled destinations of the
list whose settings load, that are not in downtime and for which the minute is a multiple of
the effective interval. -/
theorem runTickScan_mem (envOf : Int → Env) (w : World) (m : Int) (chats : List db.Chat)
    (chatID : Int) (st : db.ChatSettings) :
    (chatID, st) ∈ runTickScan envOf w m chats ↔
      ∃ c ∈ chats, c.ChatID = chatID ∧ c.Approved = true ∧ c.Enabled = true ∧
        db.GetChatSettings (envOf chatID) w chatID = .ok st ∧
        ¬ (st.DowntimeEnabled = true ∧
            (utils.ParseHHMM st.DowntimeStart).2 = true ∧
            (utils.ParseHHMM st.DowntimeEnd).2 = true ∧
            utils.InDowntime m (utils.ParseHHMM st.DowntimeStart).1
              (utils.ParseHHMM st.DowntimeEnd).1 = true) ∧
        m % (if st.IntervalMinutes > 0 then st.IntervalMinutes else 5) = 0 := by
  induction chats with
  | nil => simp [runTickScan]
  | cons c rest ih =>
    rw [runTickScan_cons, ih]
    simp only [List.exists_mem_cons_iff, ← downtimeNow_iff, ← intervalDue_iff,
      Bool.not_eq_true]

/-- C13: for every list of destinations and every minute-of-day, the tick scan starts
`postOnce` for a destination, with settings `st`, if and only if the destination is in the
list, approved and enabled, its settings load without error as `st`, it is not the case
that downtime is enabled with both bounds parseable and the minute inside the window, and
`minuteOfDay mod` the effective interval is 0; in particular a destination that is not both
approved and enabled is never started. -/
theorem runTickScan_mem_iff (envOf : Int → Env) (w : World) (m : Int) (chats : List db.Chat)
    (chatID : Int) (st : db.ChatSettings) :
    ((chatID, st) ∈ runTickScan envOf w m chats ↔
      ∃ c ∈ chats, c.ChatID = chatID ∧ c.Approved = true ∧ c.Enabled = true ∧
        db.GetChatSettings (envOf chatID) w chatID = .ok st ∧
        ¬ (st.DowntimeEnabled = true ∧
            (utils.ParseHHMM st.DowntimeStart).2 = true ∧
            (utils.ParseHHMM st.DowntimeEnd).2 = true ∧
            utils.InDowntime m (utils.ParseHHMM st.DowntimeStart).1
              (utils.ParseHHMM st.DowntimeEnd).1 = true) ∧
        m % (if st.IntervalMinutes > 0 then st.IntervalMinutes else 5) = 0) ∧
    ((∀ c ∈ chats, c.ChatID = chatID → ¬ (c.Approved = true ∧ c.Enabled = true)) →
      (chatID, st) ∉ runTickScan envOf w m chats) := by
  refine ⟨runTickScan_mem envOf w m chats chatID st, ?_⟩
  intro hnot hmem
  obtain ⟨c, hc, hid, ha, he, _⟩ := (runTickScan_mem envOf w m chats chatID st).mp hmem
  exact hnot c hc hid ⟨ha, he⟩

end scheduler

namespace scheduler

/-- Every run of `postOnce` that gets past the item list issues the source fetch first. -/
theorem postOnce_tick_fetch (env : Env) (w : World) (chatID : Int)
    (settings : db.ChatSettings) (enabledIDs : List String) (snap : sources.Snapshot)
    (tmpl : db.Template) (lastVals : GoMap)
    (hids : env.EnabledItemIDs = .ok enabledIDs) (hsnap : env.srcGet = .ok snap)
    (htmpl : env.GetTemplate = .ok tmpl)
    (hlast : db.GetLastValues env w chatID enabledIDs = .ok lastVals)
    (hempty : settings.TriggerItems = []) :
    Call.srcGet settings.SourceProvider settings.SourceMethod ∈
      newCalls w (postOnce env w chatID settings false).2 := by
  rw [postOnce_deliver_of_gate env w chatID settings false enabledIDs snap tmpl lastVals
    hids hsnap htmpl hlast (Or.inr (Or.inl hempty))]
  obtain ⟨cs, hlog, _⟩ := deliver_log env
    (w.logCall (.srcGet settings.SourceProvider settings.SourceMethod)) chatID settings snap
    (render.BuildMessage env settings tmpl enabledIDs snap lastVals)
  have h2 : (deliver env (w.logCall (.srcGet settings.SourceProvider settings.SourceMethod))
      chatID settings snap
      (render.BuildMessage env settings tmpl enabledIDs snap lastVals)).2.log =
      w.log ++ (Call.srcGet settings.SourceProvider settings.SourceMethod :: cs) := by
    rw [hlog]; simp [World.logCall]
  rw [newCalls_of_log_eq w _ _ h2]
  exact List.mem_cons_self _ _

/-- Counterexample to C15 as stated: minute 100 is a multiple of 5, so the destination
(approved and enabled, interval 5, downtime disabled, no trigger items) is due at
minute-of-day 100: the scan starts `postOnce` for it and the fetch is issued. -/
theorem runTick_minute_100_counterexample :
    scenario.chatOne.Approved = true ∧ scenario.chatOne.Enabled = true ∧
    scenario.noTrigger.IntervalMinutes = 5 ∧ scenario.noTrigger.DowntimeEnabled = false ∧
    scenario.noTrigger.TriggerItems = [] ∧
    db.GetChatSettings (scenario.tickEnv 1) scenario.tickWorld 1 = .ok scenario.noTrigger ∧
    runTickScan scenario.tickEnv scenario.tickWorld 100 [scenario.chatOne] =
      [(1, scenario.noTrigger)] ∧
    Call.srcGet "bonbast" "scrape" ∈ newCalls scenario.tickWorld
      (runTick scenario.tickEnv (.ok [scenario.chatOne]) scenario.tickWorld 100) := by
  refine ⟨rfl, rfl, rfl, rfl, rfl, rfl, rfl, ?_⟩
  have hscan : runTickScan scenario.tickEnv scenario.tickWorld 100 [scenario.chatOne] =
      [(1, scenario.noTrigger)] := rfl
  simp only [runTick, hscan, runDispatched]
  exact postOnce_tick_fetch (scenario.tickEnv 1) scenario.tickWorld 1 scenario.noTrigger
    ["USD"] (scenario.usdSnapshot 50000) scenario.defaultTemplate (scenario.usdMap 50000)
    rfl rfl rfl rfl rfl

/-- C15 (amended): a destination with interval 5 is skipped by the tick scan at every
minute-of-day that is not a multiple of 5, such as 101: whatever the list of destinations,
no `postOnce` is started for it, and a tick over this destination alone starts nothing and
leaves the world as it was, so no fetch is issued. -/
theorem runTick_skips_off_interval (envOf : Int → Env) (w : World) (m : Int) (c : db.Chat)
    (st : db.ChatSettings)
    (hload : db.GetChatSettings (envOf c.ChatID) w c.ChatID = .ok st)
    (hint : st.IntervalMinutes = 5) (hm : m % 5 ≠ 0) :
    (∀ chats st2, (c.ChatID, st2) ∉ runTickScan envOf w m chats) ∧
    runTickScan envOf w m [c] = [] ∧
    runTick envOf (.ok [c]) w m = w := by
  have hnot : ∀ chats st2, (c.ChatID, st2) ∉ runTickScan envOf w m chats := by
    intro chats st2 hmem
    obtain ⟨_, _, _, _, _, hl, _, hmod⟩ := (runTickScan_mem envOf w m chats c.ChatID st2).mp hmem
    rw [hload] at hl
    cases hl
    rw [hint] at hmod
    exact hm (by simpa using hmod)
  have hnil : runTickScan envOf w m [c] = [] := by
    apply List.eq_nil_iff_forall_not_mem.mpr
    intro x hx
    rcases (runTickScan_cons envOf w m c [] x).mp hx with h | h
    · have hx2 := hnot [c] x.2
      rw [h.1] at hx2
      exact hx2 hx
    · simp [runTickScan] at h
  refine ⟨hnot, hnil, ?_⟩
  simp only [runTick, hnil, runDispatched]

/-- Witness of C15 (amended): the destination of the scenario (approved and enabled,
interval 5, downtime disabled, no trigger items) at minute-of-day 101. -/
theorem runTick_skips_off_interval_witness :
    scenario.chatOne.Approved = true ∧ scenario.chatOne.Enabled = true ∧
    scenario.noTrigger.DowntimeEnabled = false ∧ scenario.noTrigger.TriggerItems = [] ∧
    db.GetChatSettings (scenario.tickEnv scenario.chatOne.ChatID) scenario.tickWorld
      scenario.chatOne.ChatID = .ok scenario.noTrigger ∧
    scenario.noTrigger.IntervalMinutes = 5 ∧ (101 : Int) % 5 ≠ 0 ∧
    ((∀ chats st2, (scenario.chatOne.ChatID, st2) ∉
        runTickScan scenario.tickEnv scenario.tickWorld 101 chats) ∧
      runTickScan scenario.tickEnv scenario.tickWorld 101 [scenario.chatOne] = [] ∧
      runTick scenario.tickEnv (.ok [scenario.chatOne]) scenario.tickWorld 101 =
        scenario.tickWorld) :=
  ⟨rfl, rfl, rfl, rfl, rfl, rfl, by decide,
    runTick_skips_off_interval scenario.tickEnv scenario.tickWorld 101 scenario.chatOne
      scenario.noTrigger rfl rfl (by decide)⟩

end scheduler

/-! ## Theorems: postOrEdit -/

namespace scheduler

/-- The function `postOrEdit` in edit mode with a recorded last message id: the edit is
requested, and a failed edit is followed by the new-message part. -/
theorem postOrEdit_edit_mode (env : Env) (w : World) (chatID : Int)
    (settings : db.ChatSettings) (out : render.Output) (mid : Int)
    (hmode : settings.PostMode = "edit" ∨ settings.PostMode = "")
    (hmid : db.GetLastPostMessageID env w chatID = .ok (some mid)) :
    postOrEdit env w chatID settings out =
      match env.botRequest with
      | none => (.ok mid, w.logCall (editRequest chatID mid out))
      | some _ => sendNew env (w.logCall (editRequest chatID mid out)) chatID out := by
  have hpm : (if settings.PostMode = "" then "edit" else settings.PostMode) = "edit" := by
    rcases hmode with h | h
    · rw [h]; decide
    · rw [if_pos h]
  simp only [postOrEdit, hpm, hmid, if_true]

/-- A new-message request is a send; an edit request is not. -/
theorem request_kinds (chatID mid : Int) (out : render.Output) :
    (newMessageRequest chatID out).isSend = true ∧
    (editRequest chatID mid out).isSend = false := by
  constructor
  · simp only [newMessageRequest]
    split_ifs <;> rfl
  · simp only [editRequest]
    split_ifs <;> rfl

/-- C11: in `postOrEdit` with post mode "edit" (or the empty mode, which reads as "edit")
and a recorded last message id, if the edit request fails for any reason, the calls made
are the edit request followed by exactly one new-message send; on its success `postOrEdit`
returns the new message id, and on its failure `postOrEdit` returns that error, with no
further attempt. -/
theorem postOrEdit_edit_fails_sends_once (env : Env) (w : World) (chatID : Int)
    (settings : db.ChatSettings) (out : render.Output) (mid : Int) (e : String)
    (hmode : settings.PostMode = "edit" ∨ settings.PostMode = "")
    (hmid : db.GetLastPostMessageID env w chatID = .ok (some mid))
    (hedit : env.botRequest = some e) :
    newCalls w (postOrEdit env w chatID settings out).2 =
      [editRequest chatID mid out, newMessageRequest chatID out] ∧
    ((newCalls w (postOrEdit env w chatID settings out).2).filter Call.isSend).length = 1 ∧
    (∀ newID, env.botSend = .ok newID →
      (postOrEdit env w chatID settings out).1 = .ok newID) ∧
    (∀ e2, env.botSend = .error e2 →
      (postOrEdit env w chatID settings out).1 = .error e2) := by
  have heq : postOrEdit env w chatID settings out =
      sendNew env (w.logCall (editRequest chatID mid out)) chatID out := by
    rw [postOrEdit_edit_mode env w chatID settings out mid hmode hmid, hedit]
  have hcalls : newCalls w (postOrEdit env w chatID settings out).2 =
      [editRequest chatID mid out, newMessageRequest chatID out] := by
    apply newCalls_of_log_eq
    rw [heq]
    simp only [sendNew, World.logCall]
    split <;> simp
  obtain ⟨hs, he⟩ := request_kinds chatID mid out
  refine ⟨hcalls, ?_, ?_, ?_⟩
  · rw [hcalls]
    simp [List.filter, hs, he]
  · intro newID hsend
    rw [heq]
    simp only [sendNew, hsend]
  · intro e2 hsend
    rw [heq]
    simp only [sendNew, hsend]

/-- Witness of C11: chat 1 has the recorded last message 42, the edit is refused and the
send returns message id 7. -/
theorem postOrEdit_edit_fails_sends_once_witness :
    ((scenario.usdTrigger "abs" 100).PostMode = "edit" ∨
      (scenario.usdTrigger "abs" 100).PostMode = "") ∧
    db.GetLastPostMessageID scenario.editFailEnv scenario.editWorld 1 = .ok (some 42) ∧
    scenario.editFailEnv.botRequest = some "Bad Request: message to edit not found" ∧
    (newCalls scenario.editWorld
        (postOrEdit scenario.editFailEnv scenario.editWorld 1 (scenario.usdTrigger "abs" 100)
          scenario.textOutput).2 =
      [editRequest 1 42 scenario.textOutput, newMessageRequest 1 scenario.textOutput] ∧
    ((newCalls scenario.editWorld
        (postOrEdit scenario.editFailEnv scenario.editWorld 1 (scenario.usdTrigger "abs" 100)
          scenario.textOutput).2).filter Call.isSend).length = 1 ∧
    (∀ newID, scenario.editFailEnv.botSend = .ok newID →
      (postOrEdit scenario.editFailEnv scenario.editWorld 1 (scenario.usdTrigger "abs" 100)
        scenario.textOutput).1 = .ok newID) ∧
    (∀ e2, scenario.editFailEnv.botSend = .error e2 →
      (postOrEdit scenario.editFailEnv scenario.editWorld 1 (scenario.usdTrigger "abs" 100)
        scenario.textOutput).1 = .error e2)) :=
  ⟨Or.inl rfl, rfl, rfl,
    postOrEdit_edit_fails_sends_once scenario.editFailEnv scenario.editWorld 1
      (scenario.usdTrigger "abs" 100) scenario.textOutput 42
      "Bad Request: message to edit not found" (Or.inl rfl) rfl rfl⟩

/-- C12: in `postOrEdit` with post mode "edit" (or the empty mode) and a recorded last
message id, if the edit request succeeds, `postOrEdit` returns the recorded message id
unchanged; the only call made is the edit request, a caption edit when the output carries
media and a text edit otherwise, and no new message is sent. -/
theorem postOrEdit_edit_succeeds (env : Env) (w : World) (chatID : Int)
    (settings : db.ChatSettings) (out : render.Output) (mid : Int)
    (hmode : settings.PostMode = "edit" ∨ settings.PostMode = "")
    (hmid : db.GetLastPostMessageID env w chatID = .ok (some mid))
    (hedit : env.botRequest = none) :
    (postOrEdit env w chatID settings out).1 = .ok mid ∧
    newCalls w (postOrEdit env w chatID settings out).2 = [editRequest chatID mid out] ∧
    (∀ c ∈ newCalls w (postOrEdit env w chatID settings out).2, c.isSend = false) ∧
    ((out.MediaType ≠ "" ∧ out.MediaFileID ≠ "") →
      editRequest chatID mid out = .botEditCaption chatID mid out.Text) ∧
    (¬ (out.MediaType ≠ "" ∧ out.MediaFileID ≠ "") →
      editRequest chatID mid out = .botEditText chatID mid out.Text) := by
  have heq : postOrEdit env w chatID settings out =
      (.ok mid, w.logCall (editRequest chatID mid out)) := by
    rw [postOrEdit_edit_mode env w chatID settings out mid hmode hmid, hedit]
  have hcalls : newCalls w (postOrEdit env w chatID settings out).2 =
      [editRequest chatID mid out] := by
    apply newCalls_of_log_eq
    rw [heq]
    rfl
  refine ⟨by rw [heq], hcalls, ?_, ?_, ?_⟩
  · intro c hc
    rw [hcalls, List.mem_singleton] at hc
    rw [hc]
    exact (request_kinds chatID mid out).2
  · intro h
    simp only [editRequest, if_pos h]
  · intro h
    simp only [editRequest, if_neg h]

/-- Witness of C12: chat 1 has the recorded last message 42 and the edit succeeds. -/
theorem postOrEdit_edit_succeeds_witness :
    ((scenario.usdTrigger "abs" 100).PostMode = "edit" ∨
      (scenario.usdTrigger "abs" 100).PostMode = "") ∧
    db.GetLastPostMessageID scenario.successEnv scenario.editWorld 1 = .ok (some 42) ∧
    scenario.successEnv.botRequest = none ∧
    ((postOrEdit scenario.successEnv scenario.editWorld 1 (scenario.usdTrigger "abs" 100)
        scenario.textOutput).1 = .ok 42 ∧
    newCalls scenario.editWorld
        (postOrEdit scenario.successEnv scenario.editWorld 1 (scenario.usdTrigger "abs" 100)
          scenario.textOutput).2 = [editRequest 1 42 scenario.textOutput] ∧
    (∀ c ∈ newCalls scenario.editWorld
        (postOrEdit scenario.successEnv scenario.editWorld 1 (scenario.usdTrigger "abs" 100)
          scenario.textOutput).2, c.isSend = false) ∧
    ((scenario.textOutput.MediaType ≠ "" ∧ scenario.textOutput.MediaFileID ≠ "") →
      editRequest 1 42 scenario.textOutput = .botEditCaption 1 42 scenario.textOutput.Text) ∧
    (¬ (scenario.textOutput.MediaType ≠ "" ∧ scenario.textOutput.MediaFileID ≠ "") →
      editRequest 1 42 scenario.textOutput = .botEditText 1 42 scenario.textOutput.Text)) :=
  ⟨Or.inl rfl, rfl, rfl,
    postOrEdit_edit_succeeds scenario.successEnv scenario.editWorld 1
      (scenario.usdTrigger "abs" 100) scenario.textOutput 42 (Or.inl rfl) rfl rfl⟩

end scheduler

/-! ## Theorems: the failure-notification throttle -/

namespace scheduler

/-- Whether `notifySourceFail` returns early: there is a recorded time and less than the
window has passed since it. -/
theorem notifySourceFail_eq (env : Env) (w : World) (chatID : Int)
    (settings : db.ChatSettings) (err : String) (hnot : env.hasNotifier = true) :
    notifySourceFail env w chatID settings err =
      if (match w.lastFailNotify chatID with
          | some l => decide (env.now w.clockReads - l < failNotifyWindow)
          | none => false) = true then
        { w with log := w.log ++ [.notifySourceFail chatID err]
                 clockReads := w.clockReads + 1 }
      else
        { w with log := w.log ++ [.notifySourceFail chatID err,
                   .NotifyAdmins chatID settings.SourceProvider settings.SourceMethod err]
                 clockReads := w.clockReads + 1 + 1
                 lastFailNotify := fun c =>
                   if c = chatID then some (env.now (w.clockReads + 1))
                   else w.lastFailNotify c } := by
  simp only [notifySourceFail, timeNow, World.logCall, hnot]
  split_ifs <;> simp

end scheduler

namespace scheduler

/-- The new calls over two consecutive stretches are the new calls of the first followed by
the new calls of the second. -/
theorem newCalls_trans (w w1 w2 : World) (a b : List Call) (h1 : w1.log = w.log ++ a)
    (h2 : w2.log = w1.log ++ b) : newCalls w w2 = newCalls w w1 ++ newCalls w1 w2 := by
  rw [newCalls_of_log_eq w w1 a h1, newCalls_of_log_eq w1 w2 b h2]
  apply newCalls_of_log_eq
  rw [h2, h1, List.append_assoc]

/-- A sequence of failures only appends to the log. -/
theorem runFailures_log (env : Env) (calls : List (Int × db.ChatSettings × String)) :
    ∀ w : World, ∃ cs, (runFailures env calls w).log = w.log ++ cs := by
  induction calls with
  | nil => intro w; exact ⟨[], by simp [runFailures]⟩
  | cons f rest ih =>
    intro w
    obtain ⟨cs1, h1, _⟩ := notifySourceFail_log env w f.1 f.2.1 f.2.2
    obtain ⟨cs2, h2⟩ := ih (notifySourceFail env w f.1 f.2.1 f.2.2)
    exact ⟨Call.notifySourceFail f.1 f.2.2 :: cs1 ++ cs2, by
      rw [runFailures, h2, h1]; simp⟩

/-- With a notifier, `notifySourceFail` notifies exactly when the destination has no
recorded notification time or at least the window has passed since it. -/
theorem notifiedBetween_iff (env : Env) (w : World) (chatID : Int)
    (settings : db.ChatSettings) (err : String) (hnot : env.hasNotifier = true) :
    notifiedBetween chatID w (notifySourceFail env w chatID settings err) = true ↔
      (w.lastFailNotify chatID = none ∨
        ∃ l, w.lastFailNotify chatID = some l ∧
          env.now w.clockReads - l ≥ failNotifyWindow) := by
  rw [notifySourceFail_eq env w chatID settings err hnot]
  cases hl : w.lastFailNotify chatID with
  | none =>
    simp only [Bool.false_eq_true, if_false]
    have : newCalls w { w with
        log := w.log ++ [Call.notifySourceFail chatID err,
          Call.NotifyAdmins chatID settings.SourceProvider settings.SourceMethod err]
        clockReads := w.clockReads + 1 + 1
        lastFailNotify := fun c =>
          if c = chatID then some (env.now (w.clockReads + 1)) else w.lastFailNotify c } =
        [Call.notifySourceFail chatID err,
          Call.NotifyAdmins chatID settings.SourceProvider settings.SourceMethod err] :=
      newCalls_of_log_eq w _ _ rfl
    simp [notifiedBetween, this, isNotifyAdminsFor]
  | some l =>
    by_cases hlt : env.now w.clockReads - l < failNotifyWindow
    · have hge : ¬ env.now w.clockReads - l ≥ failNotifyWindow := by omega
      simp only [hlt, decide_True, if_true]
      have : newCalls w { w with log := w.log ++ [Call.notifySourceFail chatID err]
                                 clockReads := w.clockReads + 1 } =
          [Call.notifySourceFail chatID err] := newCalls_of_log_eq w _ _ rfl
      simp [notifiedBetween, this, isNotifyAdminsFor, hge]
    · have hge : env.now w.clockReads - l ≥ failNotifyWindow := by omega
      simp only [hlt, decide_False, Bool.false_eq_true, if_false]
      have : newCalls w { w with
          log := w.log ++ [Call.notifySourceFail chatID err,
            Call.NotifyAdmins chatID settings.SourceProvider settings.SourceMethod err]
          clockReads := w.clockReads + 1 + 1
          lastFailNotify := fun c =>
            if c = chatID then some (env.now (w.clockReads + 1)) else w.lastFailNotify c } =
          [Call.notifySourceFail chatID err,
            Call.NotifyAdmins chatID settings.SourceProvider settings.SourceMethod err] :=
        newCalls_of_log_eq w _ _ rfl
      simp [notifiedBetween, this, isNotifyAdminsFor, hge]

end scheduler

namespace scheduler

/-- The effect of `notifySourceFail` on the throttle map: a notification records the time
read after the check for that destination only, a suppressed call changes nothing, and no
other destination is notified about. -/
theorem notifySourceFail_effect (env : Env) (w : World) (chatID : Int)
    (settings : db.ChatSettings) (err : String) (hnot : env.hasNotifier = true) :
    (notifiedBetween chatID w (notifySourceFail env w chatID settings err) = true →
      (notifySourceFail env w chatID settings err).lastFailNotify =
        fun c => if c = chatID then some (env.now (w.clockReads + 1))
          else w.lastFailNotify c) ∧
    (notifiedBetween chatID w (notifySourceFail env w chatID settings err) = false →
      (notifySourceFail env w chatID settings err).lastFailNotify = w.lastFailNotify) ∧
    (∀ d, d ≠ chatID →
      notifiedBetween d w (notifySourceFail env w chatID settings err) = false) := by
  rw [notifySourceFail_eq env w chatID settings err hnot]
  have hA : newCalls w { w with
      log := w.log ++ [Call.notifySourceFail chatID err,
        Call.NotifyAdmins chatID settings.SourceProvider settings.SourceMethod err]
      clockReads := w.clockReads + 1 + 1
      lastFailNotify := fun c =>
        if c = chatID then some (env.now (w.clockReads + 1)) else w.lastFailNotify c } =
      [Call.notifySourceFail chatID err,
        Call.NotifyAdmins chatID settings.SourceProvider settings.SourceMethod err] :=
    newCalls_of_log_eq w _ _ rfl
  have hB : newCalls w { w with log := w.log ++ [Call.notifySourceFail chatID err]
                                clockReads := w.clockReads + 1 } =
      [Call.notifySourceFail chatID err] := newCalls_of_log_eq w _ _ rfl
  split_ifs with hthr
  · refine ⟨?_, fun _ => rfl, ?_⟩
    · intro h
      simp [notifiedBetween, hB, isNotifyAdminsFor] at h
    · intro d _
      simp [notifiedBetween, hB, isNotifyAdminsFor]
  · refine ⟨fun _ => rfl, ?_, ?_⟩
    · intro h
      simp [notifiedBetween, hA, isNotifyAdminsFor] at h
    · intro d hd
      have hd2 : ¬ chatID = d := fun h => hd h.symm
      simp [notifiedBetween, hA, isNotifyAdminsFor, hd2]

/-- A sequence of failures in which the operators are never notified about a destination
leaves the recorded notification time of that destination as it was. -/
theorem runFailures_preserves (env : Env) (hnot : env.hasNotifier = true) (chatID : Int)
    (calls : List (Int × db.ChatSettings × String)) :
    ∀ w : World, notifiedBetween chatID w (runFailures env calls w) = false →
      (runFailures env calls w).lastFailNotify chatID = w.lastFailNotify chatID := by
  induction calls with
  | nil => intro w _; rfl
  | cons f rest ih =>
    intro w hno
    obtain ⟨cs1, h1, _⟩ := notifySourceFail_log env w f.1 f.2.1 f.2.2
    obtain ⟨cs2, h2⟩ := runFailures_log env rest (notifySourceFail env w f.1 f.2.1 f.2.2)
    have hsplit := newCalls_trans w (notifySourceFail env w f.1 f.2.1 f.2.2)
      (runFailures env rest (notifySourceFail env w f.1 f.2.1 f.2.2)) _ _ h1 h2
    have hno2 : notifiedBetween chatID w (notifySourceFail env w f.1 f.2.1 f.2.2) = false ∧
        notifiedBetween chatID (notifySourceFail env w f.1 f.2.1 f.2.2)
          (runFailures env rest (notifySourceFail env w f.1 f.2.1 f.2.2)) = false := by
      have hno3 : notifiedBetween chatID w
          (runFailures env rest (notifySourceFail env w f.1 f.2.1 f.2.2)) = false := hno
      simp only [notifiedBetween, hsplit, List.any_append, Bool.or_eq_false_iff] at hno3
      exact hno3
    have hrest := ih (notifySourceFail env w f.1 f.2.1 f.2.2) hno2.2
    have hstep : (notifySourceFail env w f.1 f.2.1 f.2.2).lastFailNotify chatID =
        w.lastFailNotify chatID := by
      obtain ⟨hyes, hnone, _⟩ := notifySourceFail_effect env w f.1 f.2.1 f.2.2 hnot
      by_cases hid : f.1 = chatID
      · have hn : notifiedBetween f.1 w (notifySourceFail env w f.1 f.2.1 f.2.2) = false := by
          have h := hno2.1
          rw [← hid] at h
          exact h
        rw [hnone hn]
      · cases hn : notifiedBetween f.1 w (notifySourceFail env w f.1 f.2.1 f.2.2) with
        | false => rw [hnone hn]
        | true =>
          rw [hyes hn]
          have hid2 : ¬ chatID = f.1 := fun h => hid h.symm
          simp [hid2]
    show (runFailures env rest (notifySourceFail env w f.1 f.2.1 f.2.2)).lastFailNotify chatID
      = w.lastFailNotify chatID
    rw [hrest, hstep]

/-- The function `notifySourceFail` reads the clock once when it suppresses and twice when
it notifies. -/
theorem notifySourceFail_clockReads (env : Env) (w : World) (chatID : Int)
    (settings : db.ChatSettings) (err : String) (hnot : env.hasNotifier = true)
    (h : notifiedBetween chatID w (notifySourceFail env w chatID settings err) = true) :
    (notifySourceFail env w chatID settings err).clockReads = w.clockReads + 2 := by
  have h2 := h
  rw [notifySourceFail_eq env w chatID settings err hnot] at h2 ⊢
  split_ifs at h2 ⊢ with hthr
  · have hB : newCalls w { w with log := w.log ++ [Call.notifySourceFail chatID err]
                                  clockReads := w.clockReads + 1 } =
        [Call.notifySourceFail chatID err] := newCalls_of_log_eq w _ _ rfl
    simp [notifiedBetween, hB, isNotifyAdminsFor] at h2
  · rfl

end scheduler

namespace scheduler

/-- C20: over the clock and the per-destination last-notified map, with a notifier
configured: `notifySourceFail` notifies the operators if and only if the destination has no
recorded notification time or at least 30 minutes have passed since it; when it notifies
it records the current time for that destination only, and when it suppresses it changes
neither the map nor the store. Hence the first failure of a destination always notifies,
and when two notifications for the same destination follow each other (with any failures
in between that do not notify about it), the second is decided at least 30 minutes after
the time recorded by the first, and with a clock that does not go back the two recorded
times are at least 30 minutes apart. -/
theorem notifySourceFail_throttle (env : Env) (w : World) (chatID : Int)
    (settings : db.ChatSettings) (err : String) (hnot : env.hasNotifier = true) :
    (notifiedBetween chatID w (notifySourceFail env w chatID settings err) = true ↔
      (w.lastFailNotify chatID = none ∨
        ∃ l, w.lastFailNotify chatID = some l ∧
          env.now w.clockReads - l ≥ failNotifyWindow)) ∧
    (notifiedBetween chatID w (notifySourceFail env w chatID settings err) = true →
      (notifySourceFail env w chatID settings err).lastFailNotify chatID =
        some (env.now (w.clockReads + 1)) ∧
      ∀ c, c ≠ chatID →
        (notifySourceFail env w chatID settings err).lastFailNotify c =
          w.lastFailNotify c) ∧
    (notifiedBetween chatID w (notifySourceFail env w chatID settings err) = false →
      (notifySourceFail env w chatID settings err).lastFailNotify = w.lastFailNotify) ∧
    (notifySourceFail env w chatID settings err).store = w.store ∧
    (w.lastFailNotify chatID = none →
      notifiedBetween chatID w (notifySourceFail env w chatID settings err) = true) ∧
    (∀ (calls : List (Int × db.ChatSettings × String)) (settings2 : db.ChatSettings)
        (err2 : String),
      notifiedBetween chatID w (notifySourceFail env w chatID settings err) = true →
      notifiedBetween chatID (notifySourceFail env w chatID settings err)
        (runFailures env calls (notifySourceFail env w chatID settings err)) = false →
      notifiedBetween chatID
        (runFailures env calls (notifySourceFail env w chatID settings err))
        (notifySourceFail env
          (runFailures env calls (notifySourceFail env w chatID settings err))
          chatID settings2 err2) = true →
      env.now (runFailures env calls
          (notifySourceFail env w chatID settings err)).clockReads -
        env.now (w.clockReads + 1) ≥ failNotifyWindow ∧
      ((∀ n, env.now n ≤ env.now (n + 1)) →
        env.now ((runFailures env calls
            (notifySourceFail env w chatID settings err)).clockReads + 1) -
          env.now (w.clockReads + 1) ≥ failNotifyWindow)) := by
  obtain ⟨hyes, hnone, _⟩ := notifySourceFail_effect env w chatID settings err hnot
  have hiff := notifiedBetween_iff env w chatID settings err hnot
  refine ⟨hiff, ?_, hnone, notifySourceFail_store env w chatID settings err, ?_, ?_⟩
  · intro h
    rw [hyes h]
    refine ⟨by simp, ?_⟩
    intro c hc
    simp [hc]
  · intro h
    exact hiff.mpr (Or.inl h)
  · intro calls settings2 err2 h1 hmid h2
    have hrec : (runFailures env calls
        (notifySourceFail env w chatID settings err)).lastFailNotify chatID =
        some (env.now (w.clockReads + 1)) := by
      rw [runFailures_preserves env hnot chatID calls _ hmid, hyes h1]
      simp
    have hcheck : env.now (runFailures env calls
        (notifySourceFail env w chatID settings err)).clockReads -
        env.now (w.clockReads + 1) ≥ failNotifyWindow := by
      rcases (notifiedBetween_iff env _ chatID settings2 err2 hnot).mp h2 with hn | ⟨l, hl, hge⟩
      · rw [hrec] at hn; cases hn
      · rw [hrec] at hl
        cases hl
        exact hge
    refine ⟨hcheck, ?_⟩
    intro hmono
    have := hmono (runFailures env calls
      (notifySourceFail env w chatID settings err)).clockReads
    omega

/-- Witness of C20: the environment of the scenarios has a notifier, and chat 1 has no
recorded notification time. -/
theorem notifySourceFail_throttle_witness :
    scenario.successEnv.hasNotifier = true ∧
    scenario.gatedWorld.lastFailNotify 1 = none ∧
    notifiedBetween 1 scenario.gatedWorld
      (notifySourceFail scenario.successEnv scenario.gatedWorld 1
        (scenario.usdTrigger "abs" 100) "timeout") = true ∧
    (notifySourceFail scenario.successEnv scenario.gatedWorld 1
        (scenario.usdTrigger "abs" 100) "timeout").lastFailNotify 1 =
      some (scenario.successEnv.now (scenario.gatedWorld.clockReads + 1)) :=
  have h := notifySourceFail_throttle scenario.successEnv scenario.gatedWorld 1
    (scenario.usdTrigger "abs" 100) "timeout" rfl
  ⟨rfl, rfl, h.2.2.2.2.1 rfl, (h.2.1 (h.2.2.2.2.1 rfl)).1⟩

end scheduler

/-! ## Theorems: the cached fetch -/

namespace sources

/-- A hit: with an entry younger than the TTL, `Get` returns the cached outcome, reads the
clock once and changes nothing else. -/
theorem Manager.Get_hit (env : FetchEnv) (m : Manager) (provider method : String)
    (ce : cacheEntry) (hce : m.cache (cacheKey provider method) = some ce)
    (hfresh : env.now m.clockReads - ce.atTime < ttl) :
    m.Get env provider method =
      ((match ce.err with
        | some e => (emptySnapshot, some e)
        | none => (ce.snap, none)),
       { m with clockReads := m.clockReads + 1 }) := by
  simp only [Manager.Get, Manager.lookupFresh, Manager.readClock, hce, hfresh, if_true]
  cases ce.err <;> rfl

/-- A miss: without an entry, or with an entry as old as the TTL or older, `Get` is the
fetch followed by the store. -/
theorem Manager.Get_miss (env : FetchEnv) (m : Manager) (provider method : String)
    (hmiss : m.cache (cacheKey provider method) = none ∨
      ∃ ce, m.cache (cacheKey provider method) = some ce ∧
        env.now m.clockReads - ce.atTime ≥ ttl) :
    m.Get env provider method =
      Manager.fetchAndStore env
        { m with clockReads :=
            if (m.cache (cacheKey provider method)).isSome then m.clockReads + 1
            else m.clockReads }
        provider method := by
  rcases hmiss with hnone | ⟨ce, hce, hold⟩
  · simp only [Manager.Get, Manager.lookupFresh, hnone, Option.isSome_none, Bool.false_eq_true,
      if_false]
  · have hnot : ¬ env.now m.clockReads - ce.atTime < ttl := by omega
    simp only [Manager.Get, Manager.lookupFresh, Manager.readClock, hce, hnot, if_false,
      Option.isSome_some, if_true]

end sources

namespace sources

/-- The fetch followed by the store: the outcome of the fetch is returned, one fetch is
recorded, and the outcome is stored under the key with the time read after the fetch;
the other keys keep their entries. -/
theorem Manager.fetchAndStore_spec (env : FetchEnv) (m : Manager) (provider method : String) :
    (Manager.fetchAndStore env m provider method).1 =
      env.fetchResult m.fetches.length provider method ∧
    (Manager.fetchAndStore env m provider method).2.fetches =
      m.fetches ++ [(provider, method)] ∧
    (Manager.fetchAndStore env m provider method).2.cache (cacheKey provider method) =
      some { snap := (env.fetchResult m.fetches.length provider method).1
             err := (env.fetchResult m.fetches.length provider method).2
             atTime := env.now m.clockReads } ∧
    (∀ k, k ≠ cacheKey provider method →
      (Manager.fetchAndStore env m provider method).2.cache k = m.cache k) ∧
    (Manager.fetchAndStore env m provider method).2.clockReads = m.clockReads + 1 := by
  refine ⟨rfl, rfl, ?_, ?_, rfl⟩
  · simp [Manager.fetchAndStore, Manager.callFetch, Manager.readClock]
  · intro k hk
    simp [Manager.fetchAndStore, Manager.callFetch, Manager.readClock, hk]

/-- The cache by key, run without interruption: if `Get` is called less than 20 seconds
after the stored time of the entry under the key of the pair, it performs no fetch,
leaves the cache as it is and returns the stored outcome, the cached snapshot on success
or the cached error (with an empty snapshot) on failure; if no entry exists or the entry is
20 seconds old or older, it performs exactly one fetch, stores the outcome (success or
failure) with the current time under the key of the pair only, and returns it; and a
second `Get` of the same pair less than 20 seconds after that stored time performs no
fetch and returns the stored outcome. -/
theorem Manager.Get_cached (env : FetchEnv) (m : Manager) (provider method : String) :
    (∀ ce, m.cache (cacheKey provider method) = some ce →
      env.now m.clockReads - ce.atTime < ttl →
      (m.Get env provider method).2.fetches = m.fetches ∧
      (m.Get env provider method).2.cache = m.cache ∧
      (ce.err = none → (m.Get env provider method).1 = (ce.snap, none)) ∧
      (∀ e, ce.err = some e → (m.Get env provider method).1 = (emptySnapshot, some e))) ∧
    ((m.cache (cacheKey provider method) = none ∨
        ∃ ce, m.cache (cacheKey provider method) = some ce ∧
          env.now m.clockReads - ce.atTime ≥ ttl) →
      (m.Get env provider method).1 = env.fetchResult m.fetches.length provider method ∧
      (m.Get env provider method).2.fetches = m.fetches ++ [(provider, method)] ∧
      (m.Get env provider method).2.cache (cacheKey provider method) =
        some { snap := (env.fetchResult m.fetches.length provider method).1
               err := (env.fetchResult m.fetches.length provider method).2
               atTime := env.now ((m.Get env provider method).2.clockReads - 1) } ∧
      (∀ k, k ≠ cacheKey provider method →
        (m.Get env provider method).2.cache k = m.cache k) ∧
      (env.now (m.Get env provider method).2.clockReads -
          env.now ((m.Get env provider method).2.clockReads - 1) < ttl →
        ((m.Get env provider method).2.Get env provider method).2.fetches =
          (m.Get env provider method).2.fetches ∧
        ((m.Get env provider method).2.Get env provider method).1 =
          match (env.fetchResult m.fetches.length provider method).2 with
          | some e => (emptySnapshot, some e)
          | none => ((env.fetchResult m.fetches.length provider method).1, none))) := by
  constructor
  · intro ce hce hfresh
    rw [Manager.Get_hit env m provider method ce hce hfresh]
    refine ⟨rfl, rfl, ?_, ?_⟩
    · intro h; simp only [h]
    · intro e h; simp only [h]
  · intro hmiss
    rw [Manager.Get_miss env m provider method hmiss]
    obtain ⟨h1, h2, h3, h4, h5⟩ := Manager.fetchAndStore_spec env
      { m with clockReads :=
          if (m.cache (cacheKey provider method)).isSome then m.clockReads + 1
          else m.clockReads } provider method
    have h3b : (Manager.fetchAndStore env
        { m with clockReads :=
            if (m.cache (cacheKey provider method)).isSome then m.clockReads + 1
            else m.clockReads } provider method).2.cache (cacheKey provider method) =
        some { snap := (env.fetchResult m.fetches.length provider method).1
               err := (env.fetchResult m.fetches.length provider method).2
               atTime := env.now ((Manager.fetchAndStore env
                 { m with clockReads :=
                     if (m.cache (cacheKey provider method)).isSome then m.clockReads + 1
                     else m.clockReads } provider method).2.clockReads - 1) } := by
      rw [h3, h5]
      simp
    refine ⟨h1, h2, h3b, h4, ?_⟩
    intro hfresh
    have hhit := Manager.Get_hit env (Manager.fetchAndStore env
      { m with clockReads :=
          if (m.cache (cacheKey provider method)).isSome then m.clockReads + 1
          else m.clockReads } provider method).2 provider method _ h3b hfresh
    rw [hhit]
    exact ⟨rfl, rfl⟩

end sources

namespace sources

/-- An example of the cache: the first `Get` on an empty cache fetches once and stores the outcome;
a second `Get` one second later performs no fetch and returns the stored snapshot. -/
theorem Manager.Get_cached_witness :
    scenario.emptyManager.cache (cacheKey "bonbast" "scrape") = none ∧
    (scenario.emptyManager.Get scenario.fetchEnv "bonbast" "scrape").2.fetches =
      scenario.emptyManager.fetches ++ [("bonbast", "scrape")] ∧
    (((scenario.emptyManager.Get scenario.fetchEnv "bonbast" "scrape").2.Get
        scenario.fetchEnv "bonbast" "scrape").2.fetches =
        (scenario.emptyManager.Get scenario.fetchEnv "bonbast" "scrape").2.fetches ∧
      ((scenario.emptyManager.Get scenario.fetchEnv "bonbast" "scrape").2.Get
        scenario.fetchEnv "bonbast" "scrape").1 =
        match (scenario.fetchEnv.fetchResult scenario.emptyManager.fetches.length
            "bonbast" "scrape").2 with
        | some e => (emptySnapshot, some e)
        | none => ((scenario.fetchEnv.fetchResult scenario.emptyManager.fetches.length
            "bonbast" "scrape").1, none)) ∧
    (((scenario.emptyManager.Get scenario.fetchEnv "bonbast" "scrape").2.Get
        scenario.fetchEnv "bonbast" "scrape").2.cache =
      (scenario.emptyManager.Get scenario.fetchEnv "bonbast" "scrape").2.cache) :=
  have hmiss := (Manager.Get_cached scenario.fetchEnv scenario.emptyManager "bonbast"
    "scrape").2 (Or.inl rfl)
  have hhit := (Manager.Get_cached scenario.fetchEnv
    (scenario.emptyManager.Get scenario.fetchEnv "bonbast" "scrape").2 "bonbast" "scrape").1
    { snap := scenario.usdSnapshot 50000, err := none, atTime := 1700000000000000000 }
    rfl (by decide)
  ⟨rfl, hmiss.2.1, hmiss.2.2.2.2 (by decide), hhit.2.1⟩

/-- Two steps of a `Get` call that nothing interrupts are the function `Get`. -/
theorem Manager.stepGet_twice (env : FetchEnv) (m : Manager) (provider method : String) :
    Manager.stepGet env (Manager.stepGet env m provider method .start).2 provider method
        (Manager.stepGet env m provider method .start).1 =
      (.done (m.Get env provider method).1, (m.Get env provider method).2) := by
  simp only [Manager.stepGet, Manager.Get]
  rcases h : m.lookupFresh env (cacheKey provider method) with ⟨r, m2⟩
  cases r with
  | none => simp [Manager.stepGet]
  | some r => simp [Manager.stepGet]

/-- C19 (failing input): two `Get` calls for the same pair on an empty cache, scheduled so
that both pass the first critical section before either stores. Both calls miss and both
fetch: two underlying fetches are made, one second apart, for the same provider and method.
Run one after the other instead, the two calls make a single fetch. -/
theorem Manager.Get_concurrent_fetches_twice :
    (runSchedule scenario.fetchEnv "bonbast" "scrape" [true, false, true, false]
      { m := scenario.emptyManager, first := .start, second := .start }).m.fetches =
      [("bonbast", "scrape"), ("bonbast", "scrape")] ∧
    (runSchedule scenario.fetchEnv "bonbast" "scrape" [true, false, true, false]
      { m := scenario.emptyManager, first := .start, second := .start }).m.clockReads = 2 ∧
    scenario.fetchEnv.now 1 - scenario.fetchEnv.now 0 < ttl ∧
    (runSchedule scenario.fetchEnv "bonbast" "scrape" [true, true, false, false]
      { m := scenario.emptyManager, first := .start, second := .start }).m.fetches =
      [("bonbast", "scrape")] := by
  exact ⟨rfl, rfl, by decide, rfl⟩

end sources

/-! ## Theorems: the used value and items without a current value -/

namespace render

/-- The value selection in mode "buy": buy first, then sell. -/
theorem pickUsedVal_buy (q : sources.Quote) :
    pickUsedVal "buy" q =
      match q.Buy, q.Sell with
      | some b, _ => (b, true)
      | none, some s => (s, true)
      | none, none => (0, false) := by
  simp [pickUsedVal]

/-- The value selection in every mode other than "buy": sell first, then buy. -/
theorem pickUsedVal_not_buy (priceMode : String) (q : sources.Quote) (h : priceMode ≠ "buy") :
    pickUsedVal priceMode q =
      match q.Sell, q.Buy with
      | some s, _ => (s, true)
      | none, some b => (b, true)
      | none, none => (0, false) := by
  simp only [pickUsedVal, if_neg h]
  split_ifs <;> rfl

/-- The used value and the value flag returned by `formatPrice` are those of the value
selection. -/
theorem formatPrice_snd (FormatNumber : ℚ → String → String → String)
    (priceMode digits : String) (q : sources.Quote) :
    (formatPrice FormatNumber priceMode digits q).2 =
      if (pickUsedVal priceMode q).2 = true then pickUsedVal priceMode q else (0, false) := by
  unfold formatPrice
  cases h : (pickUsedVal priceMode q).2
  · simp
  · simp only [Bool.not_true, Bool.false_eq_true, if_false, if_true]
    have hp : pickUsedVal priceMode q = ((pickUsedVal priceMode q).1, true) := by
      rw [← h]
    split_ifs
    · split <;> exact hp.symm
    · split <;> exact hp.symm
    · exact hp.symm

/-- C26: for every quote and price mode, `formatPrice` selects the used value as follows:
in mode "buy" the buy value if present, otherwise the sell value; in mode "both" and in
every other mode the sell value if present, otherwise the buy value; it reports 'no value'
if and only if both sell and buy are absent, and then returns the empty string and 0. -/
theorem formatPrice_used_value (FormatNumber : ℚ → String → String → String)
    (priceMode digits : String) (q : sources.Quote) :
    ((formatPrice FormatNumber priceMode digits q).2.2 = false ↔
      q.Sell = none ∧ q.Buy = none) ∧
    (q.Sell = none ∧ q.Buy = none →
      formatPrice FormatNumber priceMode digits q = ("", 0, false)) ∧
    (priceMode = "buy" →
      (∀ b, q.Buy = some b →
        (formatPrice FormatNumber priceMode digits q).2 = (b, true)) ∧
      (∀ s, q.Buy = none → q.Sell = some s →
        (formatPrice FormatNumber priceMode digits q).2 = (s, true))) ∧
    (priceMode ≠ "buy" →
      (∀ s, q.Sell = some s →
        (formatPrice FormatNumber priceMode digits q).2 = (s, true)) ∧
      (∀ b, q.Sell = none → q.Buy = some b →
        (formatPrice FormatNumber priceMode digits q).2 = (b, true))) := by
  have hsnd := formatPrice_snd FormatNumber priceMode digits q
  have hpick : pickUsedVal priceMode q =
      if priceMode = "buy" then
        (match q.Buy, q.Sell with
          | some b, _ => (b, true)
          | none, some s => (s, true)
          | none, none => (0, false))
      else
        (match q.Sell, q.Buy with
          | some s, _ => (s, true)
          | none, some b => (b, true)
          | none, none => (0, false)) := by
    by_cases h : priceMode = "buy"
    · rw [if_pos h, h]; exact pickUsedVal_buy q
    · rw [if_neg h]; exact pickUsedVal_not_buy priceMode q h
  refine ⟨?_, ?_, ?_, ?_⟩
  · rw [hsnd, hpick]
    cases hs : q.Sell <;> cases hb : q.Buy <;> by_cases hm : priceMode = "buy" <;> simp [hm]
  · rintro ⟨hs, hb⟩
    have hno : (pickUsedVal priceMode q).2 = false := by
      rw [hpick, hs, hb]; split_ifs <;> rfl
    simp [formatPrice, hno]
  · intro hm
    rw [hsnd, hpick, if_pos hm]
    constructor
    · intro b hb; simp [hb]
    · intro s hb hs; simp [hb, hs]
  · intro hm
    rw [hsnd, hpick, if_neg hm]
    constructor
    · intro s hs; simp [hs]
    · intro b hs hb; simp [hb, hs]

end render

namespace scheduler

/-- The loop returns false when no item of the list has a current used value. -/
theorem loop_no_current (ty : String) (th : ℚ) (current last : GoMap) (l : List String)
    (h : ∀ id ∈ l, current.lookup id = none) :
    anyTriggerChangedLoop ty th current last l = (false, []) := by
  induction l with
  | nil => rfl
  | cons id rest ih =>
    rw [loop_cons_no_current ty th current last id rest (h id (List.mem_cons_self _ _))]
    exact ih (fun x hx => h x (List.mem_cons_of_mem _ hx))

/-- C28: `anyTriggerChanged` ignores trigger items that have no current used value: for
every settings value with a non-empty trigger list, if no trigger item has an entry in the
current used-value map, `anyTriggerChanged` returns false whatever the last values and the
threshold, and a non-forced `postOnce` that renders these used values is gated out: it
returns nil and only updates the fetch health. -/
theorem anyTriggerChanged_no_current (settings : db.ChatSettings) (current : GoMap)
    (hne : settings.TriggerItems ≠ [])
    (hnone : ∀ id ∈ settings.TriggerItems, current.lookup id = none) :
    (∀ last, anyTriggerChanged settings current last = false) ∧
    (∀ (env : Env) (w : World) (chatID : Int) (enabledIDs : List String)
        (snap : sources.Snapshot) (tmpl : db.Template) (lastVals : GoMap),
      env.EnabledItemIDs = .ok enabledIDs → env.srcGet = .ok snap →
      env.GetTemplate = .ok tmpl →
      db.GetLastValues env w chatID enabledIDs = .ok lastVals →
      (render.BuildMessage env settings tmpl enabledIDs snap lastVals).UsedValues = current →
      postOnce env w chatID settings false =
        (none, (db.UpdateFetchHealth env
          (w.logCall (.srcGet settings.SourceProvider settings.SourceMethod)) chatID
          snap.FetchedAt "").2)) := by
  have hfalse : ∀ last, anyTriggerChanged settings current last = false := by
    intro last
    simp only [anyTriggerChanged, anyTriggerChangedTraced]
    rw [loop_no_current _ _ current last _ hnone]
  refine ⟨hfalse, ?_⟩
  intro env w chatID enabledIDs snap tmpl lastVals hids hsnap htmpl hlast hcur
  exact postOnce_gated_eq env w chatID settings enabledIDs snap tmpl lastVals hids hsnap
    htmpl hlast hne (by rw [hcur]; exact hfalse lastVals)

/-- Witness of C28: trigger USD with a stored previous value 50000 and a snapshot without
a quote for USD: the gate answers false and the non-forced `postOnce` returns nil after
recording the fetch health, without any delivery. -/
theorem anyTriggerChanged_no_current_witness :
    (scenario.usdTrigger "abs" 100).TriggerItems ≠ [] ∧
    (∀ id ∈ (scenario.usdTrigger "abs" 100).TriggerItems,
      scenario.emptyMap.lookup id = none) ∧
    anyTriggerChanged (scenario.usdTrigger "abs" 100) scenario.emptyMap
      (scenario.usdMap 50000) = false ∧
    postOnce scenario.noQuoteEnv scenario.gatedWorld 1 (scenario.usdTrigger "abs" 100) false =
      (none, (db.UpdateFetchHealth scenario.noQuoteEnv
        (scenario.gatedWorld.logCall (.srcGet "bonbast" "scrape")) 1
        scenario.noQuoteSnapshot.FetchedAt "").2) :=
  have h := anyTriggerChanged_no_current (scenario.usdTrigger "abs" 100) scenario.emptyMap
    (by decide) (by decide)
  ⟨by decide, by decide, h.1 (scenario.usdMap 50000),
    h.2 scenario.noQuoteEnv scenario.gatedWorld 1 ["USD"] scenario.noQuoteSnapshot
      scenario.defaultTemplate (scenario.usdMap 50000) rfl rfl rfl rfl rfl⟩

end scheduler

/-! ## Theorems: parsing and formatting the time of day -/

namespace utils

/-- The UTF-8 encoding of a decimal digit is the single byte `48 + d`. -/
theorem digitChar_bytes : ∀ d, d < 10 →
    (String.utf8EncodeChar (digitChar d)).map UInt8.toNat = [48 + d] := by
  decide

/-- The bytes of an "HH:MM" string. -/
theorem goBytes_hhmmString (a b c d : Nat) (ha : a < 10) (hb : b < 10) (hc : c < 10)
    (hd : d < 10) :
    goBytes (hhmmString a b c d) = [48 + a, 48 + b, 58, 48 + c, 48 + d] := by
  have hcolon : (String.utf8EncodeChar ':').map UInt8.toNat = [58] := by decide
  simp only [goBytes, hhmmString, List.flatMap_cons, List.flatMap_nil, digitChar_bytes a ha,
    digitChar_bytes b hb, digitChar_bytes c hc, digitChar_bytes d hd, hcolon]
  rfl

/-- Subtracting the byte of '0' from the byte of a digit gives the digit. -/
theorem byteMinusZero_digit (d : Nat) (hd : d < 10) : byteMinusZero (48 + d) = d := by
  unfold byteMinusZero
  omega

/-- The function `ParseHHMM` on a string of two digits, a colon and two digits. -/
theorem ParseHHMM_hhmmString (a b c d : Nat) (ha : a < 10) (hb : b < 10) (hc : c < 10)
    (hd : d < 10) :
    ParseHHMM (hhmmString a b c d) =
      if a * 10 + b > 23 ∨ c * 10 + d > 59 then (0, false)
      else ((((a * 10 + b) * 60 + (c * 10 + d) : Nat) : Int), true) := by
  simp only [ParseHHMM, goBytes_hhmmString a b c d ha hb hc hd, byteMinusZero_digit a ha,
    byteMinusZero_digit b hb, byteMinusZero_digit c hc, byteMinusZero_digit d hd]
  by_cases h : a * 10 + b > 23 ∨ c * 10 + d > 59
  · have h2 : ((a : Int) * 10 + (b : Int) < 0 ∨ (a : Int) * 10 + (b : Int) > 23 ∨
        (c : Int) * 10 + (d : Int) < 0 ∨ (c : Int) * 10 + (d : Int) > 59) := by omega
    simp [h, h2]
  · have h2 : ¬ ((a : Int) * 10 + (b : Int) < 0 ∨ (a : Int) * 10 + (b : Int) > 23 ∨
        (c : Int) * 10 + (d : Int) < 0 ∨ (c : Int) * 10 + (d : Int) > 59) := by omega
    simp only [h, h2, if_false, ne_eq, not_true_eq_false]
    push_cast
    rfl

end utils

namespace utils

/-- The function `FormatHHMM` on a minute of the day. -/
theorem FormatHHMM_minute_of_day (n : Nat) (hn : n < 1440) :
    FormatHHMM (n : Int) =
      hhmmString (n / 60 / 10) (n / 60 % 10) (n % 60 / 10) (n % 60 % 10) := by
  have hneg : ¬ ((n : Int) < 0) := by omega
  have hdiv : Int.tdiv (n : Int) 60 = ((n / 60 : Nat) : Int) := by
    rw [Int.tdiv_eq_ediv (by omega) (by decide)]
    norm_cast
  have hmod : Int.tmod (n : Int) 60 = ((n % 60 : Nat) : Int) := by
    rw [Int.tmod_eq_emod (by omega) (by decide)]
    norm_cast
  have hh : (((n / 60 : Nat) : Int) % 24).toNat = n / 60 := by omega
  simp only [FormatHHMM, hneg, if_false, hdiv, hmod, hh, Int.toNat_ofNat, twoDigits,
    hhmmString]
  rfl

/-- The function `ParseHHMM` accepts with a value from 0 to 1439, or rejects with 0. -/
theorem ParseHHMM_range (s : String) :
    ((ParseHHMM s).2 = true → 0 ≤ (ParseHHMM s).1 ∧ (ParseHHMM s).1 ≤ 1439) ∧
    ((ParseHHMM s).2 = false → (ParseHHMM s).1 = 0) := by
  unfold ParseHHMM
  split
  · next b0 b1 b2 b3 b4 _ =>
    by_cases h1 : b2 ≠ 58
    · simp [h1]
    · by_cases h2 : ((byteMinusZero b0 : Int) * 10 + (byteMinusZero b1 : Int) < 0 ∨
          (byteMinusZero b0 : Int) * 10 + (byteMinusZero b1 : Int) > 23 ∨
          (byteMinusZero b3 : Int) * 10 + (byteMinusZero b4 : Int) < 0 ∨
          (byteMinusZero b3 : Int) * 10 + (byteMinusZero b4 : Int) > 59)
      · simp only [h1, if_false, h2, if_true]
        simp
      · simp only [h1, if_false, h2]
        refine ⟨fun _ => ?_, fun h => by simp at h⟩
        omega
  · simp

/-- C29: `FormatHHMM` and `ParseHHMM` are inverse on valid times: for every m with
`0 <= m < 1440`, `ParseHHMM(FormatHHMM(m)) = (m, true)`, and for every string s that is two
digits, a colon and two digits with hour at most 23 and minute at most 59, `FormatHHMM` of
the minutes returned by `ParseHHMM(s)` equals s. -/
theorem FormatHHMM_ParseHHMM_inverse :
    (∀ m : Int, 0 ≤ m → m < 1440 → ParseHHMM (FormatHHMM m) = (m, true)) ∧
    (∀ a b c d : Nat, a < 10 → b < 10 → c < 10 → d < 10 → a * 10 + b ≤ 23 →
      c * 10 + d ≤ 59 →
      FormatHHMM (ParseHHMM (hhmmString a b c d)).1 = hhmmString a b c d) := by
  constructor
  · intro m h0 h1
    obtain ⟨n, rfl⟩ := Int.eq_ofNat_of_zero_le h0
    have hn : n < 1440 := by omega
    rw [FormatHHMM_minute_of_day n hn,
      ParseHHMM_hhmmString _ _ _ _ (by omega) (by omega) (by omega) (by omega)]
    have hok : ¬ (n / 60 / 10 * 10 + n / 60 % 10 > 23 ∨ n % 60 / 10 * 10 + n % 60 % 10 > 59) := by
      omega
    rw [if_neg hok]
    have hval : (n / 60 / 10 * 10 + n / 60 % 10) * 60 + (n % 60 / 10 * 10 + n % 60 % 10) = n := by
      omega
    rw [hval]
  · intro a b c d ha hb hc hd hh hm
    rw [ParseHHMM_hhmmString a b c d ha hb hc hd]
    have hok : ¬ (a * 10 + b > 23 ∨ c * 10 + d > 59) := by omega
    rw [if_neg hok]
    show FormatHHMM (((a * 10 + b) * 60 + (c * 10 + d) : Nat) : Int) = hhmmString a b c d
    rw [FormatHHMM_minute_of_day _ (by omega)]
    have e1 : ((a * 10 + b) * 60 + (c * 10 + d)) / 60 / 10 = a := by omega
    have e2 : ((a * 10 + b) * 60 + (c * 10 + d)) / 60 % 10 = b := by omega
    have e3 : ((a * 10 + b) * 60 + (c * 10 + d)) % 60 / 10 = c := by omega
    have e4 : ((a * 10 + b) * 60 + (c * 10 + d)) % 60 % 10 = d := by omega
    rw [e1, e2, e3, e4]

/-- The times 20:00 and 23:59 formatted and parsed. -/
theorem FormatHHMM_ParseHHMM_examples :
    FormatHHMM 1200 = "20:00" ∧ ParseHHMM "20:00" = (1200, true) ∧
    FormatHHMM 1439 = "23:59" ∧ ParseHHMM "23:59" = (1439, true) ∧
    FormatHHMM 0 = "00:00" ∧ ParseHHMM "24:00" = (0, false) ∧
    ParseHHMM "9:00" = (0, false) := by
  decide

/-- C27 (failing input): the five-byte strings "0::30" and "0G:0k" are not two digits, a
colon and two digits, yet `ParseHHMM` accepts them, as 10:30 and 23:59: the bytes after the
first digit of the hour and of the minute are not checked to be digits, and `':' - '0'` is
10, `'G' - '0'` is 23 and `'k' - '0'` is 59. -/
theorem ParseHHMM_accepts_non_digits :
    ParseHHMM "0::30" = (630, true) ∧ ParseHHMM "0G:0k" = (1439, true) ∧
    (∀ a b c d : Nat, a < 10 → b < 10 → c < 10 → d < 10 → "0::30" ≠ hhmmString a b c d) := by
  refine ⟨by decide, by decide, ?_⟩
  intro a b c d _ hb _ _ h
  have h3 : (':' : Char) = digitChar b := by
    have h4 := congrArg (fun s => s.data.get? 1) h
    simpa [hhmmString] using h4
  clear h
  revert h3 hb
  revert b
  decide

end utils

/-! ## Theorems: the provider dispatch -/

namespace sources

/-- C21: for a provider and method that are not one of bonbast/api, bonbast/scrape,
navasan/api and navasan/scrape, `Manager.fetch` returns the empty snapshot and the error
"unsupported provider/method: <provider>/<method>", and makes no call at all: it reads no
credential and invokes no fetcher. -/
theorem Manager.fetch_unsupported (d : Fetchers) (provider method : String)
    (h : ¬ ((provider = "bonbast" ∨ provider = "navasan") ∧ (method = "api" ∨ method = "scrape"))) :
    Manager.fetch d provider method =
      ((emptySnapshot, some ("unsupported provider/method: " ++ provider ++ "/" ++ method)), []) := by
  unfold Manager.fetch unsupported
  by_cases hb : provider = "bonbast"
  · have hm1 : method ≠ "api" := fun hm => h ⟨Or.inl hb, Or.inl hm⟩
    have hm2 : method ≠ "scrape" := fun hm => h ⟨Or.inl hb, Or.inr hm⟩
    simp only [hb, hm1, hm2, if_true, if_false]
  · by_cases hn : provider = "navasan"
    · have hm1 : method ≠ "api" := fun hm => h ⟨Or.inr hn, Or.inl hm⟩
      have hm2 : method ≠ "scrape" := fun hm => h ⟨Or.inr hn, Or.inr hm⟩
      have hnb : ¬ ("navasan" : String) = "bonbast" := by decide
      simp only [hn, hnb, hm1, hm2, if_true, if_false]
    · simp only [hb, hn, if_false]

/-- C21, at a concrete input: the provider "tgju" with the method "api", and the provider
"bonbast" with the method "rss". -/
theorem Manager.fetch_unsupported_witness :
    Manager.fetch scenario.adminFetchers "tgju" "api" =
        ((emptySnapshot, some "unsupported provider/method: tgju/api"), []) ∧
      Manager.fetch scenario.adminFetchers "bonbast" "rss" =
        ((emptySnapshot, some "unsupported provider/method: bonbast/rss"), []) :=
  ⟨Manager.fetch_unsupported scenario.adminFetchers "tgju" "api" (by decide),
   Manager.fetch_unsupported scenario.adminFetchers "bonbast" "rss" (by decide)⟩

/-- The four supported pairs do call a fetcher or read a credential. -/
theorem Manager.fetch_supported_calls :
    (Manager.fetch scenario.adminFetchers "bonbast" "api").2 =
        [.GetGlobalSetting "bonbast_api_username", .GetGlobalSetting "bonbast_api_hash",
          .fetchBonbastAPI "user" "h4sh"] ∧
      (Manager.fetch scenario.adminFetchers "bonbast" "scrape").2 = [.fetchBonbastScrape] ∧
      (Manager.fetch scenario.adminFetchers "navasan" "api").2 =
        [.GetGlobalSetting "navasan_api_key"] ∧
      (Manager.fetch scenario.adminFetchers "navasan" "scrape").2 = [.fetchNavasanScrape] := by
  refine ⟨?_, ?_, ?_, ?_⟩ <;> rfl

end sources

/-! ## Theorems: the quote construction -/

namespace sources

/-- The catalog has no two entries with the same ID. -/
theorem items_ids_nodup : (items.All.map (fun it => it.ID)).Nodup := by decide

/-- An item whose ID is not in the rest of the list leaves the entry untouched. -/
theorem quotesLoop_not_mem (body : items.Item → Option Quote) (id : String) :
    ∀ (l : List items.Item) (acc : AList (fun _ : String => Quote)),
      id ∉ l.map (fun it => it.ID) → (quotesLoop body l acc).lookup id = acc.lookup id := by
  intro l
  induction l with
  | nil => intro acc _; rfl
  | cons x rest ih =>
    intro acc hid
    simp only [List.map_cons, List.mem_cons, not_or] at hid
    unfold quotesLoop
    cases hb : body x with
    | none => exact ih acc hid.2
    | some q =>
      simp only
      rw [ih _ hid.2, AList.lookup_insert_ne hid.1]

/-- The entry of an item of the list is what its iteration stored, or the entry the map had
before when the iteration reached a `continue`. -/
theorem quotesLoop_mem (body : items.Item → Option Quote) :
    ∀ (l : List items.Item) (acc : AList (fun _ : String => Quote)) (it : items.Item),
      (l.map (fun it => it.ID)).Nodup → it ∈ l →
      (quotesLoop body l acc).lookup it.ID =
        (match body it with
         | some q => some q
         | none => acc.lookup it.ID) := by
  intro l
  induction l with
  | nil => intro acc it _ h; cases h
  | cons x rest ih =>
    intro acc it hnd hmem
    simp only [List.map_cons, List.nodup_cons] at hnd
    rcases List.mem_cons.mp hmem with rfl | hrest
    · unfold quotesLoop
      cases hb : body it with
      | none => simp only; exact quotesLoop_not_mem body it.ID rest acc hnd.1
      | some q =>
        simp only
        rw [quotesLoop_not_mem body it.ID rest _ hnd.1, AList.lookup_insert]
    · have hne : it.ID ≠ x.ID := by
        intro he
        apply hnd.1
        rw [← he]
        exact List.mem_map_of_mem _ hrest
      unfold quotesLoop
      cases hb : body x with
      | none => simp only; exact ih acc it hnd.2 hrest
      | some q =>
        simp only
        rw [ih _ it hnd.2 hrest, AList.lookup_insert_ne hne]

/-- Every entry of the result was in the map before or was stored by an iteration. -/
theorem quotesLoop_lookup (body : items.Item → Option Quote) (id : String) (q : Quote) :
    ∀ (l : List items.Item) (acc : AList (fun _ : String => Quote)),
      (quotesLoop body l acc).lookup id = some q →
      acc.lookup id = some q ∨ ∃ it ∈ l, it.ID = id ∧ body it = some q := by
  intro l
  induction l with
  | nil => intro acc h; exact Or.inl h
  | cons x rest ih =>
    intro acc h
    unfold quotesLoop at h
    cases hb : body x with
    | none =>
      rw [hb] at h
      rcases ih acc h with h1 | ⟨it, hit, hid, hq⟩
      · exact Or.inl h1
      · exact Or.inr ⟨it, List.mem_cons_of_mem _ hit, hid, hq⟩
    | some q2 =>
      rw [hb] at h
      rcases ih _ h with h1 | ⟨it, hit, hid, hq⟩
      · by_cases hx : id = x.ID
        · subst hx
          rw [AList.lookup_insert] at h1
          refine Or.inr ⟨x, List.mem_cons_self _ _, rfl, ?_⟩
          rw [hb, h1]
        · rw [AList.lookup_insert_ne hx] at h1
          exact Or.inl h1
      · exact Or.inr ⟨it, List.mem_cons_of_mem _ hit, hid, hq⟩

/-- The Bonbast entry of a catalog item is the result of its iteration. -/
theorem bonbastQuotes_lookup (PF : String → Option ℚ) (raw : RawMap) (it : items.Item)
    (hit : it ∈ items.All) :
    (bonbastQuotes PF raw).lookup it.ID = bonbastQuoteFor PF raw it := by
  unfold bonbastQuotes
  rw [quotesLoop_mem _ items.All ∅ it items_ids_nodup hit]
  cases bonbastQuoteFor PF raw it <;> simp

/-- The Navasan entry of a catalog item is the result of its iteration. -/
theorem buildNavasanQuotes_lookup (PF : String → Option ℚ) (raw : NavasanMap) (it : items.Item)
    (hit : it ∈ items.All) :
    (buildNavasanQuotes PF raw).lookup it.ID = navasanQuoteFor PF raw it := by
  unfold buildNavasanQuotes
  rw [quotesLoop_mem _ items.All ∅ it items_ids_nodup hit]
  cases navasanQuoteFor PF raw it <;> simp

end sources

namespace sources

/-- What `getFloat` accepts: a key that is present with a `json.Number` whose literal
`strconv.ParseFloat` accepts, a `float64`, or a string that is not empty and that
`strconv.ParseFloat` accepts once its commas are removed; the value is the parsed one. -/
theorem getFloat_true_iff (PF : String → Option ℚ) (m : RawMap) (key : String) (f : ℚ) :
    getFloat PF m key = (f, true) ↔
      ∃ v, m.lookup key = some v ∧
        ((∃ lit, v = .number lit ∧ PF lit = some f) ∨ v = .float f ∨
          (∃ t, v = .str t ∧ removeCommas t ≠ "" ∧ PF (removeCommas t) = some f)) := by
  unfold getFloat
  cases hl : m.lookup key with
  | none => simp
  | some v =>
    cases v with
    | null => simp
    | number lit => cases hp : PF lit <;> simp [hp]
    | float g => simp
    | int i => simp
    | str t =>
      by_cases hs : removeCommas t = ""
      · simp [hs]
      · cases hp : PF (removeCommas t) <;> simp [hs, hp]
    | other => simp

/-- A rejection by `getFloat` returns the value 0. -/
theorem getFloat_false (PF : String → Option ℚ) (m : RawMap) (key : String)
    (h : (getFloat PF m key).2 = false) : getFloat PF m key = (0, false) := by
  unfold getFloat at h ⊢
  cases hl : m.lookup key with
  | none => rfl
  | some v =>
    rw [hl] at h
    cases v with
    | null => rfl
    | number lit => cases hp : PF lit <;> simp_all
    | float g => simp at h
    | int i => rfl
    | str t =>
      by_cases hs : removeCommas t = ""
      · simp [hs]
      · cases hp : PF (removeCommas t) <;> simp_all
    | other => rfl

/-- An absent key is rejected by `getFloat`. -/
theorem getFloat_absent (PF : String → Option ℚ) (m : RawMap) (key : String)
    (h : m.lookup key = none) : getFloat PF m key = (0, false) := by
  unfold getFloat
  rw [h]

/-- One iteration of the Bonbast loop stores a quote exactly when the item declares a sell
key that `getFloat` accepts; the quote carries the accepted value as its sell price and
the Bonbast unit of the item. -/
theorem bonbastQuoteFor_isSome (PF : String → Option ℚ) (raw : RawMap) (it : items.Item) :
    ((bonbastQuoteFor PF raw it).isSome = true ↔
        (it.BonbastSellKey ≠ "" ∧ (getFloat PF raw it.BonbastSellKey).2 = true)) ∧
      (∀ q, bonbastQuoteFor PF raw it = some q →
        q.Sell = some (getFloat PF raw it.BonbastSellKey).1 ∧ q.Unit = it.BonbastUnit) := by
  unfold bonbastQuoteFor
  by_cases hk : it.BonbastSellKey = ""
  · simp [hk]
  · rcases hg : getFloat PF raw it.BonbastSellKey with ⟨sv, ok⟩
    cases ok with
    | false => simp [hk]
    | true =>
      simp only [hk, if_false, Option.isSome_some, ne_eq, not_false_eq_true, and_self, true_and]
      intro q hq
      cases hq
      exact ⟨rfl, rfl⟩

/-- The Bonbast fetchers succeed whenever the response is received and decoded, whatever
keys the decoded object has. -/
theorem fetchBonbast_decoded (net : Net) (body : String) (raw : RawMap)
    (hd : net.decodeJSONMap body = .ok raw) :
    bonbastScrapeDecode net body =
        ({ Provider := "bonbast", Method := "scrape", FetchedAt := net.now 0,
           Quotes := bonbastQuotes net.ParseFloat raw }, none) ∧
      (∀ username hash, username ≠ "" → hash ≠ "" →
        net.postForm 0 ("https://bonbast.com/api/" ++ net.PathEscape username) "hash" hash
          = .ok body →
        fetchBonbastAPI net username hash =
          ({ Provider := "bonbast", Method := "api", FetchedAt := net.now 0,
             Quotes := bonbastQuotes net.ParseFloat raw }, none)) ∧
      (∀ param, net.getBonbastParam 0 = .ok param →
        net.postForm 0 "https://bonbast.com/json" "param" param = .ok body →
        fetchBonbastScrape net = bonbastScrapeDecode net body) := by
  refine ⟨?_, ?_, ?_⟩
  · unfold bonbastScrapeDecode
    rw [hd]
  · intro username hash hu hh hp
    unfold fetchBonbastAPI
    simp only [hu, hh, or_self, if_false, hp, hd]
  · intro param hg hp
    unfold fetchBonbastScrape
    simp only [hg, hp]

end sources

namespace sources

/-- C23: the Bonbast quote construction yields a quote for a catalog item exactly when the
item declares a Bonbast sell key and `getFloat` accepts the value under that key, and the
quote carries that value; IDs outside the catalog get no quote. `getFloat` accepts a
`json.Number` or a string whose text, once commas are removed, is not empty and is numeric
for `strconv.ParseFloat` (so "1,234,567" is read as "1234567"), and a `float64`; an absent
key is rejected, and the fetch still succeeds once the response is decoded. -/
theorem bonbastQuotes_iff (PF : String → Option ℚ) (raw : RawMap) (it : items.Item)
    (hit : it ∈ items.All) :
    (((bonbastQuotes PF raw).lookup it.ID).isSome = true ↔
        (it.BonbastSellKey ≠ "" ∧ (getFloat PF raw it.BonbastSellKey).2 = true)) ∧
      (∀ q, (bonbastQuotes PF raw).lookup it.ID = some q →
        q.Sell = some (getFloat PF raw it.BonbastSellKey).1 ∧ q.Unit = it.BonbastUnit) ∧
      (∀ id, id ∉ items.All.map (fun i => i.ID) → (bonbastQuotes PF raw).lookup id = none) ∧
      (∀ key f, getFloat PF raw key = (f, true) ↔
        ∃ v, raw.lookup key = some v ∧
          ((∃ lit, v = .number lit ∧ PF lit = some f) ∨ v = .float f ∨
            (∃ t, v = .str t ∧ removeCommas t ≠ "" ∧ PF (removeCommas t) = some f))) ∧
      (∀ key, raw.lookup key = none → getFloat PF raw key = (0, false)) ∧
      (∀ key f, PF "1234567" = some f →
        getFloat PF (AList.singleton key (JsonValue.str "1,234,567")) key = (f, true)) ∧
      (∀ (net : Net) body, net.ParseFloat = PF → net.decodeJSONMap body = .ok raw →
        (bonbastScrapeDecode net body).2 = none ∧
        (bonbastScrapeDecode net body).1.Quotes = bonbastQuotes PF raw ∧
        (∀ username hash, username ≠ "" → hash ≠ "" →
          net.postForm 0 ("https://bonbast.com/api/" ++ net.PathEscape username) "hash" hash
            = .ok body →
          (fetchBonbastAPI net username hash).2 = none ∧
          (fetchBonbastAPI net username hash).1.Quotes = bonbastQuotes PF raw)) := by
  refine ⟨?_, ?_, ?_, ?_, ?_, ?_, ?_⟩
  · rw [bonbastQuotes_lookup PF raw it hit]
    exact (bonbastQuoteFor_isSome PF raw it).1
  · intro q hq
    rw [bonbastQuotes_lookup PF raw it hit] at hq
    exact (bonbastQuoteFor_isSome PF raw it).2 q hq
  · intro id hid
    unfold bonbastQuotes
    rw [quotesLoop_not_mem _ id items.All ∅ hid]
    rfl
  · intro key f
    exact getFloat_true_iff PF raw key f
  · intro key h
    exact getFloat_absent PF raw key h
  · intro key f hf
    rw [getFloat_true_iff]
    refine ⟨.str "1,234,567", by simp [AList.lookup, AList.singleton], Or.inr (Or.inr ⟨"1,234,567", rfl, ?_, ?_⟩)⟩
    · decide
    · have h : removeCommas "1,234,567" = "1234567" := by decide
      rw [h, hf]
  · intro net body hpf hd
    have h := fetchBonbast_decoded net body raw hd
    rw [hpf] at h
    refine ⟨?_, ?_, ?_⟩
    · rw [h.1]
    · rw [h.1]
    · intro username hash hu hh hp
      rw [h.2.1 username hash hu hh hp]
      exact ⟨rfl, rfl⟩

/-- C23, at a concrete input: a response whose only key is "usd1" with the string
"1,234,567" gives the dollar the sell price 1234567 and no buy price. -/
theorem bonbastQuotes_iff_witness :
    scenario.usdItem ∈ items.All ∧
      ((bonbastQuotes scenario.parseFloat scenario.bonbastRaw).lookup "USD").isSome = true ∧
      (∀ q, (bonbastQuotes scenario.parseFloat scenario.bonbastRaw).lookup "USD" = some q →
        q.Sell = some 1234567 ∧ q.Unit = "toman") ∧
      (fetchBonbastAPI scenario.bonbastNet "user" "h4sh").2 = none :=
  have hit : scenario.usdItem ∈ items.All := List.mem_cons_self _ _
  have h := bonbastQuotes_iff scenario.parseFloat scenario.bonbastRaw scenario.usdItem hit
  have hg : getFloat scenario.parseFloat scenario.bonbastRaw "usd1" = (1234567, true) :=
    h.2.2.2.2.2.1 "usd1" 1234567 rfl
  ⟨hit,
   h.1.mpr ⟨by decide, by rw [show scenario.usdItem.BonbastSellKey = "usd1" from rfl, hg]⟩,
   fun q hq => by
     have h2 := h.2.1 q hq
     rw [show scenario.usdItem.BonbastSellKey = "usd1" from rfl, hg] at h2
     exact h2,
   ((h.2.2.2.2.2.2 scenario.bonbastNet "body" rfl rfl).2.2 "user" "h4sh" (by decide) (by decide)
      rfl).1⟩

end sources

namespace sources

/-- The fallback of `buildNavasanQuotes`: a quote it stores has the declared Navasan unit
and the accepted `value` fields, and one of the two prices is present. -/
theorem navasanValueQuote_some (PF : String → Option ℚ) (it : items.Item)
    (sellItem buyItem : navasanItem × Bool) (q : Quote)
    (h : navasanValueQuote PF it sellItem buyItem = some q) :
    q = { Sell := valueOf PF sellItem, Buy := valueOf PF buyItem, Unit := it.NavasanUnit } ∧
      (q.Sell.isSome = true ∨ q.Buy.isSome = true) := by
  unfold navasanValueQuote at h
  simp only at h
  split_ifs at h with hn
  cases h
  refine ⟨rfl, ?_⟩
  simp only
  cases hs : valueOf PF sellItem with
  | some v => exact Or.inl rfl
  | none =>
    cases hb : valueOf PF buyItem with
    | some v => exact Or.inr rfl
    | none => exact absurd ⟨hs, hb⟩ hn

/-- Every quote stored by an iteration of `buildNavasanQuotes` has a price. -/
theorem navasanQuoteFor_has_price (PF : String → Option ℚ) (raw : NavasanMap) (it : items.Item)
    (q : Quote) (h : navasanQuoteFor PF raw it = some q) :
    q.Sell.isSome = true ∨ q.Buy.isSome = true := by
  unfold navasanQuoteFor at h
  simp only at h
  split_ifs at h with hk hc
  · rcases hd : toFloat PF (findFirst raw (sellKeys it)).1.DollarRate with ⟨dv, ok⟩
    rw [hd] at h
    cases ok with
    | false => exact (navasanValueQuote_some PF it _ _ q h).2
    | true =>
      simp only at h
      split_ifs at h with hpos
      · cases h
        exact Or.inl rfl
      · exact (navasanValueQuote_some PF it _ _ q h).2
  · exact (navasanValueQuote_some PF it _ _ q h).2

/-- Every quote stored by an iteration of the Bonbast loop has a sell price. -/
theorem bonbastQuoteFor_has_sell (PF : String → Option ℚ) (raw : RawMap) (it : items.Item)
    (q : Quote) (h : bonbastQuoteFor PF raw it = some q) : q.Sell.isSome = true := by
  rw [((bonbastQuoteFor_isSome PF raw it).2 q h).1]
  rfl

/-- C24: in `buildNavasanQuotes`, for an item with a Navasan key that is flagged as crypto
and whose sell record is found: when `toFloat` accepts the record's `dollar_rate` with a
value greater than 0, the quote has that value as sell price, no buy price and the unit
"usd"; otherwise the iteration falls back to the `value` fields, and a quote it stores has
the accepted `value` of the sell record as its sell price and the item's declared Navasan
unit. For a catalog item this is the entry of the resulting map. -/
theorem navasanQuoteFor_crypto (PF : String → Option ℚ) (raw : NavasanMap) (it : items.Item)
    (sellItem : navasanItem) (hkey : it.NavasanKey ≠ "") (hcrypto : it.NavasanIsCrypto = true)
    (hfound : findFirst raw (sellKeys it) = (sellItem, true)) :
    (∀ dv, toFloat PF sellItem.DollarRate = (dv, true) → dv > 0 →
        navasanQuoteFor PF raw it = some { Sell := some dv, Buy := none, Unit := "usd" }) ∧
      ((¬ ∃ dv, toFloat PF sellItem.DollarRate = (dv, true) ∧ dv > 0) →
        navasanQuoteFor PF raw it =
            navasanValueQuote PF it (sellItem, true) (findFirst raw (buyKeys it)) ∧
          (∀ v, toFloat PF sellItem.Value = (v, true) →
            navasanQuoteFor PF raw it =
              some { Sell := some v, Buy := valueOf PF (findFirst raw (buyKeys it)),
                     Unit := it.NavasanUnit }) ∧
          (∀ q, navasanQuoteFor PF raw it = some q →
            q.Unit = it.NavasanUnit ∧ q.Sell = valueOf PF (sellItem, true))) ∧
      (it ∈ items.All → (buildNavasanQuotes PF raw).lookup it.ID = navasanQuoteFor PF raw it) := by
  refine ⟨?_, ?_, fun hit => buildNavasanQuotes_lookup PF raw it hit⟩
  · intro dv hd hpos
    unfold navasanQuoteFor
    simp only [hkey, if_false, hfound, hcrypto, and_self, if_true, hd, hpos]
  · intro hno
    have hq : navasanQuoteFor PF raw it =
        navasanValueQuote PF it (sellItem, true) (findFirst raw (buyKeys it)) := by
      unfold navasanQuoteFor
      simp only [hkey, if_false, hfound, hcrypto, and_self, if_true]
      rcases hd : toFloat PF sellItem.DollarRate with ⟨dv, ok⟩
      cases ok with
      | false => rfl
      | true =>
        simp only
        have hnp : ¬ dv > 0 := fun hp => hno ⟨dv, hd, hp⟩
        simp only [hnp, if_false]
    refine ⟨hq, ?_, ?_⟩
    · intro v hv
      rw [hq]
      unfold navasanValueQuote
      have hs : valueOf PF (sellItem, true) = some v := by
        unfold valueOf
        simp only [if_true, hv]
      simp only [hs]
      simp
    · intro q hqs
      rw [hq] at hqs
      have h := (navasanValueQuote_some PF it _ _ q hqs).1
      rw [h]
      exact ⟨rfl, rfl⟩

/-- C24, at a concrete input: the "btc" record with the value " 2,500,000,000 " gives the
sell price 65000 in "usd" when its dollar rate is 65000, and the sell price 2500000000 with
the declared unit when its dollar rate is 0. -/
theorem navasanQuoteFor_crypto_witness :
    navasanQuoteFor scenario.parseFloat (scenario.btcMap (.float 65000)) scenario.btcItem =
        some { Sell := some 65000, Buy := none, Unit := "usd" } ∧
      navasanQuoteFor scenario.parseFloat (scenario.btcMap (.float 0)) scenario.btcItem =
        some { Sell := some 2500000000, Buy := none, Unit := "usd" } ∧
      (buildNavasanQuotes scenario.parseFloat (scenario.btcMap (.float 65000))).lookup "BTC" =
        some { Sell := some 65000, Buy := none, Unit := "usd" } := by
  have hit : scenario.btcItem ∈ items.All := by simp [items.All, scenario.btcItem]
  have h1 := navasanQuoteFor_crypto scenario.parseFloat (scenario.btcMap (.float 65000))
    scenario.btcItem (scenario.btcRecord (.float 65000)) (by decide) rfl rfl
  have h2 := navasanQuoteFor_crypto scenario.parseFloat (scenario.btcMap (.float 0))
    scenario.btcItem (scenario.btcRecord (.float 0)) (by decide) rfl rfl
  have e1 := h1.1 65000 rfl (by norm_num)
  have hno : ¬ ∃ dv : ℚ, toFloat scenario.parseFloat (scenario.btcRecord (.float 0)).DollarRate
      = (dv, true) ∧ dv > 0 := by
    rintro ⟨dv, hd, hp⟩
    have hd0 : toFloat scenario.parseFloat (scenario.btcRecord (.float 0)).DollarRate
        = (0, true) := rfl
    rw [hd0] at hd
    have : (0 : ℚ) = dv := congrArg Prod.fst hd
    rw [← this] at hp
    exact lt_irrefl _ hp
  have e2 := (h2.2.1 hno).2.1 2500000000 (by decide)
  refine ⟨e1, ?_, ?_⟩
  · rw [e2]
    rfl
  · exact (h1.2.2 hit).trans e1

end sources

namespace sources

/-- C25: every quote in the map built by `buildNavasanQuotes`, and every quote in the map
built by the Bonbast quote construction, has a sell price or a buy price. -/
theorem quotes_have_price (PF : String → Option ℚ) (rawN : NavasanMap) (rawB : RawMap)
    (id : String) (q : Quote)
    (h : (buildNavasanQuotes PF rawN).lookup id = some q ∨
      (bonbastQuotes PF rawB).lookup id = some q) :
    q.Sell.isSome = true ∨ q.Buy.isSome = true := by
  rcases h with h | h
  · unfold buildNavasanQuotes at h
    rcases quotesLoop_lookup _ id q items.All ∅ h with h0 | ⟨it, _, _, hq⟩
    · cases h0
    · exact navasanQuoteFor_has_price PF rawN it q hq
  · unfold bonbastQuotes at h
    rcases quotesLoop_lookup _ id q items.All ∅ h with h0 | ⟨it, _, _, hq⟩
    · cases h0
    · exact Or.inl (bonbastQuoteFor_has_sell PF rawB it q hq)

/-- C25, at a concrete input: the quote of "BTC" built from a Navasan record with the
dollar rate 65000. -/
theorem quotes_have_price_witness :
    (buildNavasanQuotes scenario.parseFloat (scenario.btcMap (.float 65000))).lookup "BTC" =
        some { Sell := some 65000, Buy := none, Unit := "usd" } ∧
      ((some 65000 : Option ℚ).isSome = true ∨ (none : Option ℚ).isSome = true) :=
  have h : (buildNavasanQuotes scenario.parseFloat (scenario.btcMap (.float 65000))).lookup "BTC"
      = some { Sell := some 65000, Buy := none, Unit := "usd" } := by
    rw [show "BTC" = scenario.btcItem.ID from rfl,
      buildNavasanQuotes_lookup _ _ _ (by simp [items.All, scenario.btcItem])]
    rfl
  ⟨h, quotes_have_price scenario.parseFloat (scenario.btcMap (.float 65000)) scenario.bonbastRaw
    "BTC" { Sell := some 65000, Buy := none, Unit := "usd" } (Or.inl h)⟩

end sources

/-! ## Theorems: the Navasan scrape -/

namespace sources

/-- A map has no entries exactly when no key is found in it. -/
theorem entries_nil_iff (m : NavasanMap) : m.entries = [] ↔ ∀ k, m.lookup k = none := by
  constructor
  · intro h k
    rw [AList.lookup_eq_none, AList.mem_keys, AList.keys, h]
    simp
  · intro h
    cases he : m.entries with
    | nil => rfl
    | cons e rest =>
      exfalso
      have hk := h e.1
      rw [AList.lookup_eq_none, AList.mem_keys, AList.keys, he] at hk
      simp at hk

/-- Inserting a list of entries with distinct keys: the lookup finds the inserted entry,
and the old one for the other keys. -/
theorem foldl_insert_lookup (k : String) :
    ∀ (es : List (Sigma (fun _ : String => navasanItem))) (acc : NavasanMap), es.NodupKeys →
      (es.foldl (fun acc e => acc.insert e.1 e.2) acc).lookup k =
        (match es.dlookup k with
         | some v => some v
         | none => acc.lookup k) := by
  intro es
  induction es with
  | nil => intro acc _; rfl
  | cons e rest ih =>
    intro acc hnd
    rw [List.nodupKeys_cons] at hnd
    rw [List.foldl_cons, ih _ hnd.2]
    by_cases hk : k = e.1
    · subst hk
      have hnone : rest.dlookup e.1 = none := by
        rw [List.dlookup_eq_none]
        exact hnd.1
      rw [hnone, List.dlookup_cons_eq]
      simp only
      exact AList.lookup_insert _
    · rw [List.dlookup_cons_ne _ _ hk, AList.lookup_insert_ne hk]

/-- The merge loop `merged[k] = v`: the records of `part` override those of `merged`. -/
theorem mergeInto_lookup (part merged : NavasanMap) (k : String) :
    (mergeInto part merged).lookup k =
      (match part.lookup k with
       | some v => some v
       | none => merged.lookup k) :=
  foldl_insert_lookup k part.entries merged part.nodupKeys

/-- One iteration of the loop over the endpoints, by what the endpoint gave. -/
theorem mergeEndpoints_cons (net : Net) (ep : String) (rest : List String)
    (st : NavasanMap × Nat) :
    mergeEndpoints net (ep :: rest) st =
      (match endpointPart net ep with
       | none => mergeEndpoints net rest st
       | some part => mergeEndpoints net rest (mergeInto part st.1, st.2 + 1)) := by
  rw [mergeEndpoints]
  unfold endpointPart
  cases hg : net.httpGet ep with
  | error e => rfl
  | ok body =>
    cases hd : net.decodeNavasanMap body with
    | error e => simp only [hd]
    | ok part => simp only [hd]

/-- One step of the merged record. -/
theorem lastRecord_cons (net : Net) (k : String) (ep : String) (rest : List String)
    (init : Option navasanItem) :
    lastRecord net k (ep :: rest) init =
      lastRecord net k rest
        (match (endpointPart net ep).bind (fun part => part.lookup k) with
         | some v => some v
         | none => init) := rfl

/-- The loop over the endpoints merges the decoded maps in order. -/
theorem mergeEndpoints_lookup (net : Net) (k : String) :
    ∀ (eps : List String) (st : NavasanMap × Nat),
      (mergeEndpoints net eps st).1.lookup k = lastRecord net k eps (st.1.lookup k) := by
  intro eps
  induction eps with
  | nil => intro st; rfl
  | cons ep rest ih =>
    intro st
    rw [mergeEndpoints_cons, lastRecord_cons]
    cases hp : endpointPart net ep with
    | none => exact ih st
    | some part =>
      simp only [Option.bind]
      rw [ih, mergeInto_lookup]

/-- The merged record is absent exactly when it was absent before and no decoded map has
the key. -/
theorem lastRecord_eq_none (net : Net) (k : String) :
    ∀ (eps : List String) (init : Option navasanItem),
      lastRecord net k eps init = none ↔
        init = none ∧ ∀ ep ∈ eps, ∀ part, endpointPart net ep = some part →
          part.lookup k = none := by
  intro eps
  induction eps with
  | nil => intro init; simp [lastRecord]
  | cons ep rest ih =>
    intro init
    rw [lastRecord_cons, ih]
    cases hp : endpointPart net ep with
    | none => simp [hp]
    | some part =>
      cases hl : part.lookup k with
      | none =>
        simp only [Option.bind, hl, List.mem_cons, forall_eq_or_imp, hp, Option.some.injEq,
          forall_eq', true_and]
      | some v =>
        simp only [Option.bind, hl, List.mem_cons, forall_eq_or_imp, hp, Option.some.injEq,
          forall_eq', false_and, and_false]
        simp

/-- The merged map of `fetchNavasanScrape` is empty exactly when every endpoint that was
fetched and decoded gave a map without keys. -/
theorem merged_empty_iff (net : Net) (eps : List String) :
    (mergeEndpoints net eps (∅, 0)).1.entries.length = 0 ↔
      ∀ ep ∈ eps, ∀ part, endpointPart net ep = some part → part.entries = [] := by
  rw [List.length_eq_zero, entries_nil_iff]
  constructor
  · intro h ep hep part hp
    rw [entries_nil_iff]
    intro k
    have hk := h k
    rw [mergeEndpoints_lookup, lastRecord_eq_none] at hk
    exact hk.2 ep hep part hp
  · intro h k
    rw [mergeEndpoints_lookup, lastRecord_eq_none]
    refine ⟨rfl, ?_⟩
    intro ep hep part hp
    have := h ep hep part hp
    rw [entries_nil_iff] at this
    exact this k

end sources

namespace sources

/-- C22, counterexample: when each of the three endpoints answers "\x7b\x7d", all three are
fetched and decoded (the counter `success` reaches 3), and `fetchNavasanScrape` still fails
with "navasan scrape failed (no data from endpoints)". -/
theorem fetchNavasanScrape_empty_object_counterexample :
    (∀ ep ∈ navasanEndpoints scenario.emptyObjectNet,
        endpointPart scenario.emptyObjectNet ep = some ∅) ∧
      (mergeEndpoints scenario.emptyObjectNet (navasanEndpoints scenario.emptyObjectNet)
        (∅, 0)).2 = 3 ∧
      fetchNavasanScrape scenario.emptyObjectNet =
        (emptySnapshot, some "navasan scrape failed (no data from endpoints)") := by
  refine ⟨fun ep _ => rfl, rfl, rfl⟩

/-- C22, amended: `fetchNavasanScrape` fails, with the empty snapshot and the error
"navasan scrape failed (no data from endpoints)", exactly when every endpoint either fails
(request or decoding) or decodes to a map without keys; it succeeds as soon as one endpoint
is fetched and decoded to a map with a key, and the quotes of its snapshot are then built
from the merge of the decoded maps, in which a later endpoint overrides an earlier one. -/
theorem fetchNavasanScrape_iff (net : Net) :
    ((fetchNavasanScrape net).2 ≠ none ↔
        ∀ ep ∈ navasanEndpoints net, ∀ part, endpointPart net ep = some part →
          part.entries = []) ∧
      ((∀ ep ∈ navasanEndpoints net, ∀ part, endpointPart net ep = some part →
          part.entries = []) →
        fetchNavasanScrape net =
          (emptySnapshot, some "navasan scrape failed (no data from endpoints)")) ∧
      ((∃ ep ∈ navasanEndpoints net, ∃ part, endpointPart net ep = some part ∧
          part.entries ≠ []) →
        fetchNavasanScrape net =
          ({ Provider := "navasan", Method := "scrape", FetchedAt := net.now 1,
             Quotes := buildNavasanQuotes net.ParseFloat
               (mergeEndpoints net (navasanEndpoints net) (∅, 0)).1 }, none)) ∧
      (∀ k, (mergeEndpoints net (navasanEndpoints net) (∅, 0)).1.lookup k =
        lastRecord net k (navasanEndpoints net) none) := by
  have hiff := merged_empty_iff net (navasanEndpoints net)
  refine ⟨?_, ?_, ?_, ?_⟩
  · rw [← hiff]
    unfold fetchNavasanScrape
    simp only
    split_ifs with h
    · simp [h]
    · simp [h]
  · intro h
    unfold fetchNavasanScrape
    simp only [hiff.mpr h, if_true]
  · rintro ⟨ep, hep, part, hp, hne⟩
    have hlen : ¬ (mergeEndpoints net (navasanEndpoints net) (∅, 0)).1.entries.length = 0 :=
      fun h => hne (hiff.mp h ep hep part hp)
    unfold fetchNavasanScrape
    simp only [hlen, if_false]
  · intro k
    exact mergeEndpoints_lookup net k (navasanEndpoints net) (∅, 0)

/-- C22, amended, at a concrete input: with endpoints that answer the "btc" record the
fetch succeeds and its snapshot has the quote of "BTC". -/
theorem fetchNavasanScrape_iff_witness :
    (fetchNavasanScrape scenario.btcNet).2 = none ∧
      (fetchNavasanScrape scenario.btcNet).1.Quotes.lookup "BTC" =
        some { Sell := some 65000, Buy := none, Unit := "usd" } := by
  have h := (fetchNavasanScrape_iff scenario.btcNet).2.2.1
    ⟨"https://www.navasan.net/last_currencies.php?_=170000000", by decide,
      scenario.btcMap (.float 65000), rfl, by decide⟩
  rw [h]
  exact ⟨rfl, rfl⟩

end sources

/-! ## Theorems: grouping digits -/

namespace utils

/-- On a list whose length is a multiple of three the loop does not panic: it writes the
list in groups of three, each after a comma. -/
theorem commaGroups_mul3 : ∀ (k : Nat) (l : List Char), l.length = 3 * k →
    ∃ groups : List (List Char),
      commaGroups l = some ((groups.map (fun g => ',' :: g)).flatten) ∧
      (∀ g ∈ groups, g.length = 3) ∧ groups.flatten = l := by
  intro k
  induction k with
  | zero =>
    intro l hl
    have : l = [] := List.length_eq_zero.mp (by simpa using hl)
    subst this
    exact ⟨[], rfl, by simp, rfl⟩
  | succ k ih =>
    intro l hl
    match l, hl with
    | a :: b :: c :: rest, hl =>
      have hr : rest.length = 3 * k := by simp only [List.length_cons] at hl; omega
      obtain ⟨groups, hg, hlen, hj⟩ := ih rest hr
      refine ⟨[a, b, c] :: groups, ?_, ?_, ?_⟩
      · simp only [commaGroups, hg, Option.map_some', List.map_cons, List.flatten_cons]
        rfl
      · intro g hgm
        rcases List.mem_cons.mp hgm with rfl | h
        · rfl
        · exact hlen g h
      · simp only [List.flatten_cons, hj]
        rfl
    | [], hl => exfalso; simp only [List.length_cons, List.length_nil] at hl; omega
    | [_], hl => exfalso; simp only [List.length_cons, List.length_nil] at hl; omega
    | [_, _], hl => exfalso; simp only [List.length_cons, List.length_nil] at hl; omega

/-- The character of a decimal digit is a digit. -/
theorem digitChar_isDigit : ∀ d, d < 10 → (Nat.digitChar d).isDigit = true := by decide

/-- The decimal printing of a natural number writes digits only. -/
theorem toDigitsCore_digits (f : Nat) : ∀ (n : Nat) (ds : List Char),
    (∀ c ∈ ds, c.isDigit = true) → ∀ c ∈ Nat.toDigitsCore 10 f n ds, c.isDigit = true := by
  induction f with
  | zero => intro n ds h; simpa [Nat.toDigitsCore] using h
  | succ f ih =>
    intro n ds h
    have hd : ∀ c ∈ Nat.digitChar (n % 10) :: ds, c.isDigit = true := by
      intro c hc
      rcases List.mem_cons.mp hc with rfl | hc
      · exact digitChar_isDigit _ (Nat.mod_lt _ (by decide))
      · exact h c hc
    simp only [Nat.toDigitsCore]
    split_ifs
    · exact hd
    · exact ih _ _ hd

/-- The decimal printing only adds characters. -/
theorem toDigitsCore_length_ge (f : Nat) : ∀ (n : Nat) (ds : List Char),
    ds.length ≤ (Nat.toDigitsCore 10 f n ds).length := by
  induction f with
  | zero => intro n ds; simp [Nat.toDigitsCore]
  | succ f ih =>
    intro n ds
    simp only [Nat.toDigitsCore]
    split_ifs
    · simp
    · exact le_trans (by simp) (ih _ _)

/-- The decimal printing of a natural number is not empty. -/
theorem toDigits_pos (n : Nat) : 1 ≤ (Nat.toDigits 10 n).length := by
  unfold Nat.toDigits
  simp only [Nat.toDigitsCore]
  split_ifs
  · simp
  · exact le_trans (by simp) (toDigitsCore_length_ge _ _ _)

/-- For every `int64` other than the least one, `formatIntWithCommas` returns the sign, a
first group of one to three digits and then groups of exactly three digits, each after a
comma; the groups put together are the decimal digits of the absolute value. -/
theorem formatIntWithCommas_groups (n : Int) (hlo : -2 ^ 63 < n) (hhi : n < 2 ^ 63) :
    ∃ first : List Char, ∃ groups : List (List Char),
      formatIntWithCommas n =
        some (String.mk ((if n < 0 then ['-'] else []) ++ first ++
          (groups.map (fun g => ',' :: g)).flatten)) ∧
      1 ≤ first.length ∧ first.length ≤ 3 ∧ (∀ g ∈ groups, g.length = 3) ∧
      first ++ groups.flatten = Nat.toDigits 10 n.natAbs ∧
      (∀ c ∈ Nat.toDigits 10 n.natAbs, c.isDigit = true) := by
  have hs : sprintfD (if n < 0 then wrapInt64 (-n) else n) = Nat.toDigits 10 n.natAbs := by
    unfold sprintfD
    by_cases hn : n < 0
    · have hw : wrapInt64 (-n) = -n := by
        unfold wrapInt64
        omega
      have hnn : ¬ -n < 0 := by omega
      simp only [hn, if_true, hw, hnn, if_false, Int.natAbs_neg]
    · simp only [hn, if_false]
  have hdig : ∀ c ∈ Nat.toDigits 10 n.natAbs, c.isDigit = true :=
    toDigitsCore_digits _ _ [] (by simp)
  have hpos := toDigits_pos n.natAbs
  unfold formatIntWithCommas
  simp only [hs]
  generalize Nat.toDigits 10 n.natAbs = s at hpos hdig ⊢
  by_cases h3 : s.length ≤ 3
  · refine ⟨s, [], ?_, hpos, h3, by simp, by simp, hdig⟩
    simp [h3]
  · simp only [h3, if_false]
    have hrem : ∃ r, (if s.length % 3 = 0 then 3 else s.length % 3) = r ∧ 1 ≤ r ∧ r ≤ 3 ∧
        ∃ k, s.length - r = 3 * k := by
      refine ⟨_, rfl, ?_, ?_, ?_⟩
      · split_ifs <;> omega
      · split_ifs <;> omega
      · split_ifs with h0
        · exact ⟨s.length / 3 - 1, by omega⟩
        · exact ⟨s.length / 3, by omega⟩
    obtain ⟨r, hr, hr1, hr3, k, hk⟩ := hrem
    rw [hr]
    obtain ⟨groups, hg, hlen, hj⟩ := commaGroups_mul3 k (s.drop r) (by simp [hk])
    refine ⟨s.take r, groups, ?_, ?_, ?_, hlen, ?_, hdig⟩
    · rw [hg]; rfl
    · simp; omega
    · simp; omega
    · rw [hj, List.take_append_drop]
/-- C30, failing input: for the least `int64` the negation `n = -n` wraps to the same
value, `fmt.Sprintf` prints it with its own minus sign, and `formatIntWithCommas` returns
"--9,223,372,036,854,775,808": two minus signs, and a first group that is not one to three
digits. For -1234567 and 1234567 the result is as claimed. -/
theorem formatIntWithCommas_min_int64 :
    formatIntWithCommas (-9223372036854775808) = some "--9,223,372,036,854,775,808" ∧
      wrapInt64 (-(-9223372036854775808)) = -9223372036854775808 ∧
      formatIntWithCommas (-1234567) = some "-1,234,567" ∧
      formatIntWithCommas 1234567 = some "1,234,567" ∧
      formatIntWithCommas 0 = some "0" := by
  refine ⟨?_, ?_, ?_, ?_, ?_⟩ <;> decide

end utils

/-! ## Theorems: the cached fetch, pair by pair -/

namespace sources

end sources

namespace sources

end sources

end CurrencyBot
